import Mathlib

/-! Audio bitrate controller (`src/bitratecontrol.c`)

A shallow embedding of the adaptive bitrate / packetization controller of
mediastreamer2 and theorems about its decision engine: the quality analyser,
the improvement detector, the action executor and the four-state machine.

Modelling conventions

* C `int` values are integers (`Int`); `/` on `int` is `Int.tdiv` (truncation
  toward zero).  The product `cur_br*action->value` of `execute_action`
  exceeds 32 bits for bitrates an encoder can report; the new bitrate is
  therefore computed on 32 bits, with the two's complement wrap around of the
  compiled code (`int_wrap`).  The packetization intervals (multiples of
  20 up to 100 in every reachable controller) and the counter (at most 5) stay
  far from the limits of `int` and are computed on the integers.
* `curindex` starts at 0 and is only ever incremented; a negative value would
  index outside `stats`.  It is a `Nat`.
* C `float` values are the finite IEEE-754 binary32 numbers (`CFloat`).  The
  data model of the controller only knows numeric samples (loss in [0,100],
  jitter and round trip time non negative), so NaN and the infinities are
  not represented.  Comparisons of finite floats are exact, they are
  comparisons of the rational values.
* Arithmetic that rounds (the conversions of `read_report`) goes through a
  `FloatEnv`, which supplies the rounding to `float` and to `double`.  The
  theorems on the state machine hold for every rounding; the theorems on the
  recorded values assume what IEEE-754 arithmetic does, rounding to nearest
  (`FloatEnv.round_to_nearest`), and `ieee_float_env` is such a rounding.
* With a payload type whose clock rate is 0 the jitter quotient of
  `read_report` is a division by `0.0`, infinite or NaN in C; this value is
  outside `CFloat`, and the theorems on the recorded jitter require a clock
  rate other than 0.
* `ms_message` only writes to the log and is left out.
* The encoder behind `ms_filter_call_method` is an external object: it is a
  record of the method calls made so far together with the answer the encoder
  gives to each call.
* A function that writes through a pointer returns the new content: the
  analyser returns the action, the executor and the state machine return the
  controller and the encoder.  The local variable `action` of `state_machine`
  is not initialised in C; its initial content is an argument.
-/

namespace BitrateControl

/-! ## C `float` -/

/-- A finite value of the C type `float` (IEEE-754 binary32): the number
`m * 2 ^ e` with a mantissa of at most 24 bits and an exponent between the one
of the smallest subnormal number and the one of the largest finite number. -/
structure CFloat where
  m : Int
  e : Int
  hm : m.natAbs < 2 ^ 24
  he : -149 ≤ e ∧ e ≤ 104
deriving DecidableEq

/-- The rational number a float stands for. -/
def CFloat.toRat (x : CFloat) : ℚ := x.m * (2 : ℚ) ^ x.e

/-- The float `0.0`, the content of memory returned by `ms_new0`. -/
def CFloat.zero : CFloat := ⟨0, 0, by decide, by decide⟩

/-- Conversion of a small C `int` constant to `float` (exact below `2 ^ 24`). -/
def CFloat.ofSmallInt (n : Int) (h : n.natAbs < 2 ^ 24) : CFloat :=
  ⟨n, 0, h, by decide⟩

/-- Conversion `(int) x` of a floating point value: the fractional part is
discarded (truncation toward zero). -/
def float_to_int (q : ℚ) : Int := q.num.tdiv q.den

/-- The value a 32-bit `int` takes when the mathematical result of an
operation is `x`: `x` itself between `-2 ^ 31` and `2 ^ 31 - 1`, and the two's
complement wrap around otherwise. -/
def int_wrap (x : Int) : Int := (x + 2 ^ 31) % 2 ^ 32 - 2 ^ 31

/-- The macro `MIN(a,b)` on floating point operands (not defined in this file;
it is the usual minimum `((a)>(b) ? (b) : (a))`). -/
def MIN (a b : ℚ) : ℚ := if a > b then b else a

/-! ## Constants and types -/

/-- The size of the history, `#define STATS_HISTORY 3`. -/
def STATS_HISTORY : Nat := 3

/-- The constant `static const float unacceptable_loss_rate=20;` (percent). -/
def unacceptable_loss_rate : CFloat := CFloat.ofSmallInt 20 (by decide)

/-- The constant `static const int big_jitter=40;` (milliseconds). -/
def big_jitter : Int := 40

/-- The constant `static const float significant_delay=0.2;` (seconds): the binary32 number
nearest to 0.2, which is `13421773 * 2 ^ (-26) = 0.20000000298...`. -/
def significant_delay : CFloat := ⟨13421773, -26, by decide, by decide⟩

/-- The constant `static const int max_ptime=100;` (milliseconds). -/
def max_ptime : Int := 100

/-- The type `enum state_t`. -/
inductive state_t
  | Init
  | Probing
  | Stable
  | ProbingUp
deriving DecidableEq, Repr

/-- The type `struct rtpstats`. -/
structure rtpstats_t where
  high_seq_recv : Nat
  lost_percentage : CFloat
  int_jitter : CFloat
  rt_prop : CFloat
deriving DecidableEq

/-- The type `enum action_type`. -/
inductive action_type
  | DoNothing
  | DecreaseBitrate
  | DecreasePacketRate
  | IncreaseQuality
deriving DecidableEq, Repr

/-- The type `struct action`. -/
structure action_t where
  type : action_type
  value : Int
deriving DecidableEq

/-- The type `struct _MSAudioBitrateController`, without the two pointers `session` and
`encoder` to the external objects, which the functions below receive as
arguments. -/
structure MSAudioBitrateController where
  clockrate : Int
  stats : Fin STATS_HISTORY → rtpstats_t
  curindex : Nat
  state : state_t
  min_ptime : Int
  nom_bitrate : Int
  cur_ptime : Int
  cur_bitrate : Int
  stable_count : Int

/-- The array access `obj->stats[i % STATS_HISTORY]`. -/
def stats_at (obj : MSAudioBitrateController) (i : Nat) : rtpstats_t :=
  obj.stats ⟨i % STATS_HISTORY, Nat.mod_lt i (by decide)⟩

/-! ## Quality analyser and improvement detector -/

/-- The function `rt_prop_doubled(cur, prev)`.  The product `prev->rt_prop*2.0` is computed
in `double`, where it is exact. -/
def rt_prop_doubled (cur prev : rtpstats_t) : Bool :=
  if cur.rt_prop.toRat ≥ significant_delay.toRat ∧ prev.rt_prop.toRat > 0 then
    if cur.rt_prop.toRat ≥ prev.rt_prop.toRat * 2 then
      true
    else
      false
  else
    false

/-- The function `rt_prop_increased(obj)`. -/
def rt_prop_increased (obj : MSAudioBitrateController) : Bool :=
  let cur := stats_at obj obj.curindex
  let prev := stats_at obj (STATS_HISTORY + obj.curindex - 1)
  if rt_prop_doubled cur prev then true else false

/-- The function `analyse_quality(obj, action)`: it writes through the pointer
`action`; the value returned here is the content of `*action` afterwards.  In
the last two branches only `action->type` is written. -/
def analyse_quality (obj : MSAudioBitrateController) (action : action_t) : action_t :=
  let cur := stats_at obj obj.curindex
  if cur.lost_percentage.toRat ≥ unacceptable_loss_rate.toRat
      ∧ cur.int_jitter.toRat ≥ (big_jitter : ℚ) then
    { type := action_type.DecreaseBitrate
      value := float_to_int (MIN cur.lost_percentage.toRat 50) }
  else if rt_prop_increased obj then
    { type := action_type.DecreaseBitrate, value := 20 }
  else if cur.lost_percentage.toRat ≥ unacceptable_loss_rate.toRat then
    { action with type := action_type.DecreasePacketRate }
  else
    { action with type := action_type.DoNothing }

/-- The function `has_improved(obj)`; the `goto end` of the first branch is the `false` of
the inner conditional. -/
def has_improved (obj : MSAudioBitrateController) : Bool :=
  let cur := stats_at obj obj.curindex
  let prev := stats_at obj (STATS_HISTORY + obj.curindex - 1)
  let prev2 := stats_at obj (STATS_HISTORY + obj.curindex - 2)
  if prev.lost_percentage.toRat ≥ unacceptable_loss_rate.toRat then
    if cur.lost_percentage.toRat < prev.lost_percentage.toRat then
      true
    else
      false
  else if rt_prop_doubled prev prev2 ∧ cur.rt_prop.toRat < prev.rt_prop.toRat then
    true
  else
    false

/-! ## The encoder -/

/-- The methods `ms_filter_call_method` is asked to run on the encoder, with
the content of the argument that is passed. -/
inductive Call
  | GET_BITRATE
  | SET_BITRATE (arg : Int)
  | ADD_FMTP (arg : String)
deriving DecidableEq, Repr

/-- What a method call gives back: the value `ms_filter_call_method` returns
(0 on success) and, for `GET_BITRATE`, the integer the encoder stored through
the argument pointer, if it stored one. -/
structure Reply where
  ret : Int
  out : Option Int

/-- The encoder filter, seen from the controller: the calls it has received so
far (oldest first) and the answer it gives to the last call of any sequence of
calls.  Every sequence of outcomes is the behaviour of some `answer`. -/
structure MSFilter where
  calls : List Call
  answer : List Call → Reply

/-- The call `ms_filter_call_method(f, id, arg)`: the reply and the encoder afterwards. -/
def ms_filter_call_method (f : MSFilter) (c : Call) : Reply × MSFilter :=
  (f.answer (f.calls ++ [c]), { f with calls := f.calls ++ [c] })

/-- The function `ms_audio_bitrate_controller_new(session, encoder, flags)`: `ms_new0`
zeroes the structure (state `Init`); `nom_bitrate` is 0 unless the encoder
stores a bitrate. -/
def ms_audio_bitrate_controller_new (encoder : MSFilter) :
    MSAudioBitrateController × MSFilter :=
  let g := ms_filter_call_method encoder Call.GET_BITRATE
  let nom_bitrate := g.1.out.getD 0
  ({ clockrate := 0
     stats := fun _ => ⟨0, CFloat.zero, CFloat.zero, CFloat.zero⟩
     curindex := 0
     state := state_t.Init
     min_ptime := 20
     nom_bitrate := nom_bitrate
     cur_ptime := 20
     cur_bitrate := nom_bitrate
     stable_count := 0 }, g.2)

/-! ## Action executor -/

/-- The function `apply_ptime(obj)`: the text `ptime=<cur_ptime>` is sent with `ADD_FMTP`;
the result of the call only selects a log message. -/
def apply_ptime (obj : MSAudioBitrateController) (encoder : MSFilter) : MSFilter :=
  (ms_filter_call_method encoder (Call.ADD_FMTP ("ptime=" ++ toString obj.cur_ptime))).2

/-- The function `inc_ptime(obj)`. -/
def inc_ptime (obj : MSAudioBitrateController) (encoder : MSFilter) :
    MSAudioBitrateController × MSFilter :=
  if obj.cur_ptime ≥ max_ptime then
    (obj, encoder)
  else
    let obj1 := { obj with cur_ptime := obj.cur_ptime + obj.min_ptime }
    (obj1, apply_ptime obj1 encoder)

/-- The function `execute_action(obj, action)`: the returned `int`, the controller and the
encoder afterwards.  The new bitrate `cur_br-((cur_br*action->value)/100)` is
an `int` expression: product and difference are taken on 32 bits. -/
def execute_action (obj : MSAudioBitrateController) (encoder : MSFilter) (action : action_t) :
    Int × MSAudioBitrateController × MSFilter :=
  if action.type = action_type.DecreaseBitrate then
    if obj.nom_bitrate = 0 then
      (0, inc_ptime obj encoder)
    else
      let g := ms_filter_call_method encoder Call.GET_BITRATE
      let cur_br : Int := g.1.out.getD 0
      if g.1.ret ≠ 0 then
        (0, inc_ptime obj g.2)
      else
        let new_br : Int := int_wrap (cur_br - (int_wrap (cur_br * action.value)).tdiv 100)
        let s := ms_filter_call_method g.2 (Call.SET_BITRATE new_br)
        if s.1.ret ≠ 0 then
          (0, inc_ptime obj s.2)
        else
          (0, obj, (ms_filter_call_method s.2 Call.GET_BITRATE).2)
  else if action.type = action_type.DecreasePacketRate then
    (0, inc_ptime obj encoder)
  else if action.type = action_type.IncreaseQuality then
    if obj.cur_ptime > obj.min_ptime then
      let obj1 := { obj with cur_ptime := obj.cur_ptime - obj.min_ptime }
      (0, obj1, apply_ptime obj1 encoder)
    else
      (-1, obj, encoder)
  else
    (0, obj, encoder)

/-! ## State machine -/

/-- The statements under `case Init:` of `state_machine`, which `case Stable:`
falls through to. -/
def state_machine_case_Init (obj : MSAudioBitrateController) (encoder : MSFilter)
    (action : action_t) : MSAudioBitrateController × MSFilter :=
  let action1 := analyse_quality obj action
  if action1.type ≠ action_type.DoNothing then
    let r := execute_action obj encoder action1
    ({ r.2.1 with state := state_t.Probing }, r.2.2)
  else if obj.stable_count ≥ 5 then
    let r := execute_action obj encoder { action1 with type := action_type.IncreaseQuality }
    ({ r.2.1 with state := state_t.ProbingUp }, r.2.2)
  else
    (obj, encoder)

/-- The function `state_machine(obj)`.  `action` is the content of the uninitialised local
variable `action_t action` when the function is entered. -/
def state_machine (obj : MSAudioBitrateController) (encoder : MSFilter) (action : action_t) :
    MSAudioBitrateController × MSFilter :=
  match obj.state with
  | state_t.Stable =>
    state_machine_case_Init { obj with stable_count := obj.stable_count + 1 } encoder action
  | state_t.Init =>
    state_machine_case_Init obj encoder action
  | state_t.Probing =>
    let obj1 := { obj with stable_count := 0 }
    if has_improved obj1 then
      ({ obj1 with state := state_t.Stable }, encoder)
    else
      let action1 := analyse_quality obj1 action
      if action1.type ≠ action_type.DoNothing then
        let r := execute_action obj1 encoder action1
        (r.2.1, r.2.2)
      else
        (obj1, encoder)
  | state_t.ProbingUp =>
    let obj1 := { obj with stable_count := 0 }
    let action1 := analyse_quality obj1 action
    if action1.type ≠ action_type.DoNothing then
      let r := execute_action obj1 encoder action1
      ({ r.2.1 with state := state_t.Probing }, r.2.2)
    else
      let r := execute_action obj1 encoder { action1 with type := action_type.IncreaseQuality }
      if r.1 = -1 then
        ({ r.2.1 with state := state_t.Init }, r.2.2)
      else
        (r.2.1, r.2.2)

/-! ## Reports -/

/-- The field of `PayloadType` the controller reads. -/
structure PayloadType where
  clock_rate : Int

/-- The RTP session, seen from the controller when a report is read: the
payload type `rtp_profile_get_payload` finds for the send payload type number
(`none` for `NULL`) and the value of
`rtp_session_get_round_trip_propagation`. -/
structure RtpSession where
  send_payload : Option PayloadType
  round_trip_propagation : CFloat

/-- The fields of an RTCP report block the controller reads. -/
structure report_block_t where
  high_ext_seq : Nat
  fraction_lost : Nat
  interarrival_jitter : Nat

/-- An incoming RTCP packet: a sender report or a receiver report, with its
first report block when it has one (`rtcp_SR_get_report_block(rtcp,0)`,
`rtcp_RR_get_report_block(rtcp,0)`), or another kind of packet. -/
inductive mblk_t
  | SR (rb : Option report_block_t)
  | RR (rb : Option report_block_t)
  | other

/-- Rounding of the floating point unit: `to_float` gives the `float` a real
result is rounded to, `to_double` the value of the `double` it is rounded
to. -/
structure FloatEnv where
  to_float : ℚ → CFloat
  to_double : ℚ → ℚ

/-- The four assignments to `*cur` at the end of `read_report`.  The constants
`100.0`, `256.0` and `1000.0` are `double`, so the products and quotients
are computed in `double` and the result is converted to `float`.  When
`(float)clockrate` is 0 the C quotient is infinite or NaN, which `CFloat`
cannot hold: the `int_jitter` computed here (a division by 0 gives 0 on the
rationals) then does not stand for the value the code stores, and the theorems
on the recorded jitter assume a clock rate other than 0. -/
def read_report_sample (fe : FloatEnv) (clockrate : Int) (session : RtpSession)
    (rb : report_block_t) : rtpstats_t :=
  { high_seq_recv := rb.high_ext_seq
    lost_percentage :=
      fe.to_float (fe.to_double
        (fe.to_double (100 * (fe.to_float rb.fraction_lost).toRat) / 256))
    int_jitter :=
      fe.to_float (fe.to_double
        (fe.to_double (1000 * (fe.to_float rb.interarrival_jitter).toRat)
          / (fe.to_float clockrate).toRat))
    rt_prop := session.round_trip_propagation }

/-- The function `read_report(obj, rb)`. -/
def read_report (fe : FloatEnv) (obj : MSAudioBitrateController) (session : RtpSession)
    (rb : report_block_t) : MSAudioBitrateController :=
  let obj1 := { obj with curindex := obj.curindex + 1 }
  let cur : Fin STATS_HISTORY := ⟨obj1.curindex % STATS_HISTORY, Nat.mod_lt _ (by decide)⟩
  if obj1.clockrate = 0 then
    match session.send_payload with
    | some pt =>
      let obj2 := { obj1 with clockrate := pt.clock_rate }
      { obj2 with stats := Function.update obj2.stats cur
                    (read_report_sample fe obj2.clockrate session rb) }
    | none => obj1
  else
    { obj1 with stats := Function.update obj1.stats cur
                  (read_report_sample fe obj1.clockrate session rb) }

/-- The report block `rb` that `ms_audio_bitrate_controller_process_rtcp`
takes from the packet: the first block of a sender or receiver report, `none`
(`NULL`) otherwise. -/
def report_block_of (rtcp : mblk_t) : Option report_block_t :=
  match rtcp with
  | mblk_t.SR b => b
  | mblk_t.RR b => b
  | mblk_t.other => none

/-- The function `ms_audio_bitrate_controller_process_rtcp(obj, rtcp)`; `action` is the
content of the uninitialised local variable of `state_machine`. -/
def ms_audio_bitrate_controller_process_rtcp (fe : FloatEnv) (obj : MSAudioBitrateController)
    (session : RtpSession) (encoder : MSFilter) (rtcp : mblk_t) (action : action_t) :
    MSAudioBitrateController × MSFilter :=
  match report_block_of rtcp with
  | some rb => state_machine (read_report fe obj session rb) encoder action
  | none => (obj, encoder)

/-! ## Definitions used to state the properties -/

/-- The sample `k` reports back in the history: the slot `(curindex - k) mod 3`,
with the mathematical (non negative) remainder. -/
def slot_back (obj : MSAudioBitrateController) (k : Nat) : rtpstats_t :=
  obj.stats ⟨(((obj.curindex : Int) - (k : Int)) % 3).toNat, by
    show _ < 3
    omega⟩

/-- The round trip time doubling condition in the words of the specification:
`cur.round_trip_seconds ≥ 0.2`, `prev.round_trip_seconds > 0` and
`cur.round_trip_seconds ≥ 2 × prev.round_trip_seconds`. -/
def rtt_doubling_condition (cur prev : rtpstats_t) : Prop :=
  cur.rt_prop.toRat ≥ 1 / 5 ∧ prev.rt_prop.toRat > 0 ∧ cur.rt_prop.toRat ≥ 2 * prev.rt_prop.toRat

instance (cur prev : rtpstats_t) : Decidable (rtt_doubling_condition cur prev) := by
  unfold rtt_doubling_condition
  infer_instance

/-- A sample with the given loss, jitter and round trip time. -/
def sample (loss jitter rtt : CFloat) : rtpstats_t :=
  { high_seq_recv := 0, lost_percentage := loss, int_jitter := jitter, rt_prop := rtt }

/-- A controller after two reports (`curindex = 2`) whose history holds `cur`,
`prev` and `prev2` as latest, previous and second previous sample. -/
def controller_with (cur prev prev2 : rtpstats_t) (st : state_t) (count ptime nom : Int) :
    MSAudioBitrateController :=
  { clockrate := 8000
    stats := fun i => if i.val = 2 then cur else if i.val = 1 then prev else prev2
    curindex := 2
    state := st
    min_ptime := 20
    nom_bitrate := nom
    cur_ptime := ptime
    cur_bitrate := nom
    stable_count := count }

/-- A controller whose latest sample has a loss of 20.3125 % (a fraction lost
of 52/256) and a jitter of 40 ms. -/
def c1_controller : MSAudioBitrateController :=
  controller_with
    (sample ⟨325, -4, by decide, by decide⟩ (CFloat.ofSmallInt 40 (by decide)) CFloat.zero)
    (sample CFloat.zero CFloat.zero CFloat.zero)
    (sample CFloat.zero CFloat.zero CFloat.zero)
    state_t.Init 0 20 0

/-- A controller whose latest sample has a loss of 25 % and a jitter of 50 ms. -/
def c1_witness_controller : MSAudioBitrateController :=
  controller_with
    (sample (CFloat.ofSmallInt 25 (by decide)) (CFloat.ofSmallInt 50 (by decide)) CFloat.zero)
    (sample CFloat.zero CFloat.zero CFloat.zero)
    (sample CFloat.zero CFloat.zero CFloat.zero)
    state_t.Init 0 20 0

/-- A controller with no loss and no jitter whose round trip time went from
0.15 s to 0.30 s (the nearest floats, `10066330 * 2 ^ (-26)` and
`10066330 * 2 ^ (-25)`). -/
def c2_controller_a : MSAudioBitrateController :=
  controller_with
    (sample CFloat.zero CFloat.zero ⟨10066330, -25, by decide, by decide⟩)
    (sample CFloat.zero CFloat.zero ⟨10066330, -26, by decide, by decide⟩)
    (sample CFloat.zero CFloat.zero CFloat.zero)
    state_t.Init 0 20 0

/-- A controller with no loss and no jitter whose round trip time went from
0.1 s to 0.2 s (the nearest floats, `13421773 * 2 ^ (-27)` and
`13421773 * 2 ^ (-26)`). -/
def c2_controller_b : MSAudioBitrateController :=
  controller_with
    (sample CFloat.zero CFloat.zero ⟨13421773, -26, by decide, by decide⟩)
    (sample CFloat.zero CFloat.zero ⟨13421773, -27, by decide, by decide⟩)
    (sample CFloat.zero CFloat.zero CFloat.zero)
    state_t.Init 0 20 0

/-- A controller in state `Probing` whose previous loss was 30 % and is still
30 %, while the round trip time went 0.1 s, 0.4 s, 0.1 s. -/
def c4_controller : MSAudioBitrateController :=
  controller_with
    (sample (CFloat.ofSmallInt 30 (by decide)) CFloat.zero ⟨13421773, -27, by decide, by decide⟩)
    (sample (CFloat.ofSmallInt 30 (by decide)) CFloat.zero ⟨13421773, -25, by decide, by decide⟩)
    (sample CFloat.zero CFloat.zero ⟨13421773, -27, by decide, by decide⟩)
    state_t.Probing 0 20 0

/-- The calls the encoder received between two of its states. -/
def calls_made (before after : MSFilter) : List Call :=
  after.calls.drop before.calls.length

/-- The controller after the first statement of `case Stable:`: the counter is
incremented in state `Stable` only. -/
def after_count (obj : MSAudioBitrateController) : MSAudioBitrateController :=
  if obj.state = state_t.Stable then { obj with stable_count := obj.stable_count + 1 } else obj

/-- An encoder that has received no call yet and answers every call with
success, storing a bitrate of 64000 bit/s. -/
def encoder_ok : MSFilter :=
  { calls := [], answer := fun _ => ⟨0, some 64000⟩ }

/-- A quiet sample: no loss, no jitter, no round trip time. -/
def quiet : rtpstats_t := sample CFloat.zero CFloat.zero CFloat.zero

/-- A lossy sample: 30 % loss, no jitter, no round trip time. -/
def lossy : rtpstats_t := sample (CFloat.ofSmallInt 30 (by decide)) CFloat.zero CFloat.zero

/-- The calls the ptime-increase fallback `inc_ptime` sends to the encoder:
none at the ceiling, otherwise one `ADD_FMTP` carrying the new interval. -/
def inc_ptime_calls (obj : MSAudioBitrateController) : List Call :=
  if obj.cur_ptime ≥ 100 then []
  else [Call.ADD_FMTP ("ptime=" ++ toString (obj.cur_ptime + obj.min_ptime))]

/-- What happens when one RTCP packet arrives: the packet, the session as the
controller finds it, and the content of the uninitialised local variable of
`state_machine`. -/
structure Event where
  session : RtpSession
  rtcp : mblk_t
  action : action_t

/-- The controller and the encoder after a sequence of RTCP packets. -/
def process_all (fe : FloatEnv) :
    MSAudioBitrateController × MSFilter → List Event → MSAudioBitrateController × MSFilter
  | s, [] => s
  | s, ev :: evs =>
    process_all fe
      (ms_audio_bitrate_controller_process_rtcp fe s.1 ev.session s.2 ev.rtcp ev.action) evs

/-- Every packet of the sequence carries a report that is processed, and the
analyser classifies each of them as `DoNothing` when it is processed. -/
def all_DoNothing (fe : FloatEnv) :
    MSAudioBitrateController × MSFilter → List Event → Prop
  | _, [] => True
  | s, ev :: evs =>
    (match report_block_of ev.rtcp with
      | some rb =>
        (analyse_quality (read_report fe s.1 ev.session rb) ev.action).type
          = action_type.DoNothing
      | none => False)
    ∧ all_DoNothing fe
        (ms_audio_bitrate_controller_process_rtcp fe s.1 ev.session s.2 ev.rtcp ev.action) evs

instance all_DoNothing_decidable (fe : FloatEnv) :
    (s : MSAudioBitrateController × MSFilter) → (evs : List Event) →
      Decidable (all_DoNothing fe s evs)
  | _, [] => isTrue trivial
  | s, ev :: evs =>
    have := all_DoNothing_decidable fe
      (ms_audio_bitrate_controller_process_rtcp fe s.1 ev.session s.2 ev.rtcp ev.action) evs
    match h : report_block_of ev.rtcp with
    | some rb =>
      decidable_of_iff
        ((analyse_quality (read_report fe s.1 ev.session rb) ev.action).type
            = action_type.DoNothing
          ∧ all_DoNothing fe
              (ms_audio_bitrate_controller_process_rtcp fe s.1 ev.session s.2 ev.rtcp ev.action)
              evs)
        (by simp only [all_DoNothing, h])
    | none => isFalse (by simp only [all_DoNothing, h]; simp)

/-- A floating point environment for the examples: an integer below `2 ^ 24` is
converted to `float` exactly, as in C, and `double` results are exact.  The
examples convert no other number. -/
def example_float_env : FloatEnv :=
  { to_float := fun q =>
      if h : q.den = 1 ∧ q.num.natAbs < 2 ^ 24 then ⟨q.num, 0, h.2, by decide⟩
      else CFloat.zero
    to_double := fun q => q }

/-- A receiver report without loss nor jitter, arriving on a session with an
8000 Hz payload type and no round trip time. -/
def quiet_event : Event :=
  { session := { send_payload := some ⟨8000⟩, round_trip_propagation := CFloat.zero }
    rtcp := mblk_t.RR (some ⟨0, 0, 0⟩)
    action := ⟨action_type.DoNothing, 0⟩ }

/-- An encoder that refuses every call and stores nothing. -/
def encoder_refusing : MSFilter :=
  { calls := [], answer := fun _ => ⟨-1, none⟩ }

/-- A processed report: a sender or receiver report that carries a report
block, the session as the controller finds it, and the content of the
uninitialised local variable of `state_machine`. -/
structure Report where
  session : RtpSession
  rb : report_block_t
  sender : Bool
  action : action_t

/-- The packet and its circumstances, for a processed report. -/
def Report.toEvent (r : Report) : Event :=
  { session := r.session
    rtcp := if r.sender then mblk_t.SR (some r.rb) else mblk_t.RR (some r.rb)
    action := r.action }

/-- The sample a report is converted to once the clock rate is `clockrate`. -/
def Report.sample (fe : FloatEnv) (clockrate : Int) (r : Report) : rtpstats_t :=
  read_report_sample fe clockrate r.session r.rb

/-- A receiver report from a session with an 8000 Hz payload type and no round
trip time, with the given sequence number, fraction lost and jitter. -/
def report_8000 (seq fraction_lost jitter : Nat) : Report :=
  { session := { send_payload := some ⟨8000⟩, round_trip_propagation := CFloat.zero }
    rb := ⟨seq, fraction_lost, jitter⟩
    sender := false
    action := ⟨action_type.DoNothing, 0⟩ }

/-- The numbers a C `double` (IEEE-754 binary64) can hold: `m * 2 ^ e` with a
mantissa of at most 53 bits. -/
def is_double (q : ℚ) : Prop :=
  ∃ m e : Int, m.natAbs < 2 ^ 53 ∧ -1074 ≤ e ∧ e ≤ 971 ∧ q = m * (2 : ℚ) ^ e

/-- Two consequences of IEEE-754 rounding, enough for the runs whose numbers
the target type can hold: such a number is not changed, and a non negative
number is rounded to a non negative number.  (Nearness of the result is
`FloatEnv.round_to_nearest`.) -/
structure FloatEnv.correctly_rounded (fe : FloatEnv) : Prop where
  float_exact : ∀ x : CFloat, (fe.to_float x.toRat).toRat = x.toRat
  double_exact : ∀ q : ℚ, is_double q → fe.to_double q = q
  float_nonneg : ∀ q : ℚ, 0 ≤ q → 0 ≤ (fe.to_float q).toRat
  double_nonneg : ∀ q : ℚ, 0 ≤ q → 0 ≤ fe.to_double q

/-- The float `q` with the exponent `i - 149`, when `q` is a multiple of
`2 ^ (i - 149)` whose mantissa fits in 24 bits. -/
def float_candidate (q : ℚ) (i : Nat) : Option CFloat :=
  if h : (q / (2 : ℚ) ^ ((i : Int) - 149)).den = 1
      ∧ (q / (2 : ℚ) ^ ((i : Int) - 149)).num.natAbs < 2 ^ 24 ∧ i ≤ 253 then
    some ⟨(q / (2 : ℚ) ^ ((i : Int) - 149)).num, (i : Int) - 149, h.2.1, by omega⟩
  else
    none

/-- A floating point environment for the examples that converts every number
a `float` can hold exactly (it looks for an exponent that fits); the examples
convert no other number.  Results in `double` are kept exact. -/
def exact_float_env : FloatEnv :=
  { to_float := fun q => ((List.range 254).findSome? (float_candidate q)).getD CFloat.zero
    to_double := fun q => q }

/-- A state of the controller and of the encoder that a freshly created
controller reaches by processing some sequence of RTCP packets, with some
encoder behaviour, some session answers and some rounding. -/
def reachable (s : MSAudioBitrateController × MSFilter) : Prop :=
  ∃ (fe : FloatEnv) (encoder : MSFilter) (evs : List Event),
    s = process_all fe (ms_audio_bitrate_controller_new encoder) evs

/-- The invariant of the reachable controllers: `min_ptime` is 20,
`cur_ptime` is one of 20, 40, 60, 80, 100, the counter is not negative, it is
0 in `Init` and at most 4 in `Stable`. -/
def controller_invariant (obj : MSAudioBitrateController) : Prop :=
  obj.min_ptime = 20
  ∧ (∃ k : Int, 1 ≤ k ∧ k ≤ 5 ∧ obj.cur_ptime = 20 * k)
  ∧ 0 ≤ obj.stable_count
  ∧ (obj.state = state_t.Init → obj.stable_count = 0)
  ∧ (obj.state = state_t.Stable → obj.stable_count ≤ 4)

/-- A controller with a bitrate knob (nominal bitrate 64000 bit/s) whose latest
sample has a loss of 25 % and a jitter of 50 ms. -/
def c19_controller : MSAudioBitrateController :=
  controller_with
    (sample (CFloat.ofSmallInt 25 (by decide)) (CFloat.ofSmallInt 50 (by decide)) CFloat.zero)
    quiet quiet state_t.Init 0 20 64000

/-- Three receiver reports at 8000 Hz: 25 % loss (a fraction lost of 64/256),
no loss, 25 % loss again; no jitter. -/
def lossy_quiet_lossy : List Report :=
  [report_8000 1 64 0, report_8000 2 0 0, report_8000 3 64 0]

/-- The largest finite `float`, `FLT_MAX`. -/
def FLT_MAX : ℚ := (2 ^ 24 - 1) * 2 ^ 104

/-- The largest finite `double`, `DBL_MAX`. -/
def DBL_MAX : ℚ := (2 ^ 53 - 1) * 2 ^ 971

/-- The rounding of IEEE-754 arithmetic in its default mode, as far as finite
results go: a number within the range of `float` is converted to a `float`
nearest to it (no `float` is nearer), and a number within the range of
`double` is rounded to a `double` nearest to it. -/
structure FloatEnv.round_to_nearest (fe : FloatEnv) : Prop where
  float_nearest : ∀ q : ℚ, |q| ≤ FLT_MAX →
    ∀ y : CFloat, |(fe.to_float q).toRat - q| ≤ |y.toRat - q|
  double_is_double : ∀ q : ℚ, |q| ≤ DBL_MAX → is_double (fe.to_double q)
  double_nearest : ∀ q : ℚ, |q| ≤ DBL_MAX →
    ∀ d : ℚ, is_double d → |fe.to_double q - q| ≤ |d - q|

/-- The power `2 ^ e` for an integer exponent, computed on the naturals. -/
def pow2 (e : Int) : ℚ :=
  if 0 ≤ e then ((2 ^ e.toNat : Nat) : ℚ) else 1 / ((2 ^ (-e).toNat : Nat) : ℚ)

/-- The integer nearest to `q`; halfway between two integers, the even one. -/
def round_half_even (q : ℚ) : Int :=
  if q - ⌊q⌋ < 1 / 2 then ⌊q⌋
  else if 1 / 2 < q - ⌊q⌋ then ⌊q⌋ + 1
  else if ⌊q⌋ % 2 = 0 then ⌊q⌋ else ⌊q⌋ + 1

/-- The integer between `-(bound - 1)` and `bound - 1` nearest to `n`. -/
def clamp_mantissa (bound : Int) (n : Int) : Int :=
  if n < -(bound - 1) then -(bound - 1) else if bound - 1 < n then bound - 1 else n

/-- An element of `a :: l` at the least distance (the first one). -/
def best_of {α : Type} (dist : α → ℚ) : α → List α → α
  | a, [] => a
  | a, b :: l => if dist b < dist a then best_of dist b l else best_of dist a l

/-- The number of binary digits of `n` (with `fuel` at least that number). -/
def bit_length : Nat → Nat → Nat
  | 0, _ => 0
  | fuel + 1, n => if n = 0 then 0 else bit_length fuel (n / 2) + 1

/-- The numbers `m * 2 ^ (i + emin)` with a mantissa `-bound < m < bound` form
the class `i` of a binary format; the classes go from 0 to `imax`.  This is the
number of the class `min i imax` nearest to `q`. -/
def class_value (bound : Int) (emin : Int) (imax : Nat) (q : ℚ) (i : Nat) : ℚ :=
  clamp_mantissa bound (round_half_even (q / pow2 ((min i imax : Nat) + emin)))
    * pow2 ((min i imax : Nat) + emin)

/-- The class `i` is the one of the numbers of the size of `q ≥ 0`: `q` is below
`bound * 2 ^ (i + emin)` and, unless `i` is the lowest class, not below
`bound / 2 * 2 ^ (i + emin)`. -/
def window_ok (bound : Int) (emin : Int) (imax : Nat) (q : ℚ) (i : Nat) : Bool :=
  decide (i ≤ imax) && decide (q < bound * pow2 ((i : Int) + emin))
    && (decide (i = 0) || decide (((bound / 2 : Int) : ℚ) * pow2 ((i : Int) + emin) ≤ q))

/-- A guess of the class of `q > 0` for mantissas of `p` bits, from the number
of digits of its numerator and denominator. -/
def class_guess (p : Nat) (emin : Int) (q : ℚ) : Nat :=
  ((bit_length q.num.natAbs q.num.natAbs : Int) - (bit_length q.den q.den : Int)
    - (p : Int) - emin).toNat

/-- The classes in which a number nearest to `q ≥ 0` is looked for: the class
of the size of `q` and the next one, if one of the guesses is that class, and
all classes otherwise. -/
def classes_to_search (p : Nat) (emin : Int) (imax : Nat) (q : ℚ) : List Nat :=
  match [class_guess p emin q, class_guess p emin q + 1, 0].find?
      (window_ok (2 ^ p) emin imax q) with
  | some i => [i, i + 1]
  | none => List.range (imax + 1)

/-- The `float` of the class `min i 253` (exponent `min i 253 - 149`) nearest to
`q`. -/
def float_round_at (q : ℚ) (i : Nat) : CFloat :=
  ⟨clamp_mantissa (2 ^ 24) (round_half_even (q / pow2 ((min i 253 : Nat) + (-149)))),
   (min i 253 : Nat) + (-149),
   by unfold clamp_mantissa; split_ifs <;> omega, by omega⟩

/-- The opposite of a `float`. -/
def CFloat.neg (x : CFloat) : CFloat :=
  ⟨-x.m, x.e, by rw [Int.natAbs_neg]; exact x.hm, x.he⟩

/-- A `float` nearest to `q ≥ 0`. -/
def float_nearest_nonneg (q : ℚ) : CFloat :=
  best_of (fun c => |c.toRat - q|) (float_round_at q 0)
    ((classes_to_search 24 (-149) 253 q).map (float_round_at q))

/-- A `double` nearest to `q ≥ 0`. -/
def double_nearest_nonneg (q : ℚ) : ℚ :=
  best_of (fun d => |d - q|) (class_value (2 ^ 53) (-1074) 2045 q 0)
    ((classes_to_search 53 (-1074) 2045 q).map (class_value (2 ^ 53) (-1074) 2045 q))

/-- A floating point environment that rounds to nearest, ties to even: the
conversion to `float` and the rounding of a `double` result return a nearest
number of the format (beyond the range of the format, the largest finite
number). -/
def ieee_float_env : FloatEnv :=
  { to_float := fun q =>
      if 0 ≤ q then float_nearest_nonneg q else (float_nearest_nonneg (-q)).neg
    to_double := fun q =>
      if 0 ≤ q then double_nearest_nonneg q else -double_nearest_nonneg (-q) }

/-- The `float` `x` is nearest to `q`: no `float` is nearer. -/
def nearest_float (x : CFloat) (q : ℚ) : Prop :=
  ∀ y : CFloat, |x.toRat - q| ≤ |y.toRat - q|

/-- The number `d` is a `double` nearest to `q`: no `double` is nearer. -/
def nearest_double (d q : ℚ) : Prop :=
  is_double d ∧ ∀ y : ℚ, is_double y → |d - q| ≤ |y - q|

/-- A receiver report with a loss of 25 % (a fraction lost of 64/256) and no
jitter, arriving on a session with an 8000 Hz payload type and no round trip
time. -/
def lossy_event : Event :=
  { session := { send_payload := some ⟨8000⟩, round_trip_propagation := CFloat.zero }
    rtcp := mblk_t.RR (some ⟨0, 64, 0⟩)
    action := ⟨action_type.DoNothing, 0⟩ }

/-- The run of a fresh controller, on an encoder that refuses every call (so
that it has no bitrate knob), through `n` lossy reports followed by `m` quiet
reports. -/
def ptime_run (n m : Nat) : MSAudioBitrateController × MSFilter :=
  process_all ieee_float_env (ms_audio_bitrate_controller_new encoder_refusing)
    (List.replicate n lossy_event ++ List.replicate m quiet_event)

/-- Four receiver reports at 8000 Hz with the sequence numbers 1 to 4: 25 %
loss and 40 ms jitter (320 ticks), a quiet one, 50 % loss, and 12.5 % loss with
a jitter of 0.125 ms (one tick). -/
def four_reports : List Report :=
  [report_8000 1 64 320, report_8000 2 0 0, report_8000 3 128 0, report_8000 4 32 1]

/-! ## Floats and history slots -/

theorem significant_delay_le_iff (x : CFloat) :
    significant_delay.toRat ≤ x.toRat ↔ (1 / 5 : ℚ) ≤ x.toRat := by
  obtain ⟨m, e, hm, he⟩ := x
  simp only [CFloat.toRat, significant_delay]
  constructor
  · intro h
    have h0 : (1 / 5 : ℚ) ≤ ((13421773 : ℤ) : ℚ) * 2 ^ (-26 : ℤ) := by norm_num
    exact le_trans h0 h
  · intro h
    have hmpos : 0 < m := by
      by_contra hneg
      push_neg at hneg
      have h1 : (m : ℚ) * 2 ^ e ≤ 0 :=
        mul_nonpos_of_nonpos_of_nonneg (by exact_mod_cast hneg) (by positivity)
      linarith
    have hm2 : m < 2 ^ 24 := by omega
    rcases le_or_lt (-26) e with h26 | h26
    · obtain ⟨k, rfl⟩ : ∃ k : ℕ, e = (k : ℤ) - 26 := ⟨(e + 26).toNat, by omega⟩
      have h4 : (2 : ℚ) ^ (26 : ℤ) = 2 ^ 26 := by norm_num
      rw [zpow_sub₀ (two_ne_zero), zpow_natCast, h4] at h
      rw [zpow_sub₀ (two_ne_zero), zpow_natCast, h4]
      have h1 : ((2 ^ 26 : ℤ) : ℚ) ≤ ((5 * (m * 2 ^ k) : ℤ) : ℚ) := by
        push_cast
        field_simp at h
        linarith
      have h2 : (2 ^ 26 : ℤ) ≤ 5 * (m * 2 ^ k) := by exact_mod_cast h1
      have h5 : (13421773 : ℤ) ≤ m * 2 ^ k := by
        generalize m * 2 ^ k = n at h2
        omega
      have h6 : ((13421773 : ℤ) : ℚ) ≤ ((m * 2 ^ k : ℤ) : ℚ) := by exact_mod_cast h5
      push_cast at h6
      have h7 : ((13421773 : ℤ) : ℚ) * 2 ^ (-26 : ℤ) = 13421773 / 2 ^ 26 := by norm_num
      rw [h7, mul_div_assoc']
      exact div_le_div_of_nonneg_right h6 (by positivity)
    · exfalso
      have h1 : (2 : ℚ) ^ e ≤ 2 ^ (-27 : ℤ) := zpow_le_zpow_right₀ (by norm_num) (by omega)
      have h2 : (m : ℚ) < 2 ^ 24 := by exact_mod_cast hm2
      have h3 : (0 : ℚ) < m := by exact_mod_cast hmpos
      have h4 : (m : ℚ) * 2 ^ e ≤ 2 ^ 24 * 2 ^ (-27 : ℤ) :=
        mul_le_mul h2.le h1 (by positivity) (by positivity)
      have h5 : (2 : ℚ) ^ 24 * 2 ^ (-27 : ℤ) = 1 / 8 := by norm_num
      rw [h5] at h4
      linarith

theorem stats_at_cur (obj : MSAudioBitrateController) :
    stats_at obj obj.curindex = slot_back obj 0 := by
  have h : obj.curindex % 3 = (((obj.curindex : Int) - ((0 : Nat) : Int)) % 3).toNat := by omega
  unfold stats_at slot_back
  exact congrArg obj.stats (Fin.ext h)

theorem stats_at_prev (obj : MSAudioBitrateController) :
    stats_at obj (STATS_HISTORY + obj.curindex - 1) = slot_back obj 1 := by
  have h : (3 + obj.curindex - 1) % 3
      = (((obj.curindex : Int) - ((1 : Nat) : Int)) % 3).toNat := by omega
  unfold stats_at slot_back
  exact congrArg obj.stats (Fin.ext h)

theorem stats_at_prev2 (obj : MSAudioBitrateController) :
    stats_at obj (STATS_HISTORY + obj.curindex - 2) = slot_back obj 2 := by
  have h : (3 + obj.curindex - 2) % 3
      = (((obj.curindex : Int) - ((2 : Nat) : Int)) % 3).toNat := by omega
  unfold stats_at slot_back
  exact congrArg obj.stats (Fin.ext h)

theorem slot_back_controller_with (cur prev prev2 : rtpstats_t) (st : state_t)
    (count ptime nom : Int) :
    slot_back (controller_with cur prev prev2 st count ptime nom) 0 = cur
    ∧ slot_back (controller_with cur prev prev2 st count ptime nom) 1 = prev
    ∧ slot_back (controller_with cur prev prev2 st count ptime nom) 2 = prev2 := by
  refine ⟨rfl, rfl, rfl⟩

theorem float_to_int_eq_floor (q : ℚ) (h : 0 ≤ q) : float_to_int q = ⌊q⌋ := by
  unfold float_to_int
  rw [Rat.floor_def, Int.tdiv_eq_ediv (Rat.num_nonneg.mpr h) (by exact_mod_cast Nat.zero_le _)]

theorem rt_prop_doubled_iff (cur prev : rtpstats_t) :
    rt_prop_doubled cur prev = true ↔ rtt_doubling_condition cur prev := by
  have hs := significant_delay_le_iff cur.rt_prop
  unfold rt_prop_doubled rtt_doubling_condition
  by_cases h1 : cur.rt_prop.toRat ≥ significant_delay.toRat ∧ prev.rt_prop.toRat > 0
  · by_cases h2 : cur.rt_prop.toRat ≥ prev.rt_prop.toRat * 2
    · rw [if_pos h1, if_pos h2]
      exact ⟨fun _ => ⟨hs.mp h1.1, h1.2, by linarith⟩, fun _ => rfl⟩
    · rw [if_pos h1, if_neg h2]
      exact ⟨fun h => absurd h (by decide), fun h => absurd (by linarith [h.2.2]) h2⟩
  · rw [if_neg h1]
    exact ⟨fun h => absurd h (by decide), fun h => absurd ⟨hs.mpr h.1, h.2.1⟩ h1⟩

theorem rt_prop_increased_iff (obj : MSAudioBitrateController) :
    rt_prop_increased obj = true ↔ rtt_doubling_condition (slot_back obj 0) (slot_back obj 1) := by
  unfold rt_prop_increased
  simp only [stats_at_cur, stats_at_prev]
  rw [← rt_prop_doubled_iff]
  cases rt_prop_doubled (slot_back obj 0) (slot_back obj 1) <;> simp

/-! ## Quality analyser -/

theorem unacceptable_loss_rate_toRat : unacceptable_loss_rate.toRat = 20 := by
  norm_num [unacceptable_loss_rate, CFloat.ofSmallInt, CFloat.toRat]

theorem MIN_eq_min (a b : ℚ) : MIN a b = min a b := by
  unfold MIN
  split
  · rename_i h
    exact (min_eq_right (le_of_lt h)).symm
  · rename_i h
    exact (min_eq_left (not_lt.mp h)).symm

/-- The analyser, with its tests written on the samples `slot_back obj 0` and
`slot_back obj 1` and on the rational thresholds. -/
theorem analyse_quality_eq (obj : MSAudioBitrateController) (action : action_t) :
    analyse_quality obj action =
      if (slot_back obj 0).lost_percentage.toRat ≥ 20
          ∧ (slot_back obj 0).int_jitter.toRat ≥ 40 then
        { type := action_type.DecreaseBitrate
          value := ⌊min (slot_back obj 0).lost_percentage.toRat 50⌋ }
      else if rtt_doubling_condition (slot_back obj 0) (slot_back obj 1) then
        { type := action_type.DecreaseBitrate, value := 20 }
      else if (slot_back obj 0).lost_percentage.toRat ≥ 20 then
        { action with type := action_type.DecreasePacketRate }
      else
        { action with type := action_type.DoNothing } := by
  classical
  unfold analyse_quality
  simp only [stats_at_cur, unacceptable_loss_rate_toRat, big_jitter, Int.cast_ofNat,
    rt_prop_increased_iff, MIN_eq_min]
  by_cases h1 : (slot_back obj 0).lost_percentage.toRat ≥ 20
      ∧ (slot_back obj 0).int_jitter.toRat ≥ 40
  · rw [if_pos h1, if_pos h1, float_to_int_eq_floor]
    exact le_min (by linarith [h1.1]) (by norm_num)
  · rw [if_neg h1, if_neg h1]

/-- C1 (amended): when the latest sample has a loss of at least 20 % and a
jitter of at least 40 ms, `analyse_quality` answers `DecreaseBitrate`, never
`DecreasePacketRate`, whatever the round trip times are, and the magnitude is
the integer part of `min(loss, 50)` (the `int` the float is converted to); a
loss of exactly 25 gives the magnitude 25. -/
theorem analyse_quality_rule1 (obj : MSAudioBitrateController) (action : action_t)
    (hloss : (slot_back obj 0).lost_percentage.toRat ≥ 20)
    (hjitter : (slot_back obj 0).int_jitter.toRat ≥ 40) :
    (analyse_quality obj action).type = action_type.DecreaseBitrate
    ∧ (analyse_quality obj action).type ≠ action_type.DecreasePacketRate
    ∧ (analyse_quality obj action).value = ⌊min (slot_back obj 0).lost_percentage.toRat 50⌋
    ∧ ((slot_back obj 0).lost_percentage.toRat = 25 →
        (analyse_quality obj action).value = 25) := by
  rw [analyse_quality_eq, if_pos ⟨hloss, hjitter⟩]
  refine ⟨rfl, by simp, rfl, ?_⟩
  intro h
  show ⌊min (slot_back obj 0).lost_percentage.toRat 50⌋ = 25
  rw [h]
  norm_num

/-- Witness of C1: loss 25 %, jitter 50 ms. -/
theorem analyse_quality_rule1_witness :
    (analyse_quality c1_witness_controller ⟨action_type.DoNothing, 0⟩).type
        = action_type.DecreaseBitrate
    ∧ (analyse_quality c1_witness_controller ⟨action_type.DoNothing, 0⟩).value = 25 := by
  have hl : (slot_back c1_witness_controller 0).lost_percentage.toRat = 25 := by
    norm_num [c1_witness_controller, slot_back_controller_with, sample, CFloat.ofSmallInt,
      CFloat.toRat]
  have hj : (slot_back c1_witness_controller 0).int_jitter.toRat = 50 := by
    norm_num [c1_witness_controller, slot_back_controller_with, sample, CFloat.ofSmallInt,
      CFloat.toRat]
  have h := analyse_quality_rule1 c1_witness_controller ⟨action_type.DoNothing, 0⟩
    (by rw [hl]; norm_num) (by rw [hj]; norm_num)
  exact ⟨h.1, h.2.2.2 hl⟩

/-- C1 as stated fails: with a loss of 20.3125 % and a jitter of 40 ms the
magnitude is 20, which is not `min(loss, 50) = 20.3125`. -/
theorem analyse_quality_rule1_counterexample :
    (slot_back c1_controller 0).lost_percentage.toRat ≥ 20
    ∧ (slot_back c1_controller 0).int_jitter.toRat ≥ 40
    ∧ (analyse_quality c1_controller ⟨action_type.DoNothing, 0⟩).type
        = action_type.DecreaseBitrate
    ∧ (analyse_quality c1_controller ⟨action_type.DoNothing, 0⟩).value = 20
    ∧ (((analyse_quality c1_controller ⟨action_type.DoNothing, 0⟩).value : ℤ) : ℚ)
        ≠ min (slot_back c1_controller 0).lost_percentage.toRat 50 := by
  have hl : (slot_back c1_controller 0).lost_percentage.toRat = 325 / 16 := by
    norm_num [c1_controller, slot_back_controller_with, sample, CFloat.toRat]
  have hj : (slot_back c1_controller 0).int_jitter.toRat = 40 := by
    norm_num [c1_controller, slot_back_controller_with, sample, CFloat.ofSmallInt,
      CFloat.toRat]
  have hv : analyse_quality c1_controller ⟨action_type.DoNothing, 0⟩
      = ⟨action_type.DecreaseBitrate, 20⟩ := by
    rw [analyse_quality_eq, if_pos ⟨by rw [hl]; norm_num, by rw [hj]⟩, hl]
    have : ⌊min (325 / 16 : ℚ) 50⌋ = 20 := by
      rw [min_eq_left (by norm_num), Int.floor_eq_iff]
      norm_num
    rw [this]
  rw [hv, hl, hj]
  norm_num

/-- C2: when the latest sample does not satisfy rule 1 (loss below 20 % or
jitter below 40 ms), a latest round trip time of at least 0.2 s that is at
least twice a positive previous round trip time makes `analyse_quality` answer
`DecreaseBitrate` with magnitude exactly 20, whatever loss and jitter are; both
comparisons are inclusive. -/
theorem analyse_quality_rule2 (obj : MSAudioBitrateController) (action : action_t)
    (hrule1 : (slot_back obj 0).lost_percentage.toRat < 20
      ∨ (slot_back obj 0).int_jitter.toRat < 40)
    (hcur : (slot_back obj 0).rt_prop.toRat ≥ 1 / 5)
    (hprev : (slot_back obj 1).rt_prop.toRat > 0)
    (hdouble : (slot_back obj 0).rt_prop.toRat ≥ 2 * (slot_back obj 1).rt_prop.toRat) :
    analyse_quality obj action = ⟨action_type.DecreaseBitrate, 20⟩ := by
  have h1 : ¬((slot_back obj 0).lost_percentage.toRat ≥ 20
      ∧ (slot_back obj 0).int_jitter.toRat ≥ 40) := by
    rintro ⟨ha, hb⟩
    rcases hrule1 with h | h <;> linarith
  rw [analyse_quality_eq, if_neg h1, if_pos ⟨hcur, hprev, hdouble⟩]

/-- Witness of C2: the two examples of the specification, 0.15 s to 0.30 s and
0.1 s to 0.2 s, with zero loss and zero jitter. -/
theorem analyse_quality_rule2_witness :
    analyse_quality c2_controller_a ⟨action_type.DoNothing, 0⟩
        = ⟨action_type.DecreaseBitrate, 20⟩
    ∧ analyse_quality c2_controller_b ⟨action_type.DoNothing, 0⟩
        = ⟨action_type.DecreaseBitrate, 20⟩ := by
  constructor
  · apply analyse_quality_rule2 <;>
      norm_num [c2_controller_a, slot_back_controller_with, sample, CFloat.zero, CFloat.toRat]
  · apply analyse_quality_rule2 <;>
      norm_num [c2_controller_b, slot_back_controller_with, sample, CFloat.zero, CFloat.toRat]

/-- C3: `analyse_quality` answers `DecreasePacketRate` exactly when the latest
loss is at least 20 %, the latest jitter is below 40 ms and the round trip time
doubling condition between the latest and the previous sample is false; it
answers `DoNothing` exactly when the latest loss is below 20 % and the doubling
condition is false.  The answer is a function of the latest and the previous
sample only (and of nothing else in the controller); the analyser returns an
action and no controller, it writes no field. -/
theorem analyse_quality_rules34 (obj obj2 : MSAudioBitrateController)
    (action action2 : action_t) :
    ((analyse_quality obj action).type = action_type.DecreasePacketRate ↔
      (slot_back obj 0).lost_percentage.toRat ≥ 20
      ∧ (slot_back obj 0).int_jitter.toRat < 40
      ∧ ¬ rtt_doubling_condition (slot_back obj 0) (slot_back obj 1))
    ∧ ((analyse_quality obj action).type = action_type.DoNothing ↔
      (slot_back obj 0).lost_percentage.toRat < 20
      ∧ ¬ rtt_doubling_condition (slot_back obj 0) (slot_back obj 1))
    ∧ (slot_back obj 0 = slot_back obj2 0 → slot_back obj 1 = slot_back obj2 1 →
        analyse_quality obj action = analyse_quality obj2 action
        ∧ (analyse_quality obj action).type = (analyse_quality obj2 action2).type) := by
  refine ⟨?_, ?_, ?_⟩
  · rw [analyse_quality_eq]
    by_cases h1 : (slot_back obj 0).lost_percentage.toRat ≥ 20
        ∧ (slot_back obj 0).int_jitter.toRat ≥ 40
    · rw [if_pos h1]
      constructor
      · intro h
        simp at h
      · rintro ⟨_, hb, _⟩
        linarith [h1.2]
    · rw [if_neg h1]
      by_cases h2 : rtt_doubling_condition (slot_back obj 0) (slot_back obj 1)
      · rw [if_pos h2]
        constructor
        · intro h
          simp at h
        · rintro ⟨_, _, hc⟩
          exact absurd h2 hc
      · rw [if_neg h2]
        by_cases h3 : (slot_back obj 0).lost_percentage.toRat ≥ 20
        · rw [if_pos h3]
          refine ⟨fun _ => ⟨h3, ?_, h2⟩, fun _ => rfl⟩
          by_contra h4
          exact h1 ⟨h3, not_lt.mp h4⟩
        · rw [if_neg h3]
          constructor
          · intro h
            simp at h
          · rintro ⟨ha, _, _⟩
            exact absurd ha h3
  · rw [analyse_quality_eq]
    by_cases h1 : (slot_back obj 0).lost_percentage.toRat ≥ 20
        ∧ (slot_back obj 0).int_jitter.toRat ≥ 40
    · rw [if_pos h1]
      constructor
      · intro h
        simp at h
      · rintro ⟨ha, _⟩
        linarith [h1.1]
    · rw [if_neg h1]
      by_cases h2 : rtt_doubling_condition (slot_back obj 0) (slot_back obj 1)
      · rw [if_pos h2]
        constructor
        · intro h
          simp at h
        · rintro ⟨_, hc⟩
          exact absurd h2 hc
      · rw [if_neg h2]
        by_cases h3 : (slot_back obj 0).lost_percentage.toRat ≥ 20
        · rw [if_pos h3]
          constructor
          · intro h
            simp at h
          · rintro ⟨ha, _⟩
            linarith
        · rw [if_neg h3]
          exact ⟨fun _ => ⟨not_le.mp h3, h2⟩, fun _ => rfl⟩
  · intro e0 e1
    rw [analyse_quality_eq, analyse_quality_eq, analyse_quality_eq obj2 action2, ← e0, ← e1]
    refine ⟨rfl, ?_⟩
    split_ifs <;> rfl

/-- Witness of C3: two controllers with the same latest and previous sample
but another state, counter and packetization interval. -/
theorem analyse_quality_rules34_witness :
    analyse_quality c2_controller_a ⟨action_type.DoNothing, 0⟩
      = analyse_quality { c2_controller_a with state := state_t.Stable, stable_count := 3,
                                               cur_ptime := 60 } ⟨action_type.DoNothing, 0⟩ :=
  ((analyse_quality_rules34 c2_controller_a
    { c2_controller_a with state := state_t.Stable, stable_count := 3, cur_ptime := 60 }
    ⟨action_type.DoNothing, 0⟩ ⟨action_type.DoNothing, 0⟩).2.2 rfl rfl).1

/-- C4: with `cur`, `prev`, `prev2` the samples 0, 1 and 2 reports back,
`has_improved` is true exactly when either the previous loss was at least 20 %
and the latest loss is smaller, or the previous loss was below 20 %, the round
trip time had doubled between `prev2` and `prev` and the latest round trip
time is smaller than the previous one.  When the previous loss was at least
20 % and the loss did not decrease the answer is false, whatever the round
trip times are. -/
theorem has_improved_iff (obj : MSAudioBitrateController) :
    (has_improved obj = true ↔
      ((slot_back obj 1).lost_percentage.toRat ≥ 20
        ∧ (slot_back obj 0).lost_percentage.toRat < (slot_back obj 1).lost_percentage.toRat)
      ∨ ((slot_back obj 1).lost_percentage.toRat < 20
        ∧ ((slot_back obj 1).rt_prop.toRat ≥ 1 / 5
          ∧ (slot_back obj 2).rt_prop.toRat > 0
          ∧ (slot_back obj 1).rt_prop.toRat ≥ 2 * (slot_back obj 2).rt_prop.toRat)
        ∧ (slot_back obj 0).rt_prop.toRat < (slot_back obj 1).rt_prop.toRat))
    ∧ ((slot_back obj 1).lost_percentage.toRat ≥ 20 →
        (slot_back obj 0).lost_percentage.toRat ≥ (slot_back obj 1).lost_percentage.toRat →
        has_improved obj = false) := by
  unfold has_improved
  simp only [stats_at_cur, stats_at_prev, stats_at_prev2, unacceptable_loss_rate_toRat,
    rt_prop_doubled_iff]
  by_cases h1 : (slot_back obj 1).lost_percentage.toRat ≥ 20
  · rw [if_pos h1]
    by_cases h2 : (slot_back obj 0).lost_percentage.toRat
        < (slot_back obj 1).lost_percentage.toRat
    · rw [if_pos h2]
      refine ⟨⟨fun _ => Or.inl ⟨h1, h2⟩, fun _ => rfl⟩, fun _ h => ?_⟩
      linarith
    · rw [if_neg h2]
      refine ⟨⟨fun h => absurd h (by decide), ?_⟩, fun _ _ => rfl⟩
      rintro (⟨_, hb⟩ | ⟨ha, _⟩)
      · exact absurd hb h2
      · linarith
  · rw [if_neg h1]
    refine ⟨?_, fun h => absurd h h1⟩
    by_cases h2 : rtt_doubling_condition (slot_back obj 1) (slot_back obj 2)
        ∧ (slot_back obj 0).rt_prop.toRat < (slot_back obj 1).rt_prop.toRat
    · rw [if_pos h2]
      exact ⟨fun _ => Or.inr ⟨not_le.mp h1, h2.1, h2.2⟩, fun _ => rfl⟩
    · rw [if_neg h2]
      refine ⟨fun h => absurd h (by decide), ?_⟩
      rintro (⟨ha, _⟩ | ⟨_, hb, hc⟩)
      · exact absurd ha h1
      · exact absurd ⟨hb, hc⟩ h2

/-- Witness of C4: previous loss 30 %, latest loss 30 %, and a round trip time
that doubled and came back: no improvement is reported. -/
theorem has_improved_iff_witness : has_improved c4_controller = false :=
  (has_improved_iff c4_controller).2
    (by norm_num [c4_controller, slot_back_controller_with, sample, CFloat.ofSmallInt,
          CFloat.toRat])
    (by norm_num [c4_controller, slot_back_controller_with, sample, CFloat.ofSmallInt,
          CFloat.toRat])

/-! ## Action executor: frame lemmas -/

theorem inc_ptime_with_state (obj : MSAudioBitrateController) (encoder : MSFilter)
    (s : state_t) :
    inc_ptime { obj with state := s } encoder
      = ({ (inc_ptime obj encoder).1 with state := s }, (inc_ptime obj encoder).2) := by
  unfold inc_ptime
  split_ifs <;> rfl

theorem execute_action_with_state (obj : MSAudioBitrateController) (encoder : MSFilter)
    (action : action_t) (s : state_t) :
    execute_action { obj with state := s } encoder action
      = ((execute_action obj encoder action).1,
         { (execute_action obj encoder action).2.1 with state := s },
         (execute_action obj encoder action).2.2) := by
  unfold execute_action
  simp only [inc_ptime_with_state]
  split_ifs <;> rfl

theorem inc_ptime_frame (obj : MSAudioBitrateController) (encoder : MSFilter) :
    (inc_ptime obj encoder).1 = { obj with cur_ptime := (inc_ptime obj encoder).1.cur_ptime } := by
  unfold inc_ptime
  split_ifs <;> rfl

theorem execute_action_frame (obj : MSAudioBitrateController) (encoder : MSFilter)
    (action : action_t) :
    (execute_action obj encoder action).2.1
      = { obj with cur_ptime := (execute_action obj encoder action).2.1.cur_ptime } := by
  simp only [execute_action]
  split_ifs <;> first | rfl | exact inc_ptime_frame _ _

theorem execute_action_IncreaseQuality (obj : MSAudioBitrateController) (encoder : MSFilter)
    (v w : Int) :
    execute_action obj encoder ⟨action_type.IncreaseQuality, v⟩
      = execute_action obj encoder ⟨action_type.IncreaseQuality, w⟩ := by
  unfold execute_action
  simp

theorem analyse_quality_with_count (obj : MSAudioBitrateController) (action : action_t)
    (n : Int) :
    analyse_quality { obj with stable_count := n } action = analyse_quality obj action := rfl

theorem analyse_quality_with_state (obj : MSAudioBitrateController) (action : action_t)
    (s : state_t) :
    analyse_quality { obj with state := s } action = analyse_quality obj action := rfl

theorem has_improved_with_count (obj : MSAudioBitrateController) (n : Int) :
    has_improved { obj with stable_count := n } = has_improved obj := rfl

/-! ## State machine -/

theorem state_machine_case_Init_with_state (obj : MSAudioBitrateController)
    (encoder : MSFilter) (action : action_t) (s : state_t)
    (h : (analyse_quality obj action).type ≠ action_type.DoNothing ∨ obj.stable_count ≥ 5) :
    state_machine_case_Init { obj with state := s } encoder action
      = state_machine_case_Init obj encoder action := by
  simp only [state_machine_case_Init, analyse_quality_with_state, execute_action_with_state]
  split_ifs with h1 h2
  · rfl
  · rfl
  · rcases h with h | h
    · exact absurd h h1
    · exact absurd h h2

theorem state_machine_case_Init_unchanged (obj : MSAudioBitrateController)
    (encoder : MSFilter) (action : action_t)
    (h1 : (analyse_quality obj action).type = action_type.DoNothing)
    (h2 : obj.stable_count < 5) :
    state_machine_case_Init obj encoder action = (obj, encoder) := by
  simp only [state_machine_case_Init]
  rw [if_neg (not_not.mpr h1), if_neg (not_le.mpr h2)]

/-- C5: one step of `state_machine` from `Init` or `Stable`.  The counter is
first incremented in state `Stable` only (`after_count`).  Then, if the
analyser proposes an action other than `DoNothing`, that action is executed
and the new state is `Probing`; otherwise, if the counter is at least 5,
`IncreaseQuality` is executed and the new state is `ProbingUp` whatever the
executor returns; otherwise state and `cur_ptime` are unchanged and the
encoder receives no call.  The step from `Stable` is the step from `Init` on
the controller with the counter incremented, except that the unchanged case
stays in `Stable`. -/
theorem state_machine_Init_Stable (obj : MSAudioBitrateController) (encoder : MSFilter)
    (action : action_t)
    (hstate : obj.state = state_t.Init ∨ obj.state = state_t.Stable) :
    (after_count obj).stable_count
        = (if obj.state = state_t.Stable then obj.stable_count + 1 else obj.stable_count)
    ∧ ((analyse_quality obj action).type ≠ action_type.DoNothing →
        state_machine obj encoder action
          = ({ (execute_action (after_count obj) encoder (analyse_quality obj action)).2.1
                 with state := state_t.Probing },
             (execute_action (after_count obj) encoder (analyse_quality obj action)).2.2)
        ∧ (state_machine obj encoder action).1.state = state_t.Probing)
    ∧ ((analyse_quality obj action).type = action_type.DoNothing →
        (after_count obj).stable_count ≥ 5 → ∀ v : Int,
        state_machine obj encoder action
          = ({ (execute_action (after_count obj) encoder ⟨action_type.IncreaseQuality, v⟩).2.1
                 with state := state_t.ProbingUp },
             (execute_action (after_count obj) encoder ⟨action_type.IncreaseQuality, v⟩).2.2)
        ∧ (state_machine obj encoder action).1.state = state_t.ProbingUp)
    ∧ ((analyse_quality obj action).type = action_type.DoNothing →
        (after_count obj).stable_count < 5 →
        state_machine obj encoder action = (after_count obj, encoder)
        ∧ (state_machine obj encoder action).1.state = obj.state
        ∧ (state_machine obj encoder action).1.cur_ptime = obj.cur_ptime
        ∧ calls_made encoder (state_machine obj encoder action).2 = [])
    ∧ (obj.state = state_t.Stable →
        state_machine obj encoder action
          = ((if (state_machine { obj with state := state_t.Init
                                           stable_count := obj.stable_count + 1 }
                    encoder action).1.state = state_t.Init
              then { (state_machine { obj with state := state_t.Init
                                               stable_count := obj.stable_count + 1 }
                        encoder action).1 with state := state_t.Stable }
              else (state_machine { obj with state := state_t.Init
                                             stable_count := obj.stable_count + 1 }
                        encoder action).1),
             (state_machine { obj with state := state_t.Init
                                       stable_count := obj.stable_count + 1 }
                encoder action).2)) := by
  have hsm : state_machine obj encoder action
      = state_machine_case_Init (after_count obj) encoder action := by
    unfold state_machine after_count
    rcases hstate with h | h <;> simp [h]
  have han : analyse_quality (after_count obj) action = analyse_quality obj action := by
    unfold after_count
    split_ifs <;> rfl
  have hst : (after_count obj).state = obj.state := by
    unfold after_count
    split_ifs <;> rfl
  have hpt : (after_count obj).cur_ptime = obj.cur_ptime := by
    unfold after_count
    split_ifs <;> rfl
  refine ⟨?_, ?_, ?_, ?_, ?_⟩
  · unfold after_count
    split_ifs <;> rfl
  · intro h
    have e : state_machine obj encoder action
        = ({ (execute_action (after_count obj) encoder (analyse_quality obj action)).2.1
               with state := state_t.Probing },
           (execute_action (after_count obj) encoder (analyse_quality obj action)).2.2) := by
      rw [hsm]
      simp only [state_machine_case_Init, han]
      rw [if_pos h]
    exact ⟨e, by rw [e]⟩
  · intro h hc v
    have e : state_machine obj encoder action
        = ({ (execute_action (after_count obj) encoder ⟨action_type.IncreaseQuality, v⟩).2.1
               with state := state_t.ProbingUp },
           (execute_action (after_count obj) encoder ⟨action_type.IncreaseQuality, v⟩).2.2) := by
      rw [hsm]
      simp only [state_machine_case_Init, han]
      rw [if_neg (not_not.mpr h), if_pos hc,
        execute_action_IncreaseQuality _ _ (analyse_quality obj action).value v]
    exact ⟨e, by rw [e]⟩
  · intro h hc
    have e : state_machine obj encoder action = (after_count obj, encoder) := by
      rw [hsm]
      simp only [state_machine_case_Init, han]
      rw [if_neg (not_not.mpr h), if_neg (not_le.mpr hc)]
    refine ⟨e, by rw [e, hst], by rw [e, hpt], ?_⟩
    rw [e]
    simp [calls_made]
  · intro hS
    have e1 : state_machine obj encoder action
        = state_machine_case_Init { obj with stable_count := obj.stable_count + 1 }
            encoder action := by
      unfold state_machine
      simp [hS]
    have e2 : state_machine { obj with state := state_t.Init
                                       stable_count := obj.stable_count + 1 } encoder action
        = state_machine_case_Init { obj with state := state_t.Init
                                             stable_count := obj.stable_count + 1 }
            encoder action := by
      unfold state_machine
      simp
    rw [e1, e2]
    by_cases h : (analyse_quality obj action).type ≠ action_type.DoNothing
        ∨ obj.stable_count + 1 ≥ 5
    · have e3 := state_machine_case_Init_with_state
        { obj with stable_count := obj.stable_count + 1 } encoder action state_t.Init h
      rw [e3]
      have e4 : (state_machine_case_Init { obj with stable_count := obj.stable_count + 1 }
          encoder action).1.state ≠ state_t.Init := by
        simp only [state_machine_case_Init, analyse_quality_with_count]
        split_ifs with h1 h2
        · simp
        · simp
        · rcases h with h | h
          · exact absurd h h1
          · exact absurd h h2
      rw [if_neg e4]
    · push_neg at h
      have q1 := state_machine_case_Init_unchanged
        { obj with stable_count := obj.stable_count + 1 } encoder action h.1 h.2
      have q2 := state_machine_case_Init_unchanged
        { obj with state := state_t.Init, stable_count := obj.stable_count + 1 }
        encoder action h.1 h.2
      rw [q1, q2]
      simp only [if_true]
      rw [← hS]
theorem analyse_quality_DoNothing_of (obj : MSAudioBitrateController) (action : action_t)
    (hloss : (slot_back obj 0).lost_percentage.toRat < 20)
    (hrtt : (slot_back obj 0).rt_prop.toRat < 1 / 5) :
    analyse_quality obj action = { action with type := action_type.DoNothing } := by
  rw [analyse_quality_eq, if_neg (fun h => absurd h.1 (not_le.mpr hloss)),
    if_neg (fun h => absurd h.1 (not_le.mpr hrtt)), if_neg (not_le.mpr hloss)]

theorem analyse_quality_DecreasePacketRate_of (obj : MSAudioBitrateController)
    (action : action_t)
    (hloss : (slot_back obj 0).lost_percentage.toRat ≥ 20)
    (hjitter : (slot_back obj 0).int_jitter.toRat < 40)
    (hrtt : (slot_back obj 0).rt_prop.toRat < 1 / 5) :
    analyse_quality obj action = { action with type := action_type.DecreasePacketRate } := by
  rw [analyse_quality_eq, if_neg (fun h => absurd h.2 (not_le.mpr hjitter)),
    if_neg (fun h => absurd h.1 (not_le.mpr hrtt)), if_pos hloss]

theorem quiet_toRat : quiet.lost_percentage.toRat = 0 ∧ quiet.int_jitter.toRat = 0
    ∧ quiet.rt_prop.toRat = 0 := by
  norm_num [quiet, sample, CFloat.zero, CFloat.toRat]

theorem lossy_toRat : lossy.lost_percentage.toRat = 30 ∧ lossy.int_jitter.toRat = 0
    ∧ lossy.rt_prop.toRat = 0 := by
  norm_num [lossy, sample, CFloat.zero, CFloat.ofSmallInt, CFloat.toRat]

theorem analyse_quality_quiet (prev prev2 : rtpstats_t) (st : state_t) (count ptime nom : Int)
    (action : action_t) :
    analyse_quality (controller_with quiet prev prev2 st count ptime nom) action
      = { action with type := action_type.DoNothing } := by
  apply analyse_quality_DoNothing_of
  · rw [(slot_back_controller_with _ _ _ _ _ _ _).1, quiet_toRat.1]
    norm_num
  · rw [(slot_back_controller_with _ _ _ _ _ _ _).1, quiet_toRat.2.2]
    norm_num

theorem analyse_quality_lossy (prev prev2 : rtpstats_t) (st : state_t) (count ptime nom : Int)
    (action : action_t) :
    analyse_quality (controller_with lossy prev prev2 st count ptime nom) action
      = { action with type := action_type.DecreasePacketRate } := by
  apply analyse_quality_DecreasePacketRate_of
  · rw [(slot_back_controller_with _ _ _ _ _ _ _).1, lossy_toRat.1]
    norm_num
  · rw [(slot_back_controller_with _ _ _ _ _ _ _).1, lossy_toRat.2.1]
    norm_num
  · rw [(slot_back_controller_with _ _ _ _ _ _ _).1, lossy_toRat.2.2]
    norm_num

/-- Witness of C5: a controller in `Stable` with a counter of 4 and a quiet
history moves to `ProbingUp`. -/
theorem state_machine_Init_Stable_witness :
    (state_machine (controller_with quiet quiet quiet state_t.Stable 4 20 0) encoder_ok
        ⟨action_type.DoNothing, 0⟩).1.state = state_t.ProbingUp :=
  ((state_machine_Init_Stable (controller_with quiet quiet quiet state_t.Stable 4 20 0)
      encoder_ok ⟨action_type.DoNothing, 0⟩ (Or.inr rfl)).2.2.1
    (by rw [analyse_quality_quiet]) (by decide) 0).2

/-- C6: one step of `state_machine` from `Probing` sets the counter to 0 and
ends in `Stable` if `has_improved` is true and in `Probing` otherwise, never in
`Init` or `ProbingUp`.  When `has_improved` is true nothing is executed
(`cur_ptime` unchanged, no call to the encoder), whatever the analyser would
propose; when it is false the action of the analyser is executed if and only
if it is not `DoNothing`. -/
theorem state_machine_Probing (obj : MSAudioBitrateController) (encoder : MSFilter)
    (action : action_t) (hstate : obj.state = state_t.Probing) :
    (state_machine obj encoder action).1.stable_count = 0
    ∧ (state_machine obj encoder action).1.state
        = (if has_improved obj = true then state_t.Stable else state_t.Probing)
    ∧ (state_machine obj encoder action).1.state ≠ state_t.Init
    ∧ (state_machine obj encoder action).1.state ≠ state_t.ProbingUp
    ∧ (has_improved obj = true →
        state_machine obj encoder action
          = ({ obj with stable_count := 0, state := state_t.Stable }, encoder)
        ∧ (state_machine obj encoder action).1.cur_ptime = obj.cur_ptime
        ∧ calls_made encoder (state_machine obj encoder action).2 = [])
    ∧ (has_improved obj = false →
        (analyse_quality obj action).type ≠ action_type.DoNothing →
        state_machine obj encoder action
          = ((execute_action { obj with stable_count := 0 } encoder
                (analyse_quality obj action)).2.1,
             (execute_action { obj with stable_count := 0 } encoder
                (analyse_quality obj action)).2.2))
    ∧ (has_improved obj = false →
        (analyse_quality obj action).type = action_type.DoNothing →
        state_machine obj encoder action = ({ obj with stable_count := 0 }, encoder)
        ∧ (state_machine obj encoder action).1.cur_ptime = obj.cur_ptime
        ∧ calls_made encoder (state_machine obj encoder action).2 = []) := by
  have hsm : state_machine obj encoder action
      = if has_improved obj = true then
          ({ obj with stable_count := 0, state := state_t.Stable }, encoder)
        else if (analyse_quality obj action).type ≠ action_type.DoNothing then
          ((execute_action { obj with stable_count := 0 } encoder
              (analyse_quality obj action)).2.1,
           (execute_action { obj with stable_count := 0 } encoder
              (analyse_quality obj action)).2.2)
        else ({ obj with stable_count := 0 }, encoder) := by
    obtain ⟨cl, st, ci, s, mp, nb, cp, cb, sc⟩ := obj
    simp only at hstate
    subst hstate
    rfl
  have hex := execute_action_frame { obj with stable_count := 0 } encoder
    (analyse_quality obj action)
  have hst : (state_machine obj encoder action).1.state
      = (if has_improved obj = true then state_t.Stable else state_t.Probing) := by
    rw [hsm]
    split_ifs
    · rfl
    · rw [hex]
      exact hstate
    · exact hstate
  refine ⟨?_, hst, ?_, ?_, ?_, ?_, ?_⟩
  · rw [hsm]
    split_ifs
    · rfl
    · rw [hex]
    · rfl
  · rw [hst]
    split_ifs <;> simp
  · rw [hst]
    split_ifs <;> simp
  · intro h
    rw [hsm, if_pos h]
    exact ⟨rfl, rfl, by simp [calls_made]⟩
  · intro h h2
    rw [hsm, if_neg (by simp [h]), if_pos h2]
  · intro h h2
    rw [hsm, if_neg (by simp [h]), if_neg (not_not.mpr h2)]
    exact ⟨rfl, rfl, by simp [calls_made]⟩

/-- C7: one step of `state_machine` from `ProbingUp` sets the counter to 0; if
the analyser proposes an action other than `DoNothing` it is executed and the
new state is `Probing`; otherwise `IncreaseQuality` is attempted and the new
state is `Init` exactly when the executor returns -1, `ProbingUp` otherwise.
With `cur_ptime = min_ptime` and a `DoNothing` analysis the controller moves
to `Init`, `cur_ptime` is unchanged and the encoder receives no call. -/
theorem state_machine_ProbingUp (obj : MSAudioBitrateController) (encoder : MSFilter)
    (action : action_t) (hstate : obj.state = state_t.ProbingUp) :
    (state_machine obj encoder action).1.stable_count = 0
    ∧ ((analyse_quality obj action).type ≠ action_type.DoNothing →
        state_machine obj encoder action
          = ({ (execute_action { obj with stable_count := 0 } encoder
                  (analyse_quality obj action)).2.1 with state := state_t.Probing },
             (execute_action { obj with stable_count := 0 } encoder
                (analyse_quality obj action)).2.2)
        ∧ (state_machine obj encoder action).1.state = state_t.Probing)
    ∧ ((analyse_quality obj action).type = action_type.DoNothing → ∀ v : Int,
        (state_machine obj encoder action).1
          = { (execute_action { obj with stable_count := 0 } encoder
                  ⟨action_type.IncreaseQuality, v⟩).2.1 with
              state := (if (execute_action { obj with stable_count := 0 } encoder
                              ⟨action_type.IncreaseQuality, v⟩).1 = -1
                        then state_t.Init else state_t.ProbingUp) }
        ∧ (state_machine obj encoder action).2
          = (execute_action { obj with stable_count := 0 } encoder
                ⟨action_type.IncreaseQuality, v⟩).2.2
        ∧ ((state_machine obj encoder action).1.state = state_t.Init ↔
            (execute_action { obj with stable_count := 0 } encoder
                ⟨action_type.IncreaseQuality, v⟩).1 = -1)
        ∧ ((state_machine obj encoder action).1.state = state_t.ProbingUp ↔
            (execute_action { obj with stable_count := 0 } encoder
                ⟨action_type.IncreaseQuality, v⟩).1 ≠ -1))
    ∧ ((analyse_quality obj action).type = action_type.DoNothing →
        obj.cur_ptime = obj.min_ptime →
        state_machine obj encoder action
          = ({ obj with stable_count := 0, state := state_t.Init }, encoder)
        ∧ (state_machine obj encoder action).1.state = state_t.Init
        ∧ (state_machine obj encoder action).1.cur_ptime = obj.cur_ptime
        ∧ calls_made encoder (state_machine obj encoder action).2 = []) := by
  have hsm : state_machine obj encoder action
      = if (analyse_quality obj action).type ≠ action_type.DoNothing then
          ({ (execute_action { obj with stable_count := 0 } encoder
                (analyse_quality obj action)).2.1 with state := state_t.Probing },
           (execute_action { obj with stable_count := 0 } encoder
              (analyse_quality obj action)).2.2)
        else if (execute_action { obj with stable_count := 0 } encoder
                  { analyse_quality obj action with type := action_type.IncreaseQuality }).1
                = -1 then
          ({ (execute_action { obj with stable_count := 0 } encoder
                { analyse_quality obj action with type := action_type.IncreaseQuality }).2.1
              with state := state_t.Init },
           (execute_action { obj with stable_count := 0 } encoder
              { analyse_quality obj action with type := action_type.IncreaseQuality }).2.2)
        else
          ((execute_action { obj with stable_count := 0 } encoder
              { analyse_quality obj action with type := action_type.IncreaseQuality }).2.1,
           (execute_action { obj with stable_count := 0 } encoder
              { analyse_quality obj action with type := action_type.IncreaseQuality }).2.2) := by
    obtain ⟨cl, st, ci, s, mp, nb, cp, cb, sc⟩ := obj
    simp only at hstate
    subst hstate
    rfl
  have hframe := fun a => execute_action_frame { obj with stable_count := 0 } encoder a
  refine ⟨?_, ?_, ?_, ?_⟩
  · rw [hsm]
    split_ifs
    · rw [hframe]
    · rw [hframe]
    · rw [hframe]
  · intro h
    rw [hsm, if_pos h]
    exact ⟨rfl, rfl⟩
  · intro h v
    rw [hsm, if_neg (not_not.mpr h),
      execute_action_IncreaseQuality _ _ (analyse_quality obj action).value v]
    by_cases hr : (execute_action { obj with stable_count := 0 } encoder
        ⟨action_type.IncreaseQuality, v⟩).1 = -1
    · rw [if_pos hr, if_pos hr]
      exact ⟨rfl, rfl, ⟨fun _ => hr, fun _ => rfl⟩, ⟨fun h => by simp at h, fun h => absurd hr h⟩⟩
    · rw [if_neg hr, if_neg hr]
      have hs : (execute_action { obj with stable_count := 0 } encoder
          ⟨action_type.IncreaseQuality, v⟩).2.1.state = state_t.ProbingUp := by
        rw [hframe]
        exact hstate
      refine ⟨?_, rfl, ⟨fun h => ?_, fun h => absurd h hr⟩, ⟨fun _ => hr, fun _ => hs⟩⟩
      · rw [← hs]
      · rw [hs] at h
        simp at h
  · intro h hp
    have he : execute_action { obj with stable_count := 0 } encoder
        { analyse_quality obj action with type := action_type.IncreaseQuality }
        = (-1, { obj with stable_count := 0 }, encoder) := by
      simp [execute_action, hp]
    rw [hsm, if_neg (not_not.mpr h), he]
    simp [calls_made]

/-- Witness of C6: in `Probing`, a loss that fell from 30 % to 0 % moves the
controller to `Stable` with a counter of 0. -/
theorem state_machine_Probing_witness :
    (state_machine (controller_with quiet lossy quiet state_t.Probing 3 40 0) encoder_ok
        ⟨action_type.DoNothing, 0⟩).1.state = state_t.Stable
    ∧ (state_machine (controller_with quiet lossy quiet state_t.Probing 3 40 0) encoder_ok
        ⟨action_type.DoNothing, 0⟩).1.stable_count = 0 := by
  have hi : has_improved (controller_with quiet lossy quiet state_t.Probing 3 40 0) = true := by
    unfold has_improved
    simp only [stats_at_cur, stats_at_prev, slot_back_controller_with, lossy_toRat, quiet_toRat,
      unacceptable_loss_rate_toRat]
    norm_num
  have h := state_machine_Probing (controller_with quiet lossy quiet state_t.Probing 3 40 0)
    encoder_ok ⟨action_type.DoNothing, 0⟩ rfl
  refine ⟨?_, h.1⟩
  rw [h.2.1, if_pos hi]

/-- Witness of C7: in `ProbingUp` with `cur_ptime = min_ptime = 20` and a quiet
history the controller moves to `Init` and keeps its packetization interval. -/
theorem state_machine_ProbingUp_witness :
    (state_machine (controller_with quiet quiet quiet state_t.ProbingUp 0 20 0) encoder_ok
        ⟨action_type.DoNothing, 0⟩).1.state = state_t.Init
    ∧ (state_machine (controller_with quiet quiet quiet state_t.ProbingUp 0 20 0) encoder_ok
        ⟨action_type.DoNothing, 0⟩).1.cur_ptime = 20 := by
  have h := (state_machine_ProbingUp (controller_with quiet quiet quiet state_t.ProbingUp 0 20 0)
    encoder_ok ⟨action_type.DoNothing, 0⟩ rfl).2.2.2 (by rw [analyse_quality_quiet]) rfl
  exact ⟨h.2.1, h.2.2.1⟩

/-! ## Action executor -/

theorem calls_made_of_append (before after : MSFilter) (l : List Call)
    (h : after.calls = before.calls ++ l) : calls_made before after = l := by
  unfold calls_made
  rw [h, List.drop_left]

theorem inc_ptime_calls_eq (obj : MSAudioBitrateController) (encoder : MSFilter) :
    (inc_ptime obj encoder).2.calls = encoder.calls ++ inc_ptime_calls obj := by
  unfold inc_ptime inc_ptime_calls max_ptime apply_ptime ms_filter_call_method
  split_ifs <;> simp

theorem inc_ptime_controller (obj : MSAudioBitrateController) (e1 e2 : MSFilter) :
    (inc_ptime obj e1).1 = (inc_ptime obj e2).1 := by
  unfold inc_ptime
  split_ifs <;> rfl

theorem inc_ptime_calls_no_bitrate (obj : MSAudioBitrateController) :
    Call.GET_BITRATE ∉ inc_ptime_calls obj
    ∧ ∀ v : Int, Call.SET_BITRATE v ∉ inc_ptime_calls obj := by
  unfold inc_ptime_calls
  split_ifs <;> simp

/-- A value inside the range of a 32-bit `int` is not changed by the wrap
around. -/
theorem int_wrap_of_range (x : Int) (h1 : -2 ^ 31 ≤ x) (h2 : x < 2 ^ 31) : int_wrap x = x := by
  unfold int_wrap
  omega

/-- A cut of at most 100 % of a non-negative bitrate whose product with the
magnitude fits in 32 bits is computed without wrap around. -/
theorem int_wrap_cut (current m : Int) (h0 : 0 ≤ current) (hc : current < 2 ^ 31)
    (hm0 : 0 ≤ m) (hm100 : m ≤ 100) (hov : current * m < 2 ^ 31) :
    int_wrap (current - (int_wrap (current * m)).tdiv 100)
      = current - (current * m).tdiv 100 := by
  have hp : 0 ≤ current * m := mul_nonneg h0 hm0
  have hq0 : 0 ≤ (current * m).tdiv 100 := Int.tdiv_nonneg hp (by norm_num)
  have hq1 : (current * m).tdiv 100 ≤ current := by
    rw [Int.tdiv_eq_ediv hp (by norm_num)]
    have : current * m ≤ current * 100 := mul_le_mul_of_nonneg_left hm100 h0
    omega
  rw [int_wrap_of_range _ (by omega) hov, int_wrap_of_range _ (by omega) (by omega)]

/-- C10: when the encoder has no bitrate knob (`nom_bitrate = 0`), executing
`DecreaseBitrate` with any magnitude returns 0, sends neither `GET_BITRATE`
nor `SET_BITRATE`, and does exactly what executing `DecreasePacketRate` does:
the ptime-increase fallback. -/
theorem execute_action_DecreaseBitrate_no_knob (obj : MSAudioBitrateController)
    (encoder : MSFilter) (m v : Int) (hnom : obj.nom_bitrate = 0) :
    (execute_action obj encoder ⟨action_type.DecreaseBitrate, m⟩).1 = 0
    ∧ execute_action obj encoder ⟨action_type.DecreaseBitrate, m⟩
        = execute_action obj encoder ⟨action_type.DecreasePacketRate, v⟩
    ∧ (execute_action obj encoder ⟨action_type.DecreaseBitrate, m⟩).2 = inc_ptime obj encoder
    ∧ calls_made encoder (execute_action obj encoder ⟨action_type.DecreaseBitrate, m⟩).2.2
        = inc_ptime_calls obj
    ∧ Call.GET_BITRATE ∉
        calls_made encoder (execute_action obj encoder ⟨action_type.DecreaseBitrate, m⟩).2.2
    ∧ ∀ b : Int, Call.SET_BITRATE b ∉
        calls_made encoder (execute_action obj encoder ⟨action_type.DecreaseBitrate, m⟩).2.2 := by
  have e : execute_action obj encoder ⟨action_type.DecreaseBitrate, m⟩
      = (0, inc_ptime obj encoder) := by
    simp only [execute_action]
    rw [if_pos trivial, if_pos hnom]
  have e2 : execute_action obj encoder ⟨action_type.DecreasePacketRate, v⟩
      = (0, inc_ptime obj encoder) := by
    simp [execute_action]
  have hc : calls_made encoder (inc_ptime obj encoder).2 = inc_ptime_calls obj :=
    calls_made_of_append _ _ _ (inc_ptime_calls_eq obj encoder)
  rw [e, e2]
  refine ⟨rfl, rfl, rfl, hc, ?_, ?_⟩
  · show Call.GET_BITRATE ∉ calls_made encoder (inc_ptime obj encoder).2
    rw [hc]
    exact (inc_ptime_calls_no_bitrate obj).1
  · intro b
    show Call.SET_BITRATE b ∉ calls_made encoder (inc_ptime obj encoder).2
    rw [hc]
    exact (inc_ptime_calls_no_bitrate obj).2 b

/-- Witness of C10: without a bitrate knob and at 20 ms, `DecreaseBitrate`
sends the single call `ADD_FMTP "ptime=40"`. -/
theorem execute_action_DecreaseBitrate_no_knob_witness :
    calls_made encoder_ok
        (execute_action (controller_with quiet quiet quiet state_t.Init 0 20 0) encoder_ok
          ⟨action_type.DecreaseBitrate, 25⟩).2.2
      = [Call.ADD_FMTP "ptime=40"] :=
  (execute_action_DecreaseBitrate_no_knob (controller_with quiet quiet quiet state_t.Init 0 20 0)
    encoder_ok 25 0 rfl).2.2.2.1

/-! ## Report processing -/

theorem read_report_frame (fe : FloatEnv) (obj : MSAudioBitrateController)
    (session : RtpSession) (rb : report_block_t) :
    (read_report fe obj session rb).state = obj.state
    ∧ (read_report fe obj session rb).stable_count = obj.stable_count
    ∧ (read_report fe obj session rb).cur_ptime = obj.cur_ptime
    ∧ (read_report fe obj session rb).min_ptime = obj.min_ptime
    ∧ (read_report fe obj session rb).nom_bitrate = obj.nom_bitrate
    ∧ (read_report fe obj session rb).cur_bitrate = obj.cur_bitrate
    ∧ (read_report fe obj session rb).curindex = obj.curindex + 1 := by
  unfold read_report
  simp only
  split_ifs
  · split <;> exact ⟨rfl, rfl, rfl, rfl, rfl, rfl, rfl⟩
  · exact ⟨rfl, rfl, rfl, rfl, rfl, rfl, rfl⟩
theorem read_report_latest (fe : FloatEnv) (obj : MSAudioBitrateController)
    (session : RtpSession) (rb : report_block_t)
    (h : obj.clockrate ≠ 0 ∨ session.send_payload ≠ none) :
    slot_back (read_report fe obj session rb) 0
      = read_report_sample fe (read_report fe obj session rb).clockrate session rb := by
  rw [← stats_at_cur]
  unfold stats_at read_report
  simp only
  split_ifs with hc
  · cases hp : session.send_payload with
    | none =>
      rcases h with h | h
      · exact absurd hc h
      · exact absurd hp h
    | some pt =>
      simp only [Function.update_same]
  · simp only [Function.update_same]

theorem process_rtcp_unchanged (fe : FloatEnv) (obj : MSAudioBitrateController)
    (session : RtpSession) (encoder : MSFilter) (rtcp : mblk_t) (action : action_t)
    (rb : report_block_t) (hrb : report_block_of rtcp = some rb)
    (hstate : obj.state = state_t.Init)
    (hq : (analyse_quality (read_report fe obj session rb) action).type = action_type.DoNothing)
    (hcount : obj.stable_count < 5) :
    ms_audio_bitrate_controller_process_rtcp fe obj session encoder rtcp action
      = (read_report fe obj session rb, encoder) := by
  have hf := read_report_frame fe obj session rb
  unfold ms_audio_bitrate_controller_process_rtcp
  rw [hrb]
  simp only
  unfold state_machine
  rw [hf.1, hstate]
  simp only
  exact state_machine_case_Init_unchanged _ _ _ hq (by rw [hf.2.1]; exact hcount)

theorem process_rtcp_Stable (fe : FloatEnv) (obj : MSAudioBitrateController)
    (session : RtpSession) (encoder : MSFilter) (rtcp : mblk_t) (action : action_t)
    (rb : report_block_t) (hrb : report_block_of rtcp = some rb)
    (hstate : obj.state = state_t.Stable) :
    ms_audio_bitrate_controller_process_rtcp fe obj session encoder rtcp action
      = state_machine_case_Init
          { read_report fe obj session rb with stable_count := obj.stable_count + 1 }
          encoder action := by
  have hf := read_report_frame fe obj session rb
  unfold ms_audio_bitrate_controller_process_rtcp
  rw [hrb]
  simp only
  unfold state_machine
  rw [hf.1, hstate]
  simp only
  rw [hf.2.1]

theorem all_DoNothing_cons (fe : FloatEnv) (s : MSAudioBitrateController × MSFilter)
    (ev : Event) (evs : List Event) (h : all_DoNothing fe s (ev :: evs)) :
    (∃ rb, report_block_of ev.rtcp = some rb
      ∧ (analyse_quality (read_report fe s.1 ev.session rb) ev.action).type
          = action_type.DoNothing)
    ∧ all_DoNothing fe
        (ms_audio_bitrate_controller_process_rtcp fe s.1 ev.session s.2 ev.rtcp ev.action)
        evs := by
  unfold all_DoNothing at h
  refine ⟨?_, h.2⟩
  have h1 := h.1
  cases hrb : report_block_of ev.rtcp with
  | none =>
    rw [hrb] at h1
    exact absurd h1 (by simp)
  | some rb =>
    rw [hrb] at h1
    exact ⟨rb, rfl, h1⟩

/-- From `Init` with a counter of 0, reports analysed as `DoNothing` leave the
controller in `Init` with a counter of 0 and send nothing to the encoder. -/
theorem process_all_Init (fe : FloatEnv) (evs : List Event) :
    ∀ s : MSAudioBitrateController × MSFilter,
      s.1.state = state_t.Init → s.1.stable_count = 0 → all_DoNothing fe s evs →
      (process_all fe s evs).1.state = state_t.Init
      ∧ (process_all fe s evs).1.stable_count = 0
      ∧ (process_all fe s evs).1.cur_ptime = s.1.cur_ptime
      ∧ (process_all fe s evs).2 = s.2 := by
  induction evs with
  | nil =>
    intro s h1 h2 _
    exact ⟨h1, h2, rfl, rfl⟩
  | cons ev evs ih =>
    intro s h1 h2 hq
    obtain ⟨⟨rb, hrb, ha⟩, hrest⟩ := all_DoNothing_cons fe s ev evs hq
    have hstep := process_rtcp_unchanged fe s.1 ev.session s.2 ev.rtcp ev.action rb hrb h1 ha
      (by rw [h2]; norm_num)
    have hf := read_report_frame fe s.1 ev.session rb
    unfold process_all
    rw [hstep] at hrest ⊢
    have := ih (read_report fe s.1 ev.session rb, s.2) (by rw [hf.1]; exact h1)
      (by rw [hf.2.1]; exact h2) hrest
    refine ⟨this.1, this.2.1, ?_, this.2.2.2⟩
    rw [this.2.2.1]
    exact hf.2.2.1

/-- From `Stable`, `n` reports analysed as `DoNothing` that keep the counter
below 5 leave the controller in `Stable`, add `n` to the counter and send
nothing to the encoder. -/
theorem process_all_Stable (fe : FloatEnv) (evs : List Event) :
    ∀ s : MSAudioBitrateController × MSFilter,
      s.1.state = state_t.Stable → s.1.stable_count + evs.length < 5 →
      all_DoNothing fe s evs →
      (process_all fe s evs).1.state = state_t.Stable
      ∧ (process_all fe s evs).1.stable_count = s.1.stable_count + evs.length
      ∧ (process_all fe s evs).2 = s.2 := by
  induction evs with
  | nil =>
    intro s h1 _ _
    exact ⟨h1, by simp [process_all], rfl⟩
  | cons ev evs ih =>
    intro s h1 h2 hq
    obtain ⟨⟨rb, hrb, ha⟩, hrest⟩ := all_DoNothing_cons fe s ev evs hq
    have hf := read_report_frame fe s.1 ev.session rb
    simp only [List.length_cons, Nat.cast_add, Nat.cast_one] at h2
    have hstep : ms_audio_bitrate_controller_process_rtcp fe s.1 ev.session s.2 ev.rtcp ev.action
        = ({ read_report fe s.1 ev.session rb with stable_count := s.1.stable_count + 1 },
           s.2) := by
      rw [process_rtcp_Stable fe s.1 ev.session s.2 ev.rtcp ev.action rb hrb h1]
      exact state_machine_case_Init_unchanged _ _ _ ha
        (by
          show s.1.stable_count + 1 < 5
          have : (0 : Int) ≤ (evs.length : Int) := Int.natCast_nonneg _
          omega)
    unfold process_all
    rw [hstep] at hrest ⊢
    have := ih ({ read_report fe s.1 ev.session rb with
                    stable_count := s.1.stable_count + 1 }, s.2)
      (by
        show (read_report fe s.1 ev.session rb).state = state_t.Stable
        rw [hf.1]
        exact h1)
      (by
        show s.1.stable_count + 1 + (evs.length : Int) < 5
        omega)
      hrest
    refine ⟨this.1, ?_, this.2.2⟩
    rw [this.2.1]
    show s.1.stable_count + 1 + (evs.length : Int) = s.1.stable_count + ((evs.length + 1 : Nat) : Int)
    push_cast
    ring
theorem process_all_append (fe : FloatEnv) (l1 l2 : List Event) :
    ∀ s : MSAudioBitrateController × MSFilter,
      process_all fe s (l1 ++ l2) = process_all fe (process_all fe s l1) l2 := by
  induction l1 with
  | nil =>
    intro s
    rfl
  | cons ev evs ih =>
    intro s
    simp only [List.cons_append, process_all]
    exact ih _

theorem all_DoNothing_append (fe : FloatEnv) (l1 l2 : List Event) :
    ∀ s : MSAudioBitrateController × MSFilter,
      all_DoNothing fe s (l1 ++ l2) →
      all_DoNothing fe s l1 ∧ all_DoNothing fe (process_all fe s l1) l2 := by
  induction l1 with
  | nil =>
    intro s h
    exact ⟨trivial, h⟩
  | cons ev evs ih =>
    intro s h
    simp only [List.cons_append, all_DoNothing] at h
    have := ih _ h.2
    simp only [all_DoNothing, process_all]
    exact ⟨⟨h.1, this.1⟩, this.2⟩

/-- From `Stable` with a counter of 4, one more report analysed as `DoNothing`
executes `IncreaseQuality` and moves to `ProbingUp` with a counter of 5. -/
theorem process_rtcp_fifth (fe : FloatEnv) (s : MSAudioBitrateController × MSFilter)
    (ev : Event) (hstate : s.1.state = state_t.Stable) (hcount : s.1.stable_count = 4)
    (hq : all_DoNothing fe s [ev]) :
    ∃ c : MSAudioBitrateController, c.state = state_t.Stable ∧ c.stable_count = 5
      ∧ process_all fe s [ev]
        = ({ (execute_action c s.2 ⟨action_type.IncreaseQuality, 0⟩).2.1
               with state := state_t.ProbingUp },
           (execute_action c s.2 ⟨action_type.IncreaseQuality, 0⟩).2.2) := by
  obtain ⟨⟨rb, hrb, ha⟩, _⟩ := all_DoNothing_cons fe s ev [] hq
  have hf := read_report_frame fe s.1 ev.session rb
  refine ⟨{ read_report fe s.1 ev.session rb with stable_count := s.1.stable_count + 1 },
    ?_, ?_, ?_⟩
  · show (read_report fe s.1 ev.session rb).state = state_t.Stable
    rw [hf.1]
    exact hstate
  · show s.1.stable_count + 1 = 5
    omega
  · simp only [process_all]
    rw [process_rtcp_Stable fe s.1 ev.session s.2 ev.rtcp ev.action rb hrb hstate]
    simp only [state_machine_case_Init, analyse_quality_with_count]
    rw [if_neg (not_not.mpr ha), if_pos (by omega),
      execute_action_IncreaseQuality _ _ _ 0]

/-- The run of `process_all_Stable` does not touch the packetization
intervals: reports analysed as `DoNothing` while the counter stays below 5
leave `cur_ptime` and `min_ptime` as they are. -/
theorem process_all_Stable_ptime (fe : FloatEnv) (evs : List Event) :
    ∀ s : MSAudioBitrateController × MSFilter,
      s.1.state = state_t.Stable → s.1.stable_count + evs.length < 5 →
      all_DoNothing fe s evs →
      (process_all fe s evs).1.cur_ptime = s.1.cur_ptime
      ∧ (process_all fe s evs).1.min_ptime = s.1.min_ptime := by
  induction evs with
  | nil =>
    intro s _ _ _
    exact ⟨rfl, rfl⟩
  | cons ev evs ih =>
    intro s h1 h2 hq
    obtain ⟨⟨rb, hrb, ha⟩, hrest⟩ := all_DoNothing_cons fe s ev evs hq
    have hf := read_report_frame fe s.1 ev.session rb
    simp only [List.length_cons, Nat.cast_add, Nat.cast_one] at h2
    have hstep : ms_audio_bitrate_controller_process_rtcp fe s.1 ev.session s.2 ev.rtcp ev.action
        = ({ read_report fe s.1 ev.session rb with stable_count := s.1.stable_count + 1 },
           s.2) := by
      rw [process_rtcp_Stable fe s.1 ev.session s.2 ev.rtcp ev.action rb hrb h1]
      exact state_machine_case_Init_unchanged _ _ _ ha
        (by
          show s.1.stable_count + 1 < 5
          have : (0 : Int) ≤ (evs.length : Int) := Int.natCast_nonneg _
          omega)
    unfold process_all
    rw [hstep] at hrest ⊢
    have := ih ({ read_report fe s.1 ev.session rb with
                    stable_count := s.1.stable_count + 1 }, s.2)
      (by
        show (read_report fe s.1 ev.session rb).state = state_t.Stable
        rw [hf.1]
        exact h1)
      (by
        show s.1.stable_count + 1 + (evs.length : Int) < 5
        omega)
      hrest
    refine ⟨this.1.trans ?_, this.2.trans ?_⟩
    · exact hf.2.2.1
    · exact hf.2.2.2.1

/-- From `Stable` with a counter of 4, a report analysed as `DoNothing` is
processed by counting it and executing `IncreaseQuality`; the state becomes
`ProbingUp`. -/
theorem process_rtcp_fifth_eq (fe : FloatEnv) (s : MSAudioBitrateController × MSFilter)
    (ev : Event) (rb : report_block_t) (hrb : report_block_of ev.rtcp = some rb)
    (hstate : s.1.state = state_t.Stable) (hcount : s.1.stable_count = 4)
    (ha : (analyse_quality (read_report fe s.1 ev.session rb) ev.action).type
      = action_type.DoNothing) :
    process_all fe s [ev]
      = ({ (execute_action { read_report fe s.1 ev.session rb with stable_count := 5 }
              s.2 ⟨action_type.IncreaseQuality, 0⟩).2.1 with state := state_t.ProbingUp },
         (execute_action { read_report fe s.1 ev.session rb with stable_count := 5 }
              s.2 ⟨action_type.IncreaseQuality, 0⟩).2.2) := by
  simp only [process_all]
  rw [process_rtcp_Stable fe s.1 ev.session s.2 ev.rtcp ev.action rb hrb hstate, hcount]
  simp only [state_machine_case_Init, analyse_quality_with_count]
  rw [if_neg (not_not.mpr ha), if_pos (by norm_num),
    execute_action_IncreaseQuality _ _ _ 0]
  norm_num

/-- From `Stable` with a counter of 4, one more report analysed as `DoNothing`:
the state becomes `ProbingUp`, the counter 5, and `IncreaseQuality` has been
executed on the packetization interval the controller had: above `min_ptime`
it is lowered by `min_ptime` and sent to the encoder with one `ADD_FMTP`,
otherwise nothing changes and the encoder receives nothing. -/
theorem process_rtcp_fifth_effect (fe : FloatEnv) (s : MSAudioBitrateController × MSFilter)
    (ev : Event) (hstate : s.1.state = state_t.Stable) (hcount : s.1.stable_count = 4)
    (hq : all_DoNothing fe s [ev]) :
    (process_all fe s [ev]).1.state = state_t.ProbingUp
    ∧ (process_all fe s [ev]).1.stable_count = 5
    ∧ (process_all fe s [ev]).1.min_ptime = s.1.min_ptime
    ∧ (s.1.cur_ptime > s.1.min_ptime →
        (process_all fe s [ev]).1.cur_ptime = s.1.cur_ptime - s.1.min_ptime
        ∧ (process_all fe s [ev]).2.calls
          = s.2.calls ++ [Call.ADD_FMTP ("ptime=" ++ toString (s.1.cur_ptime - s.1.min_ptime))])
    ∧ (¬ s.1.cur_ptime > s.1.min_ptime →
        (process_all fe s [ev]).1.cur_ptime = s.1.cur_ptime
        ∧ (process_all fe s [ev]).2 = s.2) := by
  obtain ⟨⟨rb, hrb, ha⟩, _⟩ := all_DoNothing_cons fe s ev [] hq
  have hf := read_report_frame fe s.1 ev.session rb
  have e : process_all fe s [ev]
      = ({ (execute_action
              { read_report fe s.1 ev.session rb with stable_count := s.1.stable_count + 1 }
              s.2 ⟨action_type.IncreaseQuality, 0⟩).2.1 with state := state_t.ProbingUp },
         (execute_action
              { read_report fe s.1 ev.session rb with stable_count := s.1.stable_count + 1 }
              s.2 ⟨action_type.IncreaseQuality, 0⟩).2.2) := by
    simp only [process_all]
    rw [process_rtcp_Stable fe s.1 ev.session s.2 ev.rtcp ev.action rb hrb hstate]
    simp only [state_machine_case_Init, analyse_quality_with_count]
    rw [if_neg (not_not.mpr ha), if_pos (by omega),
      execute_action_IncreaseQuality _ _ _ 0]
  rw [e]
  by_cases hp : s.1.cur_ptime > s.1.min_ptime
  · have hp2 : (read_report fe s.1 ev.session rb).cur_ptime
        > (read_report fe s.1 ev.session rb).min_ptime := by
      rw [hf.2.2.1, hf.2.2.2.1]
      exact hp
    have ex : execute_action
          { read_report fe s.1 ev.session rb with stable_count := s.1.stable_count + 1 }
          s.2 ⟨action_type.IncreaseQuality, 0⟩
        = (0, { read_report fe s.1 ev.session rb with
                  stable_count := s.1.stable_count + 1
                  cur_ptime := (read_report fe s.1 ev.session rb).cur_ptime
                    - (read_report fe s.1 ev.session rb).min_ptime },
            apply_ptime { read_report fe s.1 ev.session rb with
                  stable_count := s.1.stable_count + 1
                  cur_ptime := (read_report fe s.1 ev.session rb).cur_ptime
                    - (read_report fe s.1 ev.session rb).min_ptime } s.2) := by
      simp only [execute_action]
      rw [if_neg (by decide), if_neg (by decide), if_pos trivial, if_pos hp2]
    rw [ex]
    refine ⟨rfl, ?_, hf.2.2.2.1, ?_, fun h => absurd hp h⟩
    · show s.1.stable_count + 1 = 5
      omega
    · intro _
      constructor
      · show (read_report fe s.1 ev.session rb).cur_ptime
            - (read_report fe s.1 ev.session rb).min_ptime = _
        rw [hf.2.2.1, hf.2.2.2.1]
      · show (apply_ptime _ s.2).calls = _
        unfold apply_ptime ms_filter_call_method
        show s.2.calls ++ [Call.ADD_FMTP ("ptime=" ++ toString
            ((read_report fe s.1 ev.session rb).cur_ptime
              - (read_report fe s.1 ev.session rb).min_ptime))] = _
        rw [hf.2.2.1, hf.2.2.2.1]
  · have hp2 : ¬ (read_report fe s.1 ev.session rb).cur_ptime
        > (read_report fe s.1 ev.session rb).min_ptime := by
      rw [hf.2.2.1, hf.2.2.2.1]
      exact hp
    have ex : execute_action
          { read_report fe s.1 ev.session rb with stable_count := s.1.stable_count + 1 }
          s.2 ⟨action_type.IncreaseQuality, 0⟩
        = (-1, { read_report fe s.1 ev.session rb with
                  stable_count := s.1.stable_count + 1 }, s.2) := by
      simp only [execute_action]
      rw [if_neg (by decide), if_neg (by decide), if_pos trivial, if_neg hp2]
    rw [ex]
    refine ⟨rfl, ?_, hf.2.2.2.1, fun h => absurd h hp, fun _ => ⟨hf.2.2.1, rfl⟩⟩
    show s.1.stable_count + 1 = 5
    omega

/-- C8 (amended): a freshly created controller that only receives reports
analysed as `DoNothing` stays in `Init` with a counter of 0, keeps its
packetization interval of 20 ms and sends nothing to the encoder, however many
reports arrive: the counter only runs in `Stable`.  From `Stable` with a
counter of 0, five reports analysed as `DoNothing` bring the counter to 1, 2,
3, 4 while the state stays `Stable`, the packetization intervals keep their
values and the encoder receives nothing; on the 5th report the counter reaches
5, `IncreaseQuality` is executed and the state becomes `ProbingUp`.  The
execution of `IncreaseQuality` is the one on the controller the run started
with: `min_ptime` is unchanged; if `cur_ptime > min_ptime`, `cur_ptime` is
lowered by `min_ptime` and the encoder receives exactly one call,
`ADD_FMTP "ptime=<cur_ptime - min_ptime>"`; otherwise `cur_ptime` is unchanged
and the encoder receives no call.  The controller and the encoder after the
5th report are the ones `execute_action` returns for `IncreaseQuality` on the
controller that has read the report and counts 5, with the state set to
`ProbingUp`. -/
theorem hysteresis_scenario (fe : FloatEnv) (encoder : MSFilter) (evs : List Event) :
    (all_DoNothing fe (ms_audio_bitrate_controller_new encoder) evs →
      (process_all fe (ms_audio_bitrate_controller_new encoder) evs).1.state = state_t.Init
      ∧ (process_all fe (ms_audio_bitrate_controller_new encoder) evs).1.stable_count = 0
      ∧ (process_all fe (ms_audio_bitrate_controller_new encoder) evs).1.cur_ptime = 20
      ∧ (process_all fe (ms_audio_bitrate_controller_new encoder) evs).2
          = (ms_audio_bitrate_controller_new encoder).2)
    ∧ (∀ obj : MSAudioBitrateController,
        obj.state = state_t.Stable → obj.stable_count = 0 → evs.length = 5 →
        all_DoNothing fe (obj, encoder) evs →
        (∀ k : Nat, k < 5 →
          (process_all fe (obj, encoder) (evs.take k)).1.state = state_t.Stable
          ∧ (process_all fe (obj, encoder) (evs.take k)).1.stable_count = k
          ∧ (process_all fe (obj, encoder) (evs.take k)).2 = encoder
          ∧ (process_all fe (obj, encoder) (evs.take k)).1.cur_ptime = obj.cur_ptime
          ∧ (process_all fe (obj, encoder) (evs.take k)).1.min_ptime = obj.min_ptime)
        ∧ (process_all fe (obj, encoder) evs).1.state = state_t.ProbingUp
        ∧ (process_all fe (obj, encoder) evs).1.stable_count = 5
        ∧ (process_all fe (obj, encoder) evs).1.min_ptime = obj.min_ptime
        ∧ (obj.cur_ptime > obj.min_ptime →
            (process_all fe (obj, encoder) evs).1.cur_ptime = obj.cur_ptime - obj.min_ptime
            ∧ calls_made encoder (process_all fe (obj, encoder) evs).2
              = [Call.ADD_FMTP ("ptime=" ++ toString (obj.cur_ptime - obj.min_ptime))])
        ∧ (¬ obj.cur_ptime > obj.min_ptime →
            (process_all fe (obj, encoder) evs).1.cur_ptime = obj.cur_ptime
            ∧ (process_all fe (obj, encoder) evs).2 = encoder
            ∧ calls_made encoder (process_all fe (obj, encoder) evs).2 = [])
        ∧ (∀ (ev : Event) (rb : report_block_t), evs.drop 4 = [ev] →
            report_block_of ev.rtcp = some rb →
            process_all fe (obj, encoder) evs
              = ({ (execute_action
                      { read_report fe (process_all fe (obj, encoder) (evs.take 4)).1
                          ev.session rb with stable_count := 5 }
                      encoder ⟨action_type.IncreaseQuality, 0⟩).2.1
                    with state := state_t.ProbingUp },
                 (execute_action
                      { read_report fe (process_all fe (obj, encoder) (evs.take 4)).1
                          ev.session rb with stable_count := 5 }
                      encoder ⟨action_type.IncreaseQuality, 0⟩).2.2))) := by
  constructor
  · intro hq
    exact process_all_Init fe evs _ rfl rfl hq
  · intro obj hstate hcount hlen hq
    have hpre : ∀ k : Nat, k < 5 →
        (process_all fe (obj, encoder) (evs.take k)).1.state = state_t.Stable
        ∧ (process_all fe (obj, encoder) (evs.take k)).1.stable_count = k
        ∧ (process_all fe (obj, encoder) (evs.take k)).2 = encoder
        ∧ (process_all fe (obj, encoder) (evs.take k)).1.cur_ptime = obj.cur_ptime
        ∧ (process_all fe (obj, encoder) (evs.take k)).1.min_ptime = obj.min_ptime := by
      intro k hk
      have hsplit : evs = evs.take k ++ evs.drop k := (List.take_append_drop k evs).symm
      have hq1 : all_DoNothing fe (obj, encoder) (evs.take k) := by
        rw [hsplit] at hq
        exact (all_DoNothing_append fe _ _ _ hq).1
      have hl : (evs.take k).length = k := by
        rw [List.length_take, hlen]
        omega
      have hlt : obj.stable_count + ((evs.take k).length : Int) < 5 := by
        rw [hl, hcount]
        omega
      have := process_all_Stable fe (evs.take k) (obj, encoder) hstate hlt hq1
      have hpt := process_all_Stable_ptime fe (evs.take k) (obj, encoder) hstate hlt hq1
      refine ⟨this.1, ?_, this.2.2, hpt.1, hpt.2⟩
      rw [this.2.1, hl]
      show obj.stable_count + (k : Int) = k
      rw [hcount]
      ring
    refine ⟨hpre, ?_⟩
    have hsplit : evs = evs.take 4 ++ evs.drop 4 := (List.take_append_drop 4 evs).symm
    obtain ⟨ev, hev⟩ : ∃ ev, evs.drop 4 = [ev] := by
      have hl : (evs.drop 4).length = 1 := by
        rw [List.length_drop, hlen]
      exact List.length_eq_one.mp hl
    have h4 := hpre 4 (by norm_num)
    have hq2 : all_DoNothing fe (process_all fe (obj, encoder) (evs.take 4)) [ev] := by
      rw [hsplit, hev] at hq
      exact (all_DoNothing_append fe _ _ _ hq).2
    have h5 := process_rtcp_fifth_effect fe _ ev h4.1 (by rw [h4.2.1]; rfl) hq2
    have hfin : process_all fe (obj, encoder) evs
        = process_all fe (process_all fe (obj, encoder) (evs.take 4)) [ev] := by
      conv_lhs => rw [hsplit, hev]
      rw [process_all_append]
    rw [hfin]
    rw [h4.2.2.2.1, h4.2.2.2.2, h4.2.2.1] at h5
    refine ⟨h5.1, h5.2.1, h5.2.2.1, ?_, ?_, ?_⟩
    · intro hp
      exact ⟨(h5.2.2.2.1 hp).1, calls_made_of_append _ _ _ (h5.2.2.2.1 hp).2⟩
    · intro hp
      refine ⟨(h5.2.2.2.2 hp).1, (h5.2.2.2.2 hp).2, ?_⟩
      rw [(h5.2.2.2.2 hp).2]
      simp [calls_made]
    · intro ev1 rb hev1 hrb
      have hee : ev1 = ev := by
        rw [hev] at hev1
        exact (List.singleton_inj.mp hev1).symm
      subst hee
      obtain ⟨⟨rb1, hrb1, ha⟩, _⟩ := all_DoNothing_cons fe _ ev1 [] hq2
      have hrr : rb1 = rb := by
        rw [hrb] at hrb1
        exact (Option.some.inj hrb1).symm
      subst hrr
      have h := process_rtcp_fifth_eq fe _ ev1 rb1 hrb h4.1 (by rw [h4.2.1]; rfl) ha
      rw [h4.2.2.1] at h
      exact h
theorem analyse_quality_quiet_event (obj : MSAudioBitrateController) (action : action_t) :
    (analyse_quality
        (read_report example_float_env obj quiet_event.session ⟨0, 0, 0⟩) action).type
      = action_type.DoNothing := by
  have hs := read_report_latest example_float_env obj quiet_event.session ⟨0, 0, 0⟩
    (Or.inr (by simp [quiet_event]))
  rw [analyse_quality_DoNothing_of]
  · rw [hs]
    simp [read_report_sample, example_float_env, CFloat.toRat]
  · rw [hs]
    simp [read_report_sample, quiet_event, CFloat.zero, CFloat.toRat]

theorem all_DoNothing_quiet_events (n : Nat) :
    ∀ s : MSAudioBitrateController × MSFilter,
      all_DoNothing example_float_env s (List.replicate n quiet_event) := by
  induction n with
  | zero =>
    intro s
    trivial
  | succ n ih =>
    intro s
    rw [List.replicate_succ]
    unfold all_DoNothing
    exact ⟨analyse_quality_quiet_event s.1 _, ih _⟩

/-- Witness of C8: six quiet reports leave a fresh controller in `Init`; five
quiet reports take a controller from `Stable` with a counter of 0 and a
packetization interval of 40 ms to `ProbingUp` with an interval of 20 ms, and
the encoder receives the single call `ADD_FMTP "ptime=20"`. -/
theorem hysteresis_scenario_witness :
    (process_all example_float_env (ms_audio_bitrate_controller_new encoder_ok)
        (List.replicate 6 quiet_event)).1.state = state_t.Init
    ∧ (process_all example_float_env
        (controller_with quiet quiet quiet state_t.Stable 0 40 0, encoder_ok)
        (List.replicate 5 quiet_event)).1.state = state_t.ProbingUp
    ∧ (process_all example_float_env
        (controller_with quiet quiet quiet state_t.Stable 0 40 0, encoder_ok)
        (List.replicate 5 quiet_event)).1.cur_ptime = 20
    ∧ calls_made encoder_ok (process_all example_float_env
        (controller_with quiet quiet quiet state_t.Stable 0 40 0, encoder_ok)
        (List.replicate 5 quiet_event)).2 = [Call.ADD_FMTP "ptime=20"] :=
  ⟨((hysteresis_scenario example_float_env encoder_ok (List.replicate 6 quiet_event)).1
      (all_DoNothing_quiet_events 6 _)).1,
   ((hysteresis_scenario example_float_env encoder_ok (List.replicate 5 quiet_event)).2
      (controller_with quiet quiet quiet state_t.Stable 0 40 0) rfl rfl rfl
      (all_DoNothing_quiet_events 5 _)).2.1,
   (((hysteresis_scenario example_float_env encoder_ok (List.replicate 5 quiet_event)).2
      (controller_with quiet quiet quiet state_t.Stable 0 40 0) rfl rfl rfl
      (all_DoNothing_quiet_events 5 _)).2.2.2.2.1 (by decide)).1,
   (((hysteresis_scenario example_float_env encoder_ok (List.replicate 5 quiet_event)).2
      (controller_with quiet quiet quiet state_t.Stable 0 40 0) rfl rfl rfl
      (all_DoNothing_quiet_events 5 _)).2.2.2.2.1 (by decide)).2⟩

/-- C8 as stated fails: a fresh controller receives six quiet reports, each
analysed as `DoNothing`; after the 5th the counter is 0, not 5, and after the
6th the state is `Init`, not `ProbingUp`. -/
theorem hysteresis_scenario_counterexample :
    all_DoNothing example_float_env (ms_audio_bitrate_controller_new encoder_ok)
        (List.replicate 6 quiet_event)
    ∧ (process_all example_float_env (ms_audio_bitrate_controller_new encoder_ok)
        (List.replicate 5 quiet_event)).1.stable_count = 0
    ∧ (process_all example_float_env (ms_audio_bitrate_controller_new encoder_ok)
        (List.replicate 5 quiet_event)).1.stable_count ≠ 5
    ∧ (process_all example_float_env (ms_audio_bitrate_controller_new encoder_ok)
        (List.replicate 6 quiet_event)).1.state = state_t.Init
    ∧ (process_all example_float_env (ms_audio_bitrate_controller_new encoder_ok)
        (List.replicate 6 quiet_event)).1.state ≠ state_t.ProbingUp := by
  have h5 := process_all_Init example_float_env (List.replicate 5 quiet_event)
    (ms_audio_bitrate_controller_new encoder_ok) rfl rfl (all_DoNothing_quiet_events 5 _)
  have h6 := process_all_Init example_float_env (List.replicate 6 quiet_event)
    (ms_audio_bitrate_controller_new encoder_ok) rfl rfl (all_DoNothing_quiet_events 6 _)
  refine ⟨all_DoNothing_quiet_events 6 _, h5.2.1, ?_, h6.1, ?_⟩
  · rw [h5.2.1]
    norm_num
  · rw [h6.1]
    simp

/-- C11: executing `DecreasePacketRate` is the ptime-increase fallback.  It
returns 0.  At the ceiling (`cur_ptime ≥ 100`) the controller is unchanged and
the encoder receives no call; below the ceiling `cur_ptime` becomes
`cur_ptime + min_ptime`, nothing else changes, and the encoder receives exactly
one call, `ADD_FMTP` with the text `ptime=` followed by the new value.  The
result does not depend on what the encoder answers.  In particular
`cur_ptime = 100` stays 100 without any call. -/
theorem execute_action_DecreasePacketRate (obj : MSAudioBitrateController)
    (encoder : MSFilter) (v : Int) :
    (execute_action obj encoder ⟨action_type.DecreasePacketRate, v⟩).1 = 0
    ∧ (obj.cur_ptime ≥ 100 →
        (execute_action obj encoder ⟨action_type.DecreasePacketRate, v⟩).2.1 = obj
        ∧ (execute_action obj encoder ⟨action_type.DecreasePacketRate, v⟩).2.2 = encoder
        ∧ calls_made encoder
            (execute_action obj encoder ⟨action_type.DecreasePacketRate, v⟩).2.2 = [])
    ∧ (obj.cur_ptime < 100 →
        (execute_action obj encoder ⟨action_type.DecreasePacketRate, v⟩).2.1
          = { obj with cur_ptime := obj.cur_ptime + obj.min_ptime }
        ∧ (execute_action obj encoder ⟨action_type.DecreasePacketRate, v⟩).2.1.cur_ptime
          = obj.cur_ptime + obj.min_ptime
        ∧ calls_made encoder
            (execute_action obj encoder ⟨action_type.DecreasePacketRate, v⟩).2.2
          = [Call.ADD_FMTP ("ptime=" ++ toString (obj.cur_ptime + obj.min_ptime))])
    ∧ (∀ encoder2 : MSFilter,
        (execute_action obj encoder2 ⟨action_type.DecreasePacketRate, v⟩).2.1
          = (execute_action obj encoder ⟨action_type.DecreasePacketRate, v⟩).2.1)
    ∧ (obj.cur_ptime = 100 →
        (execute_action obj encoder ⟨action_type.DecreasePacketRate, v⟩).2.1.cur_ptime = 100
        ∧ calls_made encoder
            (execute_action obj encoder ⟨action_type.DecreasePacketRate, v⟩).2.2 = []) := by
  have e : ∀ enc : MSFilter, execute_action obj enc ⟨action_type.DecreasePacketRate, v⟩
      = (0, inc_ptime obj enc) := by
    intro enc
    simp [execute_action]
  have hc : calls_made encoder (inc_ptime obj encoder).2 = inc_ptime_calls obj :=
    calls_made_of_append _ _ _ (inc_ptime_calls_eq obj encoder)
  have hhigh : obj.cur_ptime ≥ 100 → inc_ptime obj encoder = (obj, encoder) := by
    intro h
    unfold inc_ptime max_ptime
    rw [if_pos h]
  rw [e]
  refine ⟨rfl, ?_, ?_, ?_, ?_⟩
  · intro h
    show (inc_ptime obj encoder).1 = obj ∧ (inc_ptime obj encoder).2 = encoder
      ∧ calls_made encoder (inc_ptime obj encoder).2 = []
    rw [hhigh h]
    exact ⟨rfl, rfl, by simp [calls_made]⟩
  · intro h
    have h2 : ¬ obj.cur_ptime ≥ 100 := not_le.mpr h
    show (inc_ptime obj encoder).1 = _ ∧ (inc_ptime obj encoder).1.cur_ptime = _
      ∧ calls_made encoder (inc_ptime obj encoder).2 = _
    rw [hc]
    unfold inc_ptime inc_ptime_calls max_ptime
    rw [if_neg h2, if_neg h2]
    exact ⟨rfl, rfl, rfl⟩
  · intro encoder2
    rw [e]
    exact inc_ptime_controller obj encoder2 encoder
  · intro h
    show (inc_ptime obj encoder).1.cur_ptime = 100
      ∧ calls_made encoder (inc_ptime obj encoder).2 = []
    rw [hhigh (by omega)]
    exact ⟨h, by simp [calls_made]⟩

/-- Witness of C11: at 100 ms nothing happens; at 40 ms the interval becomes
60 ms and the encoder, although it refuses every call, receives
`ADD_FMTP "ptime=60"`. -/
theorem execute_action_DecreasePacketRate_witness :
    ((execute_action (controller_with quiet quiet quiet state_t.Probing 0 100 0) encoder_ok
        ⟨action_type.DecreasePacketRate, 0⟩).2.1.cur_ptime = 100
      ∧ calls_made encoder_ok
          (execute_action (controller_with quiet quiet quiet state_t.Probing 0 100 0) encoder_ok
            ⟨action_type.DecreasePacketRate, 0⟩).2.2 = [])
    ∧ ((execute_action (controller_with quiet quiet quiet state_t.Probing 0 40 0)
          encoder_refusing ⟨action_type.DecreasePacketRate, 0⟩).2.1.cur_ptime = 60
      ∧ calls_made encoder_refusing
          (execute_action (controller_with quiet quiet quiet state_t.Probing 0 40 0)
            encoder_refusing ⟨action_type.DecreasePacketRate, 0⟩).2.2
        = [Call.ADD_FMTP "ptime=60"]) :=
  ⟨(execute_action_DecreasePacketRate (controller_with quiet quiet quiet state_t.Probing 0 100 0)
      encoder_ok 0).2.2.2.2 rfl,
   ((execute_action_DecreasePacketRate (controller_with quiet quiet quiet state_t.Probing 0 40 0)
      encoder_refusing 0).2.2.1 (by decide)).2⟩

/-- C12: `execute_action` returns -1 (`CannotIncreaseFurther`) if and only if
the action is `IncreaseQuality` and `cur_ptime` is not greater than
`min_ptime`; then the controller and the encoder are unchanged.  For
`IncreaseQuality` with `cur_ptime > min_ptime` it returns 0, `cur_ptime` is
decreased by exactly `min_ptime` and the encoder receives one `ADD_FMTP`.  It
never returns anything but 0 or -1, whatever the encoder answers. -/
theorem execute_action_result (obj : MSAudioBitrateController) (encoder : MSFilter)
    (action : action_t) :
    ((execute_action obj encoder action).1 = -1 ↔
      action.type = action_type.IncreaseQuality ∧ ¬ obj.cur_ptime > obj.min_ptime)
    ∧ ((execute_action obj encoder action).1 = 0 ∨ (execute_action obj encoder action).1 = -1)
    ∧ ((execute_action obj encoder action).1 = -1 →
        (execute_action obj encoder action).2.1 = obj
        ∧ (execute_action obj encoder action).2.2 = encoder
        ∧ calls_made encoder (execute_action obj encoder action).2.2 = [])
    ∧ (action.type = action_type.IncreaseQuality → obj.cur_ptime > obj.min_ptime →
        (execute_action obj encoder action).1 = 0
        ∧ (execute_action obj encoder action).2.1
          = { obj with cur_ptime := obj.cur_ptime - obj.min_ptime }
        ∧ (execute_action obj encoder action).2.1.cur_ptime = obj.cur_ptime - obj.min_ptime
        ∧ calls_made encoder (execute_action obj encoder action).2.2
          = [Call.ADD_FMTP ("ptime=" ++ toString (obj.cur_ptime - obj.min_ptime))]) := by
  have hret : (execute_action obj encoder action).1 = -1 ↔
      action.type = action_type.IncreaseQuality ∧ ¬ obj.cur_ptime > obj.min_ptime := by
    simp only [execute_action]
    split_ifs with h1 h2 h3 h4 h5 h6 h7 <;> simp_all
  have hfail : action.type = action_type.IncreaseQuality → ¬ obj.cur_ptime > obj.min_ptime →
      execute_action obj encoder action = (-1, obj, encoder) := by
    intro h1 h2
    simp only [execute_action]
    rw [if_neg (by rw [h1]; decide), if_neg (by rw [h1]; decide), if_pos h1, if_neg h2]
  refine ⟨hret, ?_, ?_, ?_⟩
  · simp only [execute_action]
    split_ifs <;> simp
  · intro h
    obtain ⟨h1, h2⟩ := hret.mp h
    rw [hfail h1 h2]
    exact ⟨rfl, rfl, by simp [calls_made]⟩
  · intro h1 h2
    have e : execute_action obj encoder action
        = (0, { obj with cur_ptime := obj.cur_ptime - obj.min_ptime },
            apply_ptime { obj with cur_ptime := obj.cur_ptime - obj.min_ptime } encoder) := by
      simp only [execute_action]
      rw [if_neg (by rw [h1]; decide), if_neg (by rw [h1]; decide), if_pos h1, if_pos h2]
    rw [e]
    refine ⟨rfl, rfl, rfl, ?_⟩
    apply calls_made_of_append
    simp [apply_ptime, ms_filter_call_method]

/-- Witness of C12: `IncreaseQuality` at `cur_ptime = min_ptime = 20` returns
-1 and changes nothing; at 60 ms it returns 0 and the interval becomes 40 ms
even though the encoder refuses the call. -/
theorem execute_action_result_witness :
    (execute_action (controller_with quiet quiet quiet state_t.ProbingUp 0 20 0) encoder_ok
        ⟨action_type.IncreaseQuality, 0⟩).2.1
      = controller_with quiet quiet quiet state_t.ProbingUp 0 20 0
    ∧ (execute_action (controller_with quiet quiet quiet state_t.ProbingUp 0 60 0)
        encoder_refusing ⟨action_type.IncreaseQuality, 0⟩).1 = 0
    ∧ (execute_action (controller_with quiet quiet quiet state_t.ProbingUp 0 60 0)
        encoder_refusing ⟨action_type.IncreaseQuality, 0⟩).2.1.cur_ptime = 40 :=
  ⟨((execute_action_result (controller_with quiet quiet quiet state_t.ProbingUp 0 20 0)
      encoder_ok ⟨action_type.IncreaseQuality, 0⟩).2.2.1
      ((execute_action_result (controller_with quiet quiet quiet state_t.ProbingUp 0 20 0)
        encoder_ok ⟨action_type.IncreaseQuality, 0⟩).1.mpr ⟨rfl, by decide⟩)).1,
   ((execute_action_result (controller_with quiet quiet quiet state_t.ProbingUp 0 60 0)
      encoder_refusing ⟨action_type.IncreaseQuality, 0⟩).2.2.2 rfl (by decide)).1,
   ((execute_action_result (controller_with quiet quiet quiet state_t.ProbingUp 0 60 0)
      encoder_refusing ⟨action_type.IncreaseQuality, 0⟩).2.2.2 rfl (by decide)).2.2.1⟩
/-! ## Frame of the executor, the state machine and the report reader -/

theorem execute_action_fields (obj : MSAudioBitrateController) (encoder : MSFilter)
    (action : action_t) :
    (execute_action obj encoder action).2.1.stats = obj.stats
    ∧ (execute_action obj encoder action).2.1.curindex = obj.curindex
    ∧ (execute_action obj encoder action).2.1.clockrate = obj.clockrate
    ∧ (execute_action obj encoder action).2.1.state = obj.state
    ∧ (execute_action obj encoder action).2.1.stable_count = obj.stable_count
    ∧ (execute_action obj encoder action).2.1.min_ptime = obj.min_ptime
    ∧ (execute_action obj encoder action).2.1.nom_bitrate = obj.nom_bitrate
    ∧ (execute_action obj encoder action).2.1.cur_bitrate = obj.cur_bitrate := by
  rw [execute_action_frame]
  exact ⟨rfl, rfl, rfl, rfl, rfl, rfl, rfl, rfl⟩

theorem state_machine_case_Init_fields (obj : MSAudioBitrateController) (encoder : MSFilter)
    (action : action_t) :
    (state_machine_case_Init obj encoder action).1.stats = obj.stats
    ∧ (state_machine_case_Init obj encoder action).1.curindex = obj.curindex
    ∧ (state_machine_case_Init obj encoder action).1.clockrate = obj.clockrate
    ∧ (state_machine_case_Init obj encoder action).1.min_ptime = obj.min_ptime
    ∧ (state_machine_case_Init obj encoder action).1.nom_bitrate = obj.nom_bitrate
    ∧ (state_machine_case_Init obj encoder action).1.cur_bitrate = obj.cur_bitrate := by
  simp only [state_machine_case_Init]
  split_ifs
  · have h := execute_action_fields obj encoder (analyse_quality obj action)
    exact ⟨h.1, h.2.1, h.2.2.1, h.2.2.2.2.2.1, h.2.2.2.2.2.2.1, h.2.2.2.2.2.2.2⟩
  · have h := execute_action_fields obj encoder
      { analyse_quality obj action with type := action_type.IncreaseQuality }
    exact ⟨h.1, h.2.1, h.2.2.1, h.2.2.2.2.2.1, h.2.2.2.2.2.2.1, h.2.2.2.2.2.2.2⟩
  · exact ⟨rfl, rfl, rfl, rfl, rfl, rfl⟩

/-- The state machine writes `state`, `stable_count` and `cur_ptime` only. -/
theorem state_machine_fields (obj : MSAudioBitrateController) (encoder : MSFilter)
    (action : action_t) :
    (state_machine obj encoder action).1.stats = obj.stats
    ∧ (state_machine obj encoder action).1.curindex = obj.curindex
    ∧ (state_machine obj encoder action).1.clockrate = obj.clockrate
    ∧ (state_machine obj encoder action).1.min_ptime = obj.min_ptime
    ∧ (state_machine obj encoder action).1.nom_bitrate = obj.nom_bitrate
    ∧ (state_machine obj encoder action).1.cur_bitrate = obj.cur_bitrate := by
  unfold state_machine
  split
  · exact state_machine_case_Init_fields _ encoder action
  · exact state_machine_case_Init_fields _ encoder action
  · simp only
    split_ifs
    · exact ⟨rfl, rfl, rfl, rfl, rfl, rfl⟩
    · have h := execute_action_fields { obj with stable_count := 0 } encoder
        (analyse_quality { obj with stable_count := 0 } action)
      exact ⟨h.1, h.2.1, h.2.2.1, h.2.2.2.2.2.1, h.2.2.2.2.2.2.1, h.2.2.2.2.2.2.2⟩
    · exact ⟨rfl, rfl, rfl, rfl, rfl, rfl⟩
  · simp only
    split_ifs
    · have h := execute_action_fields { obj with stable_count := 0 } encoder
        (analyse_quality { obj with stable_count := 0 } action)
      exact ⟨h.1, h.2.1, h.2.2.1, h.2.2.2.2.2.1, h.2.2.2.2.2.2.1, h.2.2.2.2.2.2.2⟩
    · have h := execute_action_fields { obj with stable_count := 0 } encoder
        { analyse_quality { obj with stable_count := 0 } action with
          type := action_type.IncreaseQuality }
      exact ⟨h.1, h.2.1, h.2.2.1, h.2.2.2.2.2.1, h.2.2.2.2.2.2.1, h.2.2.2.2.2.2.2⟩
    · have h := execute_action_fields { obj with stable_count := 0 } encoder
        { analyse_quality { obj with stable_count := 0 } action with
          type := action_type.IncreaseQuality }
      exact ⟨h.1, h.2.1, h.2.2.1, h.2.2.2.2.2.1, h.2.2.2.2.2.2.1, h.2.2.2.2.2.2.2⟩

theorem slot_back_congr (a b : MSAudioBitrateController) (k : Nat)
    (hs : a.stats = b.stats) (hi : a.curindex = b.curindex) :
    slot_back a k = slot_back b k := by
  unfold slot_back
  rw [hs]
  congr 1
  apply Fin.ext
  simp only [hi]

/-- The slot `read_report` writes to: the one at the new `curindex` modulo 3. -/
theorem read_report_stats (fe : FloatEnv) (obj : MSAudioBitrateController)
    (session : RtpSession) (rb : report_block_t) :
    (obj.clockrate = 0 → session.send_payload = none →
      read_report fe obj session rb = { obj with curindex := obj.curindex + 1 })
    ∧ (∀ pt : PayloadType, obj.clockrate = 0 → session.send_payload = some pt →
      read_report fe obj session rb
        = { obj with
            curindex := obj.curindex + 1
            clockrate := pt.clock_rate
            stats := Function.update obj.stats
              ⟨(obj.curindex + 1) % STATS_HISTORY, Nat.mod_lt _ (by decide)⟩
              (read_report_sample fe pt.clock_rate session rb) })
    ∧ (obj.clockrate ≠ 0 →
      read_report fe obj session rb
        = { obj with
            curindex := obj.curindex + 1
            stats := Function.update obj.stats
              ⟨(obj.curindex + 1) % STATS_HISTORY, Nat.mod_lt _ (by decide)⟩
              (read_report_sample fe obj.clockrate session rb) }) := by
  refine ⟨?_, ?_, ?_⟩
  · intro h1 h2
    unfold read_report
    simp only [h1, h2, if_true]
  · intro pt h1 h2
    unfold read_report
    simp only [h1, h2, if_true]
  · intro h1
    unfold read_report
    simp only [h1, if_false]

/-- Reading a report moves every older sample one place back. -/
theorem read_report_shift (fe : FloatEnv) (obj : MSAudioBitrateController)
    (session : RtpSession) (rb : report_block_t) :
    slot_back (read_report fe obj session rb) 1 = slot_back obj 0
    ∧ slot_back (read_report fe obj session rb) 2 = slot_back obj 1 := by
  have hidx1 : ∀ n : Nat, (((n + 1 : Nat) : Int) - ((1 : Nat) : Int)) % 3
      = ((n : Int) - ((0 : Nat) : Int)) % 3 := by
    intro n
    push_cast
    ring_nf
  have hidx2 : ∀ n : Nat, (((n + 1 : Nat) : Int) - ((2 : Nat) : Int)) % 3
      = ((n : Int) - ((1 : Nat) : Int)) % 3 := by
    intro n
    push_cast
    ring_nf
  have hne1 : ∀ n : Nat, ((((n + 1 : Nat) : Int) - ((1 : Nat) : Int)) % 3).toNat
      ≠ (n + 1) % 3 := by
    intro n
    omega
  have hne2 : ∀ n : Nat, ((((n + 1 : Nat) : Int) - ((2 : Nat) : Int)) % 3).toNat
      ≠ (n + 1) % 3 := by
    intro n
    omega
  have key : ∀ r : MSAudioBitrateController, r.curindex = obj.curindex + 1 →
      (r.stats = obj.stats ∨ ∃ x, r.stats = Function.update obj.stats
        ⟨(obj.curindex + 1) % STATS_HISTORY, Nat.mod_lt _ (by decide)⟩ x) →
      slot_back r 1 = slot_back obj 0 ∧ slot_back r 2 = slot_back obj 1 := by
    intro r hi hs
    unfold slot_back
    rcases hs with hs | ⟨x, hs⟩
    · rw [hs]
      constructor
      · congr 1
        apply Fin.ext
        simp only [hi, hidx1]
      · congr 1
        apply Fin.ext
        simp only [hi, hidx2]
    · rw [hs]
      constructor
      · rw [Function.update_noteq]
        · congr 1
          apply Fin.ext
          simp only [hi, hidx1]
        · intro h
          have := congrArg Fin.val h
          simp only [hi] at this
          exact hne1 obj.curindex this
      · rw [Function.update_noteq]
        · congr 1
          apply Fin.ext
          simp only [hi, hidx2]
        · intro h
          have := congrArg Fin.val h
          simp only [hi] at this
          exact hne2 obj.curindex this
  have hs := read_report_stats fe obj session rb
  apply key _ (read_report_frame fe obj session rb).2.2.2.2.2.2
  by_cases hc : obj.clockrate = 0
  · cases hp : session.send_payload with
    | none =>
      left
      rw [hs.1 hc hp]
    | some pt =>
      right
      rw [hs.2.1 pt hc hp]
      exact ⟨_, rfl⟩
  · right
    rw [hs.2.2 hc]
    exact ⟨_, rfl⟩

/-- C18: processing a packet that carries a report (`read_report` followed by
`state_machine`) leaves `min_ptime`, `nom_bitrate` and `cur_bitrate`
unchanged, leaves `clockrate` unchanged when it was not 0, advances `curindex`
by 1 and leaves every history slot unchanged except the one at the new
`curindex` modulo 3; whatever the encoder and the session answer.  The other
fields are `state`, `stable_count` and `cur_ptime`. -/
theorem process_rtcp_frame (fe : FloatEnv) (obj : MSAudioBitrateController)
    (session : RtpSession) (encoder : MSFilter) (rtcp : mblk_t) (action : action_t)
    (rb : report_block_t) (hrb : report_block_of rtcp = some rb) :
    ms_audio_bitrate_controller_process_rtcp fe obj session encoder rtcp action
      = state_machine (read_report fe obj session rb) encoder action
    ∧ (ms_audio_bitrate_controller_process_rtcp fe obj session encoder rtcp action).1.min_ptime
      = obj.min_ptime
    ∧ (ms_audio_bitrate_controller_process_rtcp fe obj session encoder rtcp action).1.nom_bitrate
      = obj.nom_bitrate
    ∧ (ms_audio_bitrate_controller_process_rtcp fe obj session encoder rtcp action).1.cur_bitrate
      = obj.cur_bitrate
    ∧ (obj.clockrate ≠ 0 →
      (ms_audio_bitrate_controller_process_rtcp fe obj session encoder rtcp action).1.clockrate
        = obj.clockrate)
    ∧ (ms_audio_bitrate_controller_process_rtcp fe obj session encoder rtcp action).1.curindex
      = obj.curindex + 1
    ∧ (∀ i : Fin STATS_HISTORY, i.val ≠ (obj.curindex + 1) % STATS_HISTORY →
      (ms_audio_bitrate_controller_process_rtcp fe obj session encoder rtcp action).1.stats i
        = obj.stats i) := by
  have e : ms_audio_bitrate_controller_process_rtcp fe obj session encoder rtcp action
      = state_machine (read_report fe obj session rb) encoder action := by
    unfold ms_audio_bitrate_controller_process_rtcp
    rw [hrb]
  have hm := state_machine_fields (read_report fe obj session rb) encoder action
  have hf := read_report_frame fe obj session rb
  have hs := read_report_stats fe obj session rb
  rw [e]
  refine ⟨rfl, ?_, ?_, ?_, ?_, ?_, ?_⟩
  · rw [hm.2.2.2.1, hf.2.2.2.1]
  · rw [hm.2.2.2.2.1, hf.2.2.2.2.1]
  · rw [hm.2.2.2.2.2, hf.2.2.2.2.2.1]
  · intro hc
    rw [hm.2.2.1, hs.2.2 hc]
  · rw [hm.2.1, hf.2.2.2.2.2.2]
  · intro i hi
    rw [hm.1]
    have hne : i ≠ ⟨(obj.curindex + 1) % STATS_HISTORY, Nat.mod_lt _ (by decide)⟩ := by
      intro h
      exact hi (congrArg Fin.val h)
    by_cases hc : obj.clockrate = 0
    · cases hp : session.send_payload with
      | none => rw [hs.1 hc hp]
      | some pt =>
        rw [hs.2.1 pt hc hp]
        exact Function.update_noteq hne _ _
    · rw [hs.2.2 hc]
      exact Function.update_noteq hne _ _

/-- Witness of C18: a lossy receiver report processed by a controller with a
resolved clock rate of 8000 Hz keeps the clock rate and the nominal bitrate. -/
theorem process_rtcp_frame_witness :
    (ms_audio_bitrate_controller_process_rtcp example_float_env
        (controller_with quiet quiet quiet state_t.Init 0 20 64000)
        ⟨some ⟨48000⟩, CFloat.zero⟩ encoder_ok (mblk_t.RR (some ⟨1, 64, 0⟩))
        ⟨action_type.DoNothing, 0⟩).1.clockrate = 8000
    ∧ (ms_audio_bitrate_controller_process_rtcp example_float_env
        (controller_with quiet quiet quiet state_t.Init 0 20 64000)
        ⟨some ⟨48000⟩, CFloat.zero⟩ encoder_ok (mblk_t.RR (some ⟨1, 64, 0⟩))
        ⟨action_type.DoNothing, 0⟩).1.nom_bitrate = 64000 :=
  ⟨(process_rtcp_frame example_float_env
      (controller_with quiet quiet quiet state_t.Init 0 20 64000)
      ⟨some ⟨48000⟩, CFloat.zero⟩ encoder_ok (mblk_t.RR (some ⟨1, 64, 0⟩))
      ⟨action_type.DoNothing, 0⟩ ⟨1, 64, 0⟩ rfl).2.2.2.2.1 (by decide),
   (process_rtcp_frame example_float_env
      (controller_with quiet quiet quiet state_t.Init 0 20 64000)
      ⟨some ⟨48000⟩, CFloat.zero⟩ encoder_ok (mblk_t.RR (some ⟨1, 64, 0⟩))
      ⟨action_type.DoNothing, 0⟩ ⟨1, 64, 0⟩ rfl).2.2.1⟩
/-! ## History ring -/

theorem report_block_of_toEvent (r : Report) :
    report_block_of r.toEvent.rtcp = some r.rb := by
  unfold Report.toEvent report_block_of
  cases r.sender <;> rfl

theorem process_rtcp_history (fe : FloatEnv) (c : Int) (hc : c ≠ 0) (r : Report)
    (s : MSAudioBitrateController × MSFilter) (hs : s.1.clockrate = c) :
    (ms_audio_bitrate_controller_process_rtcp fe s.1 r.toEvent.session s.2 r.toEvent.rtcp
        r.toEvent.action).1.clockrate = c
    ∧ (ms_audio_bitrate_controller_process_rtcp fe s.1 r.toEvent.session s.2 r.toEvent.rtcp
        r.toEvent.action).1.curindex = s.1.curindex + 1
    ∧ slot_back (ms_audio_bitrate_controller_process_rtcp fe s.1 r.toEvent.session s.2
        r.toEvent.rtcp r.toEvent.action).1 0 = r.sample fe c
    ∧ slot_back (ms_audio_bitrate_controller_process_rtcp fe s.1 r.toEvent.session s.2
        r.toEvent.rtcp r.toEvent.action).1 1 = slot_back s.1 0
    ∧ slot_back (ms_audio_bitrate_controller_process_rtcp fe s.1 r.toEvent.session s.2
        r.toEvent.rtcp r.toEvent.action).1 2 = slot_back s.1 1 := by
  have e : ms_audio_bitrate_controller_process_rtcp fe s.1 r.toEvent.session s.2
      r.toEvent.rtcp r.toEvent.action
      = state_machine (read_report fe s.1 r.session r.rb) s.2 r.action := by
    unfold ms_audio_bitrate_controller_process_rtcp
    rw [report_block_of_toEvent]
    rfl
  have hm := state_machine_fields (read_report fe s.1 r.session r.rb) s.2 r.action
  have hne : s.1.clockrate ≠ 0 := by
    rw [hs]
    exact hc
  have hcl : (read_report fe s.1 r.session r.rb).clockrate = c := by
    rw [(read_report_stats fe s.1 r.session r.rb).2.2 hne]
    exact hs
  have hsh := read_report_shift fe s.1 r.session r.rb
  have hl := read_report_latest fe s.1 r.session r.rb (Or.inl hne)
  rw [e]
  refine ⟨?_, ?_, ?_, ?_, ?_⟩
  · rw [hm.2.2.1, hcl]
  · rw [hm.2.1, (read_report_frame fe s.1 r.session r.rb).2.2.2.2.2.2]
  · rw [slot_back_congr _ _ 0 hm.1 hm.2.1, hl, hcl]
    rfl
  · rw [slot_back_congr _ _ 1 hm.1 hm.2.1, hsh.1]
  · rw [slot_back_congr _ _ 2 hm.1 hm.2.1, hsh.2]

/-- Once the clock rate is resolved, a run of reports leaves the samples of the
last reports in the slots 0, 1 and 2 places back; `past` lists the samples
recorded before the run, the most recent first. -/
theorem process_all_history (fe : FloatEnv) (c : Int) (hc : c ≠ 0) (rs : List Report) :
    ∀ (s : MSAudioBitrateController × MSFilter) (past : List rtpstats_t),
      s.1.clockrate = c →
      (∀ k : Nat, k < 3 → ∀ x, past[k]? = some x → slot_back s.1 k = x) →
      (process_all fe s (rs.map Report.toEvent)).1.clockrate = c
      ∧ (process_all fe s (rs.map Report.toEvent)).1.curindex = s.1.curindex + rs.length
      ∧ ∀ k : Nat, k < 3 → ∀ x,
          ((rs.map (Report.sample fe c)).reverse ++ past)[k]? = some x →
          slot_back (process_all fe s (rs.map Report.toEvent)).1 k = x := by
  induction rs with
  | nil =>
    intro s past hs hp
    exact ⟨hs, rfl, by simpa using hp⟩
  | cons r rs ih =>
    intro s past hs hp
    have hstep := process_rtcp_history fe c hc r s hs
    have hpast : ∀ k : Nat, k < 3 → ∀ x, (r.sample fe c :: past)[k]? = some x →
        slot_back (ms_audio_bitrate_controller_process_rtcp fe s.1 r.toEvent.session s.2
          r.toEvent.rtcp r.toEvent.action).1 k = x := by
      intro k hk x hx
      match k, hk with
      | 0, _ =>
        simp only [List.getElem?_cons_zero, Option.some.injEq] at hx
        rw [hstep.2.2.1, hx]
      | 1, _ =>
        simp only [List.getElem?_cons_succ] at hx
        rw [hstep.2.2.2.1]
        exact hp 0 (by norm_num) x hx
      | 2, _ =>
        simp only [List.getElem?_cons_succ] at hx
        rw [hstep.2.2.2.2]
        exact hp 1 (by norm_num) x hx
    have := ih _ (r.sample fe c :: past) hstep.1 hpast
    simp only [List.map_cons, process_all, List.length_cons, List.reverse_cons,
      List.append_assoc, List.singleton_append]
    refine ⟨this.1, ?_, this.2.2⟩
    rw [this.2.1, hstep.2.1]
    omega

/-- The ring of samples after `N ≥ 1` reports processed by a fresh controller:
`curindex = N`, the clock rate is the one the first report resolved, and the
slot `k` places back holds the sample of the report number `N - k`. -/
theorem history_ring_samples (fe : FloatEnv) (encoder : MSFilter) (r : Report) (rs : List Report)
    (pt : PayloadType) (hfirst : r.session.send_payload = some pt)
    (hclock : pt.clock_rate ≠ 0) :
    (process_all fe (ms_audio_bitrate_controller_new encoder)
        ((r :: rs).map Report.toEvent)).1.curindex = (r :: rs).length
    ∧ (process_all fe (ms_audio_bitrate_controller_new encoder)
        ((r :: rs).map Report.toEvent)).1.clockrate = pt.clock_rate
    ∧ (∀ k : Nat, k < 3 → k < (r :: rs).length →
        ((r :: rs).map (Report.sample fe pt.clock_rate)).reverse[k]?
          = some (slot_back (process_all fe (ms_audio_bitrate_controller_new encoder)
              ((r :: rs).map Report.toEvent)).1 k))
    ∧ stats_at (process_all fe (ms_audio_bitrate_controller_new encoder)
          ((r :: rs).map Report.toEvent)).1
        (process_all fe (ms_audio_bitrate_controller_new encoder)
          ((r :: rs).map Report.toEvent)).1.curindex
      = slot_back (process_all fe (ms_audio_bitrate_controller_new encoder)
          ((r :: rs).map Report.toEvent)).1 0
    ∧ stats_at (process_all fe (ms_audio_bitrate_controller_new encoder)
          ((r :: rs).map Report.toEvent)).1
        (STATS_HISTORY + (process_all fe (ms_audio_bitrate_controller_new encoder)
          ((r :: rs).map Report.toEvent)).1.curindex - 1)
      = slot_back (process_all fe (ms_audio_bitrate_controller_new encoder)
          ((r :: rs).map Report.toEvent)).1 1
    ∧ stats_at (process_all fe (ms_audio_bitrate_controller_new encoder)
          ((r :: rs).map Report.toEvent)).1
        (STATS_HISTORY + (process_all fe (ms_audio_bitrate_controller_new encoder)
          ((r :: rs).map Report.toEvent)).1.curindex - 2)
      = slot_back (process_all fe (ms_audio_bitrate_controller_new encoder)
          ((r :: rs).map Report.toEvent)).1 2 := by
  have e : ms_audio_bitrate_controller_process_rtcp fe
      (ms_audio_bitrate_controller_new encoder).1 r.toEvent.session
      (ms_audio_bitrate_controller_new encoder).2 r.toEvent.rtcp r.toEvent.action
      = state_machine (read_report fe (ms_audio_bitrate_controller_new encoder).1
          r.session r.rb) (ms_audio_bitrate_controller_new encoder).2 r.action := by
    unfold ms_audio_bitrate_controller_process_rtcp
    rw [report_block_of_toEvent]
    rfl
  have hm := state_machine_fields (read_report fe (ms_audio_bitrate_controller_new encoder).1
    r.session r.rb) (ms_audio_bitrate_controller_new encoder).2 r.action
  have hrs := (read_report_stats fe (ms_audio_bitrate_controller_new encoder).1
    r.session r.rb).2.1 pt rfl hfirst
  have hl := read_report_latest fe (ms_audio_bitrate_controller_new encoder).1 r.session r.rb
    (Or.inr (by rw [hfirst]; simp))
  have hcl : (read_report fe (ms_audio_bitrate_controller_new encoder).1
      r.session r.rb).clockrate = pt.clock_rate := by
    rw [hrs]
  have hci : (read_report fe (ms_audio_bitrate_controller_new encoder).1
      r.session r.rb).curindex = 1 := by
    rw [hrs]
    rfl
  have h1 : ∀ k : Nat, k < 3 → ∀ x, [r.sample fe pt.clock_rate][k]? = some x →
      slot_back (ms_audio_bitrate_controller_process_rtcp fe
        (ms_audio_bitrate_controller_new encoder).1 r.toEvent.session
        (ms_audio_bitrate_controller_new encoder).2 r.toEvent.rtcp r.toEvent.action).1 k
        = x := by
    intro k hk x hx
    match k, hk with
    | 0, _ =>
      simp only [List.getElem?_cons_zero, Option.some.injEq] at hx
      rw [e, slot_back_congr _ _ 0 hm.1 hm.2.1, hl, hcl, ← hx]
      rfl
    | 1, _ => simp at hx
    | 2, _ => simp at hx
  have hrun := process_all_history fe pt.clock_rate hclock rs
    (ms_audio_bitrate_controller_process_rtcp fe
      (ms_audio_bitrate_controller_new encoder).1 r.toEvent.session
      (ms_audio_bitrate_controller_new encoder).2 r.toEvent.rtcp r.toEvent.action)
    [r.sample fe pt.clock_rate]
    (by rw [e, hm.2.2.1, hcl]) h1
  have hlist : ((r :: rs).map (Report.sample fe pt.clock_rate)).reverse
      = (rs.map (Report.sample fe pt.clock_rate)).reverse ++ [r.sample fe pt.clock_rate] := by
    simp
  simp only [List.map_cons, process_all]
  refine ⟨?_, hrun.1, ?_, stats_at_cur _, stats_at_prev _, stats_at_prev2 _⟩
  · rw [hrun.2.1, e, hm.2.1, hci]
    simp only [List.length_cons]
    omega
  · intro k hk hkN
    have hlen : k < ((rs.map (Report.sample fe pt.clock_rate)).reverse
        ++ [r.sample fe pt.clock_rate]).length := by
      simp only [List.length_append, List.length_reverse, List.length_map,
        List.length_singleton]
      simpa using hkN
    have hx := List.getElem?_eq_getElem hlen
    have := hrun.2.2 k hk _ hx
    rw [← List.map_cons, hlist, hx, this]

/-! ## Conversion of the report fields -/

theorem CFloat.ofSmallInt_toRat (n : Int) (h : n.natAbs < 2 ^ 24) :
    (CFloat.ofSmallInt n h).toRat = n := by
  simp [CFloat.ofSmallInt, CFloat.toRat]

theorem CFloat.is_double (x : CFloat) : is_double x.toRat :=
  ⟨x.m, x.e, lt_of_lt_of_le x.hm (by norm_num), by have := x.he.1; omega,
    by have := x.he.2; omega, rfl⟩

theorem is_double_of_nat (n : Nat) (h : n < 2 ^ 53) : is_double (n : ℚ) :=
  ⟨n, 0, by simpa using h, by norm_num, by norm_num, by simp⟩

theorem float_candidate_toRat (q : ℚ) (i : Nat) (y : CFloat)
    (h : float_candidate q i = some y) : y.toRat = q := by
  unfold float_candidate at h
  split at h
  · rename_i hc
    simp only [Option.some.injEq] at h
    rw [← h]
    unfold CFloat.toRat
    simp only
    have hden := hc.1
    have hnum : ((q / (2 : ℚ) ^ ((i : Int) - 149)).num : ℚ) = q / (2 : ℚ) ^ ((i : Int) - 149) := by
      have := Rat.num_div_den (q / (2 : ℚ) ^ ((i : Int) - 149))
      rw [hden] at this
      simpa using this
    rw [hnum]
    have h2 : ((2 : ℚ) ^ ((i : Int) - 149)) ≠ 0 := zpow_ne_zero _ (by norm_num)
    field_simp
  · exact absurd h (by simp)

theorem exact_float_env_correctly_rounded : exact_float_env.correctly_rounded := by
  have hsome : ∀ q : ℚ, ∀ y : CFloat,
      (List.range 254).findSome? (float_candidate q) = some y → y.toRat = q := by
    intro q y h
    obtain ⟨i, _, hi⟩ := List.exists_of_findSome?_eq_some h
    exact float_candidate_toRat q i y hi
  refine ⟨?_, fun q _ => rfl, ?_, fun q h => h⟩
  · intro x
    show (((List.range 254).findSome? (float_candidate x.toRat)).getD CFloat.zero).toRat
      = x.toRat
    have hex : ((List.range 254).findSome? (float_candidate x.toRat)).isSome = true := by
      rw [List.findSome?_isSome_iff]
      refine ⟨(x.e + 149).toNat, ?_, ?_⟩
      · rw [List.mem_range]
        have := x.he
        omega
      · have hi : (((x.e + 149).toNat : Nat) : Int) - 149 = x.e := by
          have := x.he
          omega
        have h2 : ((2 : ℚ) ^ x.e) ≠ 0 := zpow_ne_zero _ (by norm_num)
        have hq : x.toRat / (2 : ℚ) ^ x.e = ((x.m : ℤ) : ℚ) := by
          unfold CFloat.toRat
          field_simp
        have hcond : (x.toRat / (2 : ℚ) ^ ((((x.e + 149).toNat : Nat) : Int) - 149)).den = 1
            ∧ (x.toRat / (2 : ℚ) ^ ((((x.e + 149).toNat : Nat) : Int) - 149)).num.natAbs < 2 ^ 24
            ∧ (x.e + 149).toNat ≤ 253 := by
          rw [hi, hq]
          refine ⟨by simp, by simpa using x.hm, ?_⟩
          have := x.he
          omega
        unfold float_candidate
        rw [dif_pos hcond]
        rfl
    obtain ⟨y, hy⟩ := Option.isSome_iff_exists.mp hex
    rw [hy]
    exact hsome _ _ hy
  · intro q hq
    show 0 ≤ (((List.range 254).findSome? (float_candidate q)).getD CFloat.zero).toRat
    cases h : (List.range 254).findSome? (float_candidate q) with
    | none => simp [CFloat.zero, CFloat.toRat]
    | some y =>
      simp only [Option.getD_some]
      rw [hsome q y h]
      exact hq

theorem CFloat.toRat_ne_one_div_48 (x : CFloat) : x.toRat ≠ 1 / 48 := by
  obtain ⟨m, e, hm, he⟩ := x
  unfold CFloat.toRat
  simp only
  intro h
  rcases le_or_lt 0 e with h0 | h0
  · obtain ⟨k, rfl⟩ : ∃ k : ℕ, e = (k : ℤ) := ⟨e.toNat, by omega⟩
    rw [zpow_natCast] at h
    have h1 : ((48 * (m * 2 ^ k) : ℤ) : ℚ) = ((1 : ℤ) : ℚ) := by
      push_cast
      linarith
    have h2 : 48 * (m * 2 ^ k) = (1 : ℤ) := by exact_mod_cast h1
    generalize m * 2 ^ k = n at h2
    omega
  · obtain ⟨k, rfl⟩ : ∃ k : ℕ, e = -(k : ℤ) := ⟨(-e).toNat, by omega⟩
    rw [zpow_neg, zpow_natCast] at h
    have hk : ((2 : ℚ) ^ k) ≠ 0 := pow_ne_zero _ (by norm_num)
    have h1 : ((48 * m : ℤ) : ℚ) = (((2 : ℤ) ^ k : ℤ) : ℚ) := by
      push_cast
      field_simp at h
      linarith
    have h2 : 48 * m = (2 : ℤ) ^ k := by exact_mod_cast h1
    have h3 : (3 : ℤ) ∣ 2 ^ k := ⟨16 * m, by rw [← h2]; ring⟩
    have h4 : (3 : ℤ) ∣ 2 := Int.prime_three.dvd_of_dvd_pow h3
    omega
/-! ## Rounding to nearest -/

theorem pow2_eq (e : Int) : pow2 e = (2 : ℚ) ^ e := by
  unfold pow2
  split_ifs with h
  · obtain ⟨k, rfl⟩ : ∃ k : ℕ, e = (k : ℤ) := ⟨e.toNat, by omega⟩
    simp [zpow_natCast]
  · obtain ⟨k, rfl⟩ : ∃ k : ℕ, e = -(k : ℤ) := ⟨(-e).toNat, by omega⟩
    simp [zpow_neg, zpow_natCast]

theorem pow2_pos (e : Int) : 0 < pow2 e := by
  rw [pow2_eq]
  positivity

theorem pow2_succ (e : Int) : pow2 (e + 1) = 2 * pow2 e := by
  rw [pow2_eq, pow2_eq, zpow_add_one₀ (by norm_num : (2 : ℚ) ≠ 0)]
  ring

theorem pow2_add_nat (e : Int) (k : Nat) : pow2 (e + k) = 2 ^ k * pow2 e := by
  rw [pow2_eq, pow2_eq, zpow_add₀ (by norm_num : (2 : ℚ) ≠ 0), zpow_natCast]
  ring

theorem round_half_even_nearest (q : ℚ) (n : Int) :
    |((round_half_even q : Int) : ℚ) - q| ≤ |(n : ℚ) - q| := by
  have hf := Int.floor_le q
  have hf2 := Int.lt_floor_add_one q
  have hn : (n : ℚ) ≤ (⌊q⌋ : ℚ) ∨ ((⌊q⌋ : ℚ) + 1 ≤ (n : ℚ)) := by
    rcases le_or_lt n ⌊q⌋ with h | h
    · left
      exact_mod_cast h
    · right
      have : ⌊q⌋ + 1 ≤ n := h
      exact_mod_cast this
  unfold round_half_even
  split_ifs with h1 h2 h3
  all_goals push_cast
  all_goals
    rcases abs_cases ((n : ℚ) - q) with ⟨e1, _⟩ | ⟨e1, _⟩ <;>
    rw [e1, abs_le] <;> rcases hn with hn | hn <;> constructor <;> linarith

theorem clamp_mantissa_bound (bound : Int) (hb : 1 ≤ bound) (n : Int) :
    -bound < clamp_mantissa bound n ∧ clamp_mantissa bound n < bound := by
  unfold clamp_mantissa
  split_ifs <;> constructor <;> omega

theorem clamp_mantissa_nearest (bound : Int) (x : ℚ) (r : Int)
    (hr : ∀ n : Int, |(r : ℚ) - x| ≤ |(n : ℚ) - x|) (n : Int)
    (hn1 : -bound < n) (hn2 : n < bound) :
    |((clamp_mantissa bound r : Int) : ℚ) - x| ≤ |(n : ℚ) - x| := by
  unfold clamp_mantissa
  split_ifs with h1 h2
  · -- `r` is below the range
    have hr1 := hr (-(bound - 1))
    have c1 : (r : ℚ) + 1 ≤ ((-(bound - 1) : Int) : ℚ) := by
      have : r + 1 ≤ -(bound - 1) := h1
      exact_mod_cast this
    have c2 : ((-(bound - 1) : Int) : ℚ) ≤ (n : ℚ) := by
      have : -(bound - 1) ≤ n := by omega
      exact_mod_cast this
    generalize ((-(bound - 1) : Int) : ℚ) = L at hr1 c1 c2 ⊢
    rcases abs_cases ((r : ℚ) - x) with ⟨e1, _⟩ | ⟨e1, _⟩ <;>
    rcases abs_cases (L - x) with ⟨e2, _⟩ | ⟨e2, _⟩ <;>
    rcases abs_cases ((n : ℚ) - x) with ⟨e3, _⟩ | ⟨e3, _⟩ <;>
    rw [e1, e2] at hr1 <;> rw [e2, e3] <;> linarith
  · have hr1 := hr (bound - 1)
    have c1 : ((bound - 1 : Int) : ℚ) + 1 ≤ (r : ℚ) := by
      have : bound - 1 + 1 ≤ r := h2
      exact_mod_cast this
    have c2 : (n : ℚ) ≤ ((bound - 1 : Int) : ℚ) := by
      have : n ≤ bound - 1 := by omega
      exact_mod_cast this
    generalize ((bound - 1 : Int) : ℚ) = U at hr1 c1 c2 ⊢
    rcases abs_cases ((r : ℚ) - x) with ⟨e1, _⟩ | ⟨e1, _⟩ <;>
    rcases abs_cases (U - x) with ⟨e2, _⟩ | ⟨e2, _⟩ <;>
    rcases abs_cases ((n : ℚ) - x) with ⟨e3, _⟩ | ⟨e3, _⟩ <;>
    rw [e1, e2] at hr1 <;> rw [e2, e3] <;> linarith
  · exact hr n

/-- The number the class `min i imax` offers is nearest to `q` in that
class. -/
theorem class_value_nearest (bound : Int) (emin : Int) (imax : Nat) (q : ℚ) (i : Nat)
    (m : Int) (hm1 : -bound < m) (hm2 : m < bound) :
    |class_value bound emin imax q i - q|
      ≤ |(m : ℚ) * (2 : ℚ) ^ (((min i imax : Nat) : Int) + emin) - q| := by
  unfold class_value
  rw [pow2_eq]
  have hP : (0 : ℚ) < (2 : ℚ) ^ (((min i imax : Nat) : Int) + emin) := by positivity
  generalize (2 : ℚ) ^ (((min i imax : Nat) : Int) + emin) = P at hP ⊢
  have h := clamp_mantissa_nearest bound (q / P) (round_half_even (q / P))
    (round_half_even_nearest (q / P)) m hm1 hm2
  have e1 : ∀ c : ℚ, c * P - q = P * (c - q / P) := by
    intro c
    field_simp
  rw [e1, e1, abs_mul, abs_mul, abs_of_pos hP]
  exact mul_le_mul_of_nonneg_left h (le_of_lt hP)

theorem class_value_in (bound : Int) (hb : 1 ≤ bound) (emin : Int) (imax : Nat) (q : ℚ)
    (i : Nat) :
    ∃ m : Int, -bound < m ∧ m < bound
      ∧ class_value bound emin imax q i
        = (m : ℚ) * (2 : ℚ) ^ (((min i imax : Nat) : Int) + emin) := by
  refine ⟨clamp_mantissa bound (round_half_even (q / pow2 ((min i imax : Nat) + emin))),
    (clamp_mantissa_bound bound hb _).1, (clamp_mantissa_bound bound hb _).2, ?_⟩
  unfold class_value
  rw [pow2_eq]

theorem best_of_le {α : Type} (dist : α → ℚ) (l : List α) :
    ∀ a : α, dist (best_of dist a l) ≤ dist a ∧ ∀ b ∈ l, dist (best_of dist a l) ≤ dist b := by
  induction l with
  | nil =>
    intro a
    exact ⟨le_refl _, fun b hb => absurd hb (List.not_mem_nil b)⟩
  | cons c l ih =>
    intro a
    unfold best_of
    split_ifs with h
    · refine ⟨le_trans (ih c).1 (le_of_lt h), ?_⟩
      intro b hb
      rcases List.mem_cons.mp hb with rfl | hb
      · exact (ih b).1
      · exact (ih c).2 b hb
    · refine ⟨(ih a).1, ?_⟩
      intro b hb
      rcases List.mem_cons.mp hb with rfl | hb
      · exact le_trans (ih a).1 (not_lt.mp h)
      · exact (ih a).2 b hb

theorem best_of_mem {α : Type} (dist : α → ℚ) (l : List α) :
    ∀ a : α, best_of dist a l = a ∨ best_of dist a l ∈ l := by
  induction l with
  | nil =>
    intro a
    exact Or.inl rfl
  | cons c l ih =>
    intro a
    unfold best_of
    split_ifs with h
    · rcases ih c with h1 | h1
      · exact Or.inr (by rw [h1]; exact List.mem_cons_self _ _)
      · exact Or.inr (List.mem_cons_of_mem _ h1)
    · rcases ih a with h1 | h1
      · exact Or.inl h1
      · exact Or.inr (List.mem_cons_of_mem _ h1)

/-- In the class of the size of `q ≥ 0` or in the next one there is a number at
least as near to `q` as any number of any class. -/
theorem window_nearest (bound : Int) (hb : bound = 2 * (bound / 2)) (hb1 : 1 ≤ bound / 2)
    (emin : Int) (imax : Nat) (q : ℚ) (hq : 0 ≤ q) (i : Nat)
    (hw : window_ok bound emin imax q i = true) (j : Nat) (hj : j ≤ imax)
    (m : Int) (hm1 : -bound < m) (hm2 : m < bound) :
    |class_value bound emin imax q i - q| ≤ |(m : ℚ) * (2 : ℚ) ^ ((j : Int) + emin) - q|
    ∨ |class_value bound emin imax q (i + 1) - q|
        ≤ |(m : ℚ) * (2 : ℚ) ^ ((j : Int) + emin) - q| := by
  unfold window_ok at hw
  simp only [Bool.and_eq_true, Bool.or_eq_true, decide_eq_true_eq] at hw
  obtain ⟨⟨hi, h1⟩, h2⟩ := hw
  rw [pow2_eq] at h1 h2
  have hmin : min i imax = i := min_eq_left hi
  have hP : (0 : ℚ) < (2 : ℚ) ^ ((i : Int) + emin) := by positivity
  have hQ : (0 : ℚ) < (2 : ℚ) ^ ((j : Int) + emin) := by positivity
  have hbq : (bound : ℚ) = 2 * ((bound / 2 : Int) : ℚ) := by exact_mod_cast hb
  have hh1 : (1 : ℚ) ≤ ((bound / 2 : Int) : ℚ) := by exact_mod_cast hb1
  rcases le_or_lt m 0 with hm0 | hm0
  · -- a number that is not positive is not nearer than 0
    left
    have h := class_value_nearest bound emin imax q i 0 (by omega) (by omega)
    rw [hmin] at h
    have hy : (m : ℚ) * (2 : ℚ) ^ ((j : Int) + emin) ≤ 0 :=
      mul_nonpos_of_nonpos_of_nonneg (by exact_mod_cast hm0) (le_of_lt hQ)
    refine le_trans h ?_
    simp only [Int.cast_zero, zero_mul, zero_sub, abs_neg]
    rw [abs_of_nonneg hq, abs_of_nonpos (by linarith)]
    linarith
  · have hm0q : (1 : ℚ) ≤ (m : ℚ) := by exact_mod_cast hm0
    rcases lt_trichotomy j i with hji | hji | hji
    · -- a lower class: its numbers are below the class of `q`
      left
      have h := class_value_nearest bound emin imax q i (bound / 2) (by omega) (by omega)
      rw [hmin] at h
      have hL : ((bound / 2 : Int) : ℚ) * (2 : ℚ) ^ ((i : Int) + emin) ≤ q := by
        rcases h2 with h2 | h2
        · omega
        · exact h2
      obtain ⟨k, hk⟩ : ∃ k : Nat, (i : Int) = j + 1 + k := ⟨i - j - 1, by omega⟩
      have hpow : (2 : ℚ) ^ ((i : Int) + emin) = 2 ^ k * (2 * (2 : ℚ) ^ ((j : Int) + emin)) := by
        rw [show (i : Int) + emin = ((j : Int) + emin + 1) + k by omega, ← pow2_eq,
          pow2_add_nat, pow2_succ, pow2_eq]
      have hk1 : (1 : ℚ) ≤ 2 ^ k := one_le_pow₀ (by norm_num)
      have hy : (m : ℚ) * (2 : ℚ) ^ ((j : Int) + emin)
          ≤ ((bound / 2 : Int) : ℚ) * (2 : ℚ) ^ ((i : Int) + emin) := by
        rw [hpow]
        have hmb : (m : ℚ) ≤ 2 * ((bound / 2 : Int) : ℚ) := by
          rw [← hbq]
          exact_mod_cast le_of_lt hm2
        have hX : (0 : ℚ) ≤ ((bound / 2 : Int) : ℚ) * (2 * (2 : ℚ) ^ ((j : Int) + emin)) := by
          positivity
        calc (m : ℚ) * (2 : ℚ) ^ ((j : Int) + emin)
            ≤ (2 * ((bound / 2 : Int) : ℚ)) * (2 : ℚ) ^ ((j : Int) + emin) :=
              mul_le_mul_of_nonneg_right hmb (le_of_lt hQ)
          _ = 1 * (((bound / 2 : Int) : ℚ) * (2 * (2 : ℚ) ^ ((j : Int) + emin))) := by ring
          _ ≤ 2 ^ k * (((bound / 2 : Int) : ℚ) * (2 * (2 : ℚ) ^ ((j : Int) + emin))) :=
              mul_le_mul_of_nonneg_right hk1 hX
          _ = ((bound / 2 : Int) : ℚ) * (2 ^ k * (2 * (2 : ℚ) ^ ((j : Int) + emin))) := by ring
      refine le_trans h ?_
      rw [abs_of_nonpos (by linarith), abs_of_nonpos (by linarith)]
      linarith
    · -- the class of `q`
      left
      have h := class_value_nearest bound emin imax q i m hm1 hm2
      rw [hmin] at h
      rw [hji]
      exact h
    · -- a higher class
      right
      have hi1 : min (i + 1) imax = i + 1 := min_eq_left (by omega)
      obtain ⟨k, hk⟩ : ∃ k : Nat, (j : Int) = i + 1 + k := ⟨j - i - 1, by omega⟩
      have hpow : (2 : ℚ) ^ ((j : Int) + emin)
          = 2 ^ k * (2 : ℚ) ^ (((i + 1 : Nat) : Int) + emin) := by
        rw [show (j : Int) + emin = (((i + 1 : Nat) : Int) + emin) + k by push_cast; omega,
          ← pow2_eq, pow2_add_nat, pow2_eq]
      have hR : (0 : ℚ) < (2 : ℚ) ^ (((i + 1 : Nat) : Int) + emin) := by positivity
      have hPR : (2 : ℚ) ^ (((i + 1 : Nat) : Int) + emin) = 2 * (2 : ℚ) ^ ((i : Int) + emin) := by
        rw [show ((i + 1 : Nat) : Int) + emin = ((i : Int) + emin) + 1 by push_cast; omega,
          ← pow2_eq, pow2_succ, pow2_eq]
      rcases lt_or_le (m * 2 ^ k) bound with hM | hM
      · have h := class_value_nearest bound emin imax q (i + 1) (m * 2 ^ k)
          (by
            have : 0 < m * 2 ^ k := mul_pos hm0 (by positivity)
            omega)
          hM
        rw [hi1] at h
        rw [hpow]
        refine le_trans h (le_of_eq ?_)
        push_cast
        ring_nf
      · have h := class_value_nearest bound emin imax q (i + 1) (bound / 2) (by omega) (by omega)
        rw [hi1] at h
        have hH : q < ((bound / 2 : Int) : ℚ) * (2 : ℚ) ^ (((i + 1 : Nat) : Int) + emin) := by
          rw [hPR]
          calc q < (bound : ℚ) * (2 : ℚ) ^ ((i : Int) + emin) := h1
            _ = ((bound / 2 : Int) : ℚ) * (2 * (2 : ℚ) ^ ((i : Int) + emin)) := by
              rw [hbq]
              ring
        have hMq : (bound : ℚ) ≤ (m : ℚ) * 2 ^ k := by exact_mod_cast hM
        have hy : ((bound / 2 : Int) : ℚ) * (2 : ℚ) ^ (((i + 1 : Nat) : Int) + emin)
            ≤ (m : ℚ) * (2 : ℚ) ^ ((j : Int) + emin) := by
          rw [hpow]
          calc ((bound / 2 : Int) : ℚ) * (2 : ℚ) ^ (((i + 1 : Nat) : Int) + emin)
              ≤ (bound : ℚ) * (2 : ℚ) ^ (((i + 1 : Nat) : Int) + emin) := by
                apply mul_le_mul_of_nonneg_right _ (le_of_lt hR)
                rw [hbq]
                linarith
            _ ≤ ((m : ℚ) * 2 ^ k) * (2 : ℚ) ^ (((i + 1 : Nat) : Int) + emin) :=
                mul_le_mul_of_nonneg_right hMq (le_of_lt hR)
            _ = (m : ℚ) * (2 ^ k * (2 : ℚ) ^ (((i + 1 : Nat) : Int) + emin)) := by ring
        refine le_trans h ?_
        rw [abs_of_nonneg (by linarith), abs_of_nonneg (by linarith)]
        linarith

/-- Among the classes that are searched there is one whose nearest number is
at least as near to `q ≥ 0` as any number of any class. -/
theorem classes_to_search_nearest (p : Nat) (hp : 1 ≤ p) (emin : Int) (imax : Nat) (q : ℚ)
    (hq : 0 ≤ q) (j : Nat) (hj : j ≤ imax) (m : Int) (hm1 : -2 ^ p < m) (hm2 : m < 2 ^ p) :
    ∃ k ∈ classes_to_search p emin imax q,
      |class_value (2 ^ p) emin imax q k - q|
        ≤ |(m : ℚ) * (2 : ℚ) ^ ((j : Int) + emin) - q| := by
  have hb : (2 : Int) ^ p = 2 * (2 ^ p / 2) := by
    obtain ⟨n, rfl⟩ : ∃ n, p = n + 1 := ⟨p - 1, by omega⟩
    rw [pow_succ]
    omega
  have hb1 : (1 : Int) ≤ 2 ^ p / 2 := by
    obtain ⟨n, rfl⟩ : ∃ n, p = n + 1 := ⟨p - 1, by omega⟩
    rw [pow_succ]
    have : (1 : Int) ≤ 2 ^ n := one_le_pow₀ (by norm_num)
    omega
  unfold classes_to_search
  split
  · rename_i i hfind
    have hw := List.find?_some hfind
    rcases window_nearest (2 ^ p) hb hb1 emin imax q hq i hw j hj m hm1 hm2 with h | h
    · exact ⟨i, by simp, h⟩
    · exact ⟨i + 1, by simp, h⟩
  · refine ⟨j, List.mem_range.mpr (by omega), ?_⟩
    have h := class_value_nearest (2 ^ p) emin imax q j m hm1 hm2
    rw [min_eq_left hj] at h
    exact h

theorem float_round_at_toRat (q : ℚ) (i : Nat) :
    (float_round_at q i).toRat = class_value (2 ^ 24) (-149) 253 q i := by
  simp only [float_round_at, class_value, CFloat.toRat, pow2_eq]

theorem CFloat.neg_toRat (x : CFloat) : x.neg.toRat = -x.toRat := by
  unfold CFloat.neg CFloat.toRat
  push_cast
  ring

theorem float_nearest_nonneg_nearest (q : ℚ) (hq : 0 ≤ q) (y : CFloat) :
    |(float_nearest_nonneg q).toRat - q| ≤ |y.toRat - q| := by
  have hm := y.hm
  have he := y.he
  obtain ⟨k, hk, h⟩ := classes_to_search_nearest 24 (by norm_num) (-149) 253 q hq
    (y.e + 149).toNat (by omega) y.m (by omega) (by omega)
  rw [show (((y.e + 149).toNat : Nat) : Int) + -149 = y.e by omega] at h
  have hb := (best_of_le (fun c : CFloat => |c.toRat - q|)
    ((classes_to_search 24 (-149) 253 q).map (float_round_at q)) (float_round_at q 0)).2
    (float_round_at q k) (List.mem_map_of_mem _ hk)
  simp only [float_round_at_toRat] at hb
  unfold float_nearest_nonneg
  exact le_trans hb h

theorem double_nearest_nonneg_nearest (q : ℚ) (hq : 0 ≤ q) (d : ℚ) (hd : is_double d) :
    |double_nearest_nonneg q - q| ≤ |d - q| := by
  obtain ⟨m, e, hm, he1, he2, rfl⟩ := hd
  obtain ⟨k, hk, h⟩ := classes_to_search_nearest 53 (by norm_num) (-1074) 2045 q hq
    (e + 1074).toNat (by omega) m (by omega) (by omega)
  rw [show (((e + 1074).toNat : Nat) : Int) + -1074 = e by omega] at h
  have hb := (best_of_le (fun c : ℚ => |c - q|)
    ((classes_to_search 53 (-1074) 2045 q).map (class_value (2 ^ 53) (-1074) 2045 q))
    (class_value (2 ^ 53) (-1074) 2045 q 0)).2
    (class_value (2 ^ 53) (-1074) 2045 q k) (List.mem_map_of_mem _ hk)
  unfold double_nearest_nonneg
  exact le_trans hb h

theorem class_value_is_double (q : ℚ) (i : Nat) :
    is_double (class_value (2 ^ 53) (-1074) 2045 q i) := by
  obtain ⟨m, hm1, hm2, h⟩ := class_value_in (2 ^ 53) (by norm_num) (-1074) 2045 q i
  exact ⟨m, ((min i 2045 : Nat) : Int) + -1074, by omega, by omega, by omega, h⟩

theorem double_nearest_nonneg_is_double (q : ℚ) : is_double (double_nearest_nonneg q) := by
  unfold double_nearest_nonneg
  rcases best_of_mem (fun c : ℚ => |c - q|)
    ((classes_to_search 53 (-1074) 2045 q).map (class_value (2 ^ 53) (-1074) 2045 q))
    (class_value (2 ^ 53) (-1074) 2045 q 0) with h | h
  · rw [h]
    exact class_value_is_double q 0
  · obtain ⟨k, _, hk⟩ := List.mem_map.mp h
    rw [← hk]
    exact class_value_is_double q k

theorem is_double_neg (d : ℚ) (h : is_double d) : is_double (-d) := by
  obtain ⟨m, e, hm, he1, he2, rfl⟩ := h
  exact ⟨-m, e, by rw [Int.natAbs_neg]; exact hm, he1, he2, by push_cast; ring⟩

/-- The environment `ieee_float_env` rounds to nearest; it does so for every
number, the range of the format is not needed. -/
theorem ieee_float_env_nearest :
    (∀ (q : ℚ) (y : CFloat), |(ieee_float_env.to_float q).toRat - q| ≤ |y.toRat - q|)
    ∧ (∀ q : ℚ, is_double (ieee_float_env.to_double q))
    ∧ (∀ (q d : ℚ), is_double d → |ieee_float_env.to_double q - q| ≤ |d - q|) := by
  refine ⟨?_, ?_, ?_⟩
  · intro q y
    show |(if 0 ≤ q then float_nearest_nonneg q else (float_nearest_nonneg (-q)).neg).toRat - q|
      ≤ _
    split_ifs with h
    · exact float_nearest_nonneg_nearest q h y
    · have h1 := float_nearest_nonneg_nearest (-q) (by linarith) y.neg
      rw [CFloat.neg_toRat] at h1 ⊢
      rw [show -(float_nearest_nonneg (-q)).toRat - q
          = -((float_nearest_nonneg (-q)).toRat - -q) by ring, abs_neg]
      rw [show -y.toRat - -q = -(y.toRat - q) by ring, abs_neg] at h1
      exact h1
  · intro q
    show is_double (if 0 ≤ q then double_nearest_nonneg q else -double_nearest_nonneg (-q))
    split_ifs with h
    · exact double_nearest_nonneg_is_double q
    · exact is_double_neg _ (double_nearest_nonneg_is_double (-q))
  · intro q d hd
    show |(if 0 ≤ q then double_nearest_nonneg q else -double_nearest_nonneg (-q)) - q| ≤ _
    split_ifs with h
    · exact double_nearest_nonneg_nearest q h d hd
    · have h1 := double_nearest_nonneg_nearest (-q) (by linarith) (-d) (is_double_neg d hd)
      rw [show -double_nearest_nonneg (-q) - q = -(double_nearest_nonneg (-q) - -q) by ring,
        abs_neg]
      rw [show -d - -q = -(d - q) by ring, abs_neg] at h1
      exact h1

theorem ieee_float_env_round_to_nearest : ieee_float_env.round_to_nearest :=
  ⟨fun q _ y => ieee_float_env_nearest.1 q y,
   fun q _ => ieee_float_env_nearest.2.1 q,
   fun q _ d hd => ieee_float_env_nearest.2.2 q d hd⟩

theorem CFloat.abs_le_FLT_MAX (x : CFloat) : |x.toRat| ≤ FLT_MAX := by
  have hm := x.hm
  have he := x.he.2
  unfold CFloat.toRat FLT_MAX
  have h2 : (0 : ℚ) < (2 : ℚ) ^ x.e := by positivity
  rw [abs_mul, abs_of_pos h2]
  have h3 : (2 : ℚ) ^ x.e ≤ (2 : ℚ) ^ (104 : Int) := zpow_le_zpow_right₀ (by norm_num) he
  have h4 : |(x.m : ℚ)| ≤ 2 ^ 24 - 1 := by
    have : |x.m| ≤ 2 ^ 24 - 1 := by
      rw [abs_le]
      omega
    have : ((|x.m| : Int) : ℚ) ≤ ((2 ^ 24 - 1 : Int) : ℚ) := by exact_mod_cast this
    rw [Int.cast_abs] at this
    refine le_trans this (le_of_eq ?_)
    norm_num
  calc |(x.m : ℚ)| * (2 : ℚ) ^ x.e ≤ (2 ^ 24 - 1) * (2 : ℚ) ^ (104 : Int) :=
        mul_le_mul h4 h3 (le_of_lt h2) (by norm_num)
    _ = (2 ^ 24 - 1) * 2 ^ 104 := by norm_num

theorem is_double_abs_le (q : ℚ) (h : is_double q) : |q| ≤ DBL_MAX := by
  obtain ⟨m, e, hm, _, he, rfl⟩ := h
  unfold DBL_MAX
  have h2 : (0 : ℚ) < (2 : ℚ) ^ e := by positivity
  rw [abs_mul, abs_of_pos h2]
  have h3 : (2 : ℚ) ^ e ≤ (2 : ℚ) ^ (971 : Int) := zpow_le_zpow_right₀ (by norm_num) he
  have h4 : |(m : ℚ)| ≤ 2 ^ 53 - 1 := by
    have : |m| ≤ 2 ^ 53 - 1 := by
      rw [abs_le]
      omega
    have : ((|m| : Int) : ℚ) ≤ ((2 ^ 53 - 1 : Int) : ℚ) := by exact_mod_cast this
    rw [Int.cast_abs] at this
    refine le_trans this (le_of_eq ?_)
    norm_num
  calc |(m : ℚ)| * (2 : ℚ) ^ e ≤ (2 ^ 53 - 1) * (2 : ℚ) ^ (971 : Int) :=
        mul_le_mul h4 h3 (le_of_lt h2) (by norm_num)
    _ = (2 ^ 53 - 1) * 2 ^ 971 := by norm_num

/-- Rounding to nearest keeps a number the `float` type can hold. -/
theorem round_to_nearest_float_exact (fe : FloatEnv) (hfe : fe.round_to_nearest) (x : CFloat) :
    (fe.to_float x.toRat).toRat = x.toRat := by
  have h := hfe.float_nearest x.toRat x.abs_le_FLT_MAX x
  rw [sub_self, abs_zero] at h
  have := abs_nonneg ((fe.to_float x.toRat).toRat - x.toRat)
  have h0 : |(fe.to_float x.toRat).toRat - x.toRat| = 0 := le_antisymm h this
  exact sub_eq_zero.mp (abs_eq_zero.mp h0)

/-- Rounding to nearest keeps a number the `double` type can hold. -/
theorem round_to_nearest_double_exact (fe : FloatEnv) (hfe : fe.round_to_nearest) (q : ℚ)
    (hq : is_double q) : fe.to_double q = q := by
  have h := hfe.double_nearest q (is_double_abs_le q hq) q hq
  rw [sub_self, abs_zero] at h
  have := abs_nonneg (fe.to_double q - q)
  have h0 : |fe.to_double q - q| = 0 := le_antisymm h this
  exact sub_eq_zero.mp (abs_eq_zero.mp h0)

/-- A `float` nearest to `q ≥ 0` lies between 0 and `2 * q`. -/
theorem round_to_nearest_float_range (fe : FloatEnv) (hfe : fe.round_to_nearest) (q : ℚ)
    (h0 : 0 ≤ q) (h1 : q ≤ FLT_MAX) :
    0 ≤ (fe.to_float q).toRat ∧ (fe.to_float q).toRat ≤ 2 * q := by
  have h := hfe.float_nearest q (by rw [abs_of_nonneg h0]; exact h1) CFloat.zero
  have hz : CFloat.zero.toRat = 0 := by simp [CFloat.zero, CFloat.toRat]
  rw [hz, zero_sub, abs_neg, abs_of_nonneg h0, abs_le] at h
  constructor <;> linarith [h.1, h.2]

/-- A `double` nearest to `q ≥ 0` lies between 0 and `2 * q`. -/
theorem round_to_nearest_double_range (fe : FloatEnv) (hfe : fe.round_to_nearest) (q : ℚ)
    (h0 : 0 ≤ q) (h1 : q ≤ DBL_MAX) :
    0 ≤ fe.to_double q ∧ fe.to_double q ≤ 2 * q := by
  have h := hfe.double_nearest q (by rw [abs_of_nonneg h0]; exact h1) 0
    ⟨0, 0, by norm_num, by norm_num, by norm_num, by simp⟩
  rw [zero_sub, abs_neg, abs_of_nonneg h0, abs_le] at h
  constructor <;> linarith [h.1, h.2]

/-- A `float` nearest to `q ≥ 1` is at least 1. -/
theorem round_to_nearest_float_one_le (fe : FloatEnv) (hfe : fe.round_to_nearest) (q : ℚ)
    (h0 : 1 ≤ q) (h1 : q ≤ FLT_MAX) : 1 ≤ (fe.to_float q).toRat := by
  have h := hfe.float_nearest q (by rw [abs_of_nonneg (by linarith)]; exact h1)
    (CFloat.ofSmallInt 1 (by decide))
  rw [CFloat.ofSmallInt_toRat, Int.cast_one, abs_of_nonpos (by linarith : (1 : ℚ) - q ≤ 0),
    abs_le] at h
  linarith [h.1]

theorem to_float_int_exact_of (fe : FloatEnv)
    (hx : ∀ x : CFloat, (fe.to_float x.toRat).toRat = x.toRat) (n : Int)
    (h : n.natAbs < 2 ^ 24) : (fe.to_float (n : ℚ)).toRat = n := by
  have hx := hx (CFloat.ofSmallInt n h)
  rw [CFloat.ofSmallInt_toRat] at hx
  exact hx

theorem to_float_nat_exact_of (fe : FloatEnv)
    (hx : ∀ x : CFloat, (fe.to_float x.toRat).toRat = x.toRat) (n : Nat)
    (h : n < 2 ^ 24) : (fe.to_float (n : ℚ)).toRat = n := by
  have := to_float_int_exact_of fe hx (n : Int) (by simpa using h)
  simpa using this

theorem lost_percentage_exact_of (fe : FloatEnv)
    (hx : ∀ x : CFloat, (fe.to_float x.toRat).toRat = x.toRat)
    (hd : ∀ q : ℚ, is_double q → fe.to_double q = q) (clockrate : Int)
    (session : RtpSession) (rb : report_block_t) (h : rb.fraction_lost ≤ 256) :
    (read_report_sample fe clockrate session rb).lost_percentage.toRat
      = 100 * (rb.fraction_lost : ℚ) / 256 := by
  have h1 := to_float_nat_exact_of fe hx rb.fraction_lost (by omega)
  have h2 : fe.to_double (100 * (rb.fraction_lost : ℚ)) = 100 * (rb.fraction_lost : ℚ) := by
    apply hd
    have := is_double_of_nat (100 * rb.fraction_lost) (by omega)
    simpa using this
  have h3 : fe.to_double (100 * (rb.fraction_lost : ℚ) / 256)
      = 100 * (rb.fraction_lost : ℚ) / 256 := by
    apply hd
    refine ⟨25 * (rb.fraction_lost : Int), -6, by omega, by norm_num, by norm_num, ?_⟩
    push_cast
    norm_num
    ring
  have h4 := hx ⟨25 * (rb.fraction_lost : Int), -6, by omega, by norm_num⟩
  have h5 : (⟨25 * (rb.fraction_lost : Int), -6, by omega, by norm_num⟩ : CFloat).toRat
      = 100 * (rb.fraction_lost : ℚ) / 256 := by
    unfold CFloat.toRat
    push_cast
    norm_num
    ring
  rw [h5] at h4
  show (fe.to_float (fe.to_double
    (fe.to_double (100 * (fe.to_float (rb.fraction_lost : ℚ)).toRat) / 256))).toRat = _
  rw [h1, h2, h3, h4]

theorem to_float_nat_exact (fe : FloatEnv) (hfe : fe.correctly_rounded) (n : Nat)
    (h : n < 2 ^ 24) : (fe.to_float (n : ℚ)).toRat = n :=
  to_float_nat_exact_of fe hfe.float_exact n h

theorem to_float_int_exact (fe : FloatEnv) (hfe : fe.correctly_rounded) (n : Int)
    (h : n.natAbs < 2 ^ 24) : (fe.to_float (n : ℚ)).toRat = n :=
  to_float_int_exact_of fe hfe.float_exact n h

theorem lost_percentage_exact (fe : FloatEnv) (hfe : fe.correctly_rounded) (clockrate : Int)
    (session : RtpSession) (rb : report_block_t) (h : rb.fraction_lost ≤ 256) :
    (read_report_sample fe clockrate session rb).lost_percentage.toRat
      = 100 * (rb.fraction_lost : ℚ) / 256 :=
  lost_percentage_exact_of fe hfe.float_exact hfe.double_exact clockrate session rb h

/-- The conversion of the jitter with a unit that rounds to nearest, for a
32-bit jitter `j` and a positive clock rate `c`: the product `1000.0 * (float)j`
is exact, so the recorded value is the quotient of `1000 * (float)j` by
`(float)c`, rounded to `double` and then to `float`; all the numbers are within
the range of their type and not negative. -/
theorem int_jitter_rounding (fe : FloatEnv) (hfe : fe.round_to_nearest) (clockrate : Int)
    (session : RtpSession) (rb : report_block_t) (hc0 : 0 < clockrate)
    (hc : clockrate < 2 ^ 31) (hj : rb.interarrival_jitter < 2 ^ 32) :
    (read_report_sample fe clockrate session rb).int_jitter
        = fe.to_float (fe.to_double
            (1000 * (fe.to_float (rb.interarrival_jitter : ℚ)).toRat
              / (fe.to_float (clockrate : ℚ)).toRat))
    ∧ nearest_float (fe.to_float (rb.interarrival_jitter : ℚ)) (rb.interarrival_jitter : ℚ)
    ∧ nearest_float (fe.to_float (clockrate : ℚ)) (clockrate : ℚ)
    ∧ 1 ≤ (fe.to_float (clockrate : ℚ)).toRat
    ∧ nearest_double
        (fe.to_double (1000 * (fe.to_float (rb.interarrival_jitter : ℚ)).toRat
          / (fe.to_float (clockrate : ℚ)).toRat))
        (1000 * (fe.to_float (rb.interarrival_jitter : ℚ)).toRat
          / (fe.to_float (clockrate : ℚ)).toRat)
    ∧ nearest_float (read_report_sample fe clockrate session rb).int_jitter
        (fe.to_double (1000 * (fe.to_float (rb.interarrival_jitter : ℚ)).toRat
          / (fe.to_float (clockrate : ℚ)).toRat))
    ∧ 0 ≤ (read_report_sample fe clockrate session rb).int_jitter.toRat := by
  have hFM : (2 : ℚ) ^ 45 ≤ FLT_MAX := by
    unfold FLT_MAX
    norm_num
  have hDM : (2 : ℚ) ^ 45 ≤ DBL_MAX := by
    unfold DBL_MAX
    norm_num
  have hj0 : (0 : ℚ) ≤ (rb.interarrival_jitter : ℚ) := Nat.cast_nonneg _
  have hjq : (rb.interarrival_jitter : ℚ) ≤ 2 ^ 32 := by exact_mod_cast le_of_lt hj
  have hcq1 : (1 : ℚ) ≤ (clockrate : ℚ) := by exact_mod_cast hc0
  have hcq : (clockrate : ℚ) ≤ 2 ^ 31 := by exact_mod_cast le_of_lt hc
  have hJ := round_to_nearest_float_range fe hfe (rb.interarrival_jitter : ℚ) hj0
    (by linarith [show (2 : ℚ) ^ 32 ≤ 2 ^ 45 by norm_num])
  have hJn : nearest_float (fe.to_float (rb.interarrival_jitter : ℚ))
      (rb.interarrival_jitter : ℚ) :=
    hfe.float_nearest _ (by
      rw [abs_of_nonneg hj0]
      linarith [show (2 : ℚ) ^ 32 ≤ 2 ^ 45 by norm_num])
  have hCn : nearest_float (fe.to_float (clockrate : ℚ)) (clockrate : ℚ) :=
    hfe.float_nearest _ (by
      rw [abs_of_nonneg (by linarith)]
      linarith [show (2 : ℚ) ^ 31 ≤ 2 ^ 45 by norm_num])
  have hC := round_to_nearest_float_one_le fe hfe (clockrate : ℚ) hcq1
    (by linarith [show (2 : ℚ) ^ 31 ≤ 2 ^ 45 by norm_num])
  -- the product is exact
  have hP : fe.to_double (1000 * (fe.to_float (rb.interarrival_jitter : ℚ)).toRat)
      = 1000 * (fe.to_float (rb.interarrival_jitter : ℚ)).toRat := by
    apply round_to_nearest_double_exact fe hfe
    have hm := (fe.to_float (rb.interarrival_jitter : ℚ)).hm
    have he := (fe.to_float (rb.interarrival_jitter : ℚ)).he
    refine ⟨1000 * (fe.to_float (rb.interarrival_jitter : ℚ)).m,
      (fe.to_float (rb.interarrival_jitter : ℚ)).e, by omega, by omega, by omega, ?_⟩
    unfold CFloat.toRat
    push_cast
    ring
  have hdef : (read_report_sample fe clockrate session rb).int_jitter
      = fe.to_float (fe.to_double
          (1000 * (fe.to_float (rb.interarrival_jitter : ℚ)).toRat
            / (fe.to_float (clockrate : ℚ)).toRat)) := by
    show fe.to_float (fe.to_double
      (fe.to_double (1000 * (fe.to_float (rb.interarrival_jitter : ℚ)).toRat)
        / (fe.to_float (clockrate : ℚ)).toRat)) = _
    rw [hP]
  generalize (fe.to_float (rb.interarrival_jitter : ℚ)).toRat = J at hJ hdef ⊢
  generalize (fe.to_float (clockrate : ℚ)).toRat = C at hC hdef ⊢
  have hX0 : 0 ≤ 1000 * J / C := div_nonneg (by linarith) (by linarith)
  have hX1 : 1000 * J / C ≤ 2 ^ 43 := by
    rw [div_le_iff₀ (by linarith)]
    have : (0 : ℚ) ≤ 1000 * J := by linarith
    nlinarith [hJ.1, hJ.2]
  have hD := round_to_nearest_double_range fe hfe (1000 * J / C) hX0
    (by linarith [show (2 : ℚ) ^ 43 ≤ 2 ^ 45 by norm_num])
  have hDabs : |1000 * J / C| ≤ DBL_MAX := by
    rw [abs_of_nonneg hX0]
    linarith [show (2 : ℚ) ^ 43 ≤ 2 ^ 45 by norm_num]
  have hDF : fe.to_double (1000 * J / C) ≤ FLT_MAX := by
    linarith [hD.2, show (2 : ℚ) * 2 ^ 43 ≤ 2 ^ 45 by norm_num]
  have hR := round_to_nearest_float_range fe hfe (fe.to_double (1000 * J / C)) hD.1 hDF
  refine ⟨hdef, hJn, hCn, hC, ⟨hfe.double_is_double _ hDabs, hfe.double_nearest _ hDabs⟩,
    ?_, ?_⟩
  · rw [hdef]
    exact hfe.float_nearest _ (by rw [abs_of_nonneg hD.1]; exact hDF)
  · rw [hdef]
    exact hR.1

/-- Near a positive number `x` with `2 ^ lo ≤ x < 2 ^ hi` there is a number
`m * 2 ^ e` with a mantissa of `p + 1` bits, at a distance of at most
`x / 2 ^ p`. -/
theorem exists_near (p : Nat) (x : ℚ) (hx : 0 < x) (lo hi : Int)
    (hlo : (2 : ℚ) ^ lo ≤ x) (hhi : x < (2 : ℚ) ^ hi) :
    ∃ m e : Int, 0 ≤ m ∧ m < 2 ^ (p + 1) ∧ lo - p ≤ e ∧ e < hi - p
      ∧ |(m : ℚ) * (2 : ℚ) ^ e - x| ≤ x / 2 ^ p := by
  have h2 : ((2 : ℕ) : ℚ) = 2 := by norm_num
  have hk1 : (2 : ℚ) ^ (Int.log 2 x) ≤ x := by
    have := Int.zpow_log_le_self (b := 2) (by norm_num) hx
    rwa [h2] at this
  have hk2 : x < (2 : ℚ) ^ (Int.log 2 x + 1) := by
    have := Int.lt_zpow_succ_log_self (b := 2) (by norm_num) x
    rwa [h2] at this
  have hklo : lo ≤ Int.log 2 x := by
    apply (Int.zpow_le_iff_le_log (b := 2) (by norm_num) hx).mp
    rwa [h2]
  have hkhi : Int.log 2 x < hi := by
    apply (Int.lt_zpow_iff_log_lt (b := 2) (by norm_num) hx).mp
    rwa [h2]
  generalize Int.log 2 x = k at hk1 hk2 hklo hkhi
  have hS : (0 : ℚ) < (2 : ℚ) ^ (k - p) := by positivity
  have hSk : (2 : ℚ) ^ k = 2 ^ p * (2 : ℚ) ^ (k - (p : Int)) := by
    rw [← zpow_natCast, ← zpow_add₀ (by norm_num : (2 : ℚ) ≠ 0)]
    congr 1
    omega
  have hSk1 : (2 : ℚ) ^ (k + 1) = 2 ^ (p + 1) * (2 : ℚ) ^ (k - (p : Int)) := by
    rw [← zpow_natCast, ← zpow_add₀ (by norm_num : (2 : ℚ) ≠ 0)]
    congr 1
    push_cast
    omega
  have hfl := Int.floor_le (x / (2 : ℚ) ^ (k - (p : Int)))
  have hfl2 := Int.lt_floor_add_one (x / (2 : ℚ) ^ (k - (p : Int)))
  rw [le_div_iff₀ hS] at hfl
  rw [div_lt_iff₀ hS] at hfl2
  refine ⟨⌊x / (2 : ℚ) ^ (k - (p : Int))⌋, k - p, ?_, ?_, by omega, by omega, ?_⟩
  · exact Int.floor_nonneg.mpr (le_of_lt (div_pos hx hS))
  · rw [Int.floor_lt, div_lt_iff₀ hS]
    push_cast
    rw [← hSk1]
    exact hk2
  · rw [abs_of_nonpos (by linarith), le_div_iff₀ (by positivity)]
    have : (2 : ℚ) ^ (k - (p : Int)) * 2 ^ p ≤ x := by
      rw [mul_comm, ← hSk]
      exact hk1
    have hp1 : (1 : ℚ) ≤ 2 ^ p := one_le_pow₀ (by norm_num)
    have hd : 0 ≤ x - (⌊x / (2 : ℚ) ^ (k - (p : Int))⌋ : ℚ) * (2 : ℚ) ^ (k - (p : Int)) := by
      linarith
    calc -((⌊x / (2 : ℚ) ^ (k - (p : Int))⌋ : ℚ) * (2 : ℚ) ^ (k - (p : Int)) - x) * 2 ^ p
        ≤ (2 : ℚ) ^ (k - (p : Int)) * 2 ^ p := by
          apply mul_le_mul_of_nonneg_right _ (by positivity)
          linarith
      _ ≤ x := this

/-- A `float` nearest to a number `x` with `2 ^ (-126) ≤ x < 2 ^ 128` differs
from it by at most `x / 2 ^ 23`. -/
theorem nearest_float_error (t : CFloat) (x : ℚ) (ht : nearest_float t x)
    (hlo : (2 : ℚ) ^ (-126 : Int) ≤ x) (hhi : x < (2 : ℚ) ^ (128 : Int)) :
    |t.toRat - x| ≤ x / 2 ^ 23 := by
  have hx : 0 < x := lt_of_lt_of_le (by positivity) hlo
  obtain ⟨m, e, hm0, hm1, he0, he1, h⟩ := exists_near 23 x hx (-126) 128 hlo hhi
  have := ht ⟨m, e, by omega, by omega⟩
  exact le_trans this h

/-- A `double` nearest to a number `x` with `2 ^ (-1022) ≤ x < 2 ^ 1024` differs
from it by at most `x / 2 ^ 52`. -/
theorem nearest_double_error (d x : ℚ) (hd : nearest_double d x)
    (hlo : (2 : ℚ) ^ (-1022 : Int) ≤ x) (hhi : x < (2 : ℚ) ^ (1024 : Int)) :
    |d - x| ≤ x / 2 ^ 52 := by
  have hx : 0 < x := lt_of_lt_of_le (by positivity) hlo
  obtain ⟨m, e, hm0, hm1, he0, he1, h⟩ := exists_near 52 x hx (-1022) 1024 hlo hhi
  have := hd.2 _ ⟨m, e, by omega, by omega, by omega, rfl⟩
  exact le_trans this h

/-- The conversion of the jitter for a jitter `j` and a positive clock rate
`c` below `2 ^ 24`, with a unit that rounds to nearest: the conversions of `j`
and `c` to `float` are exact, the recorded jitter is the `float` nearest to the
`double` nearest to `1000 * j / c`, within `1000 * j / c / 2 ^ 22` of that
quotient, and equal to it when a `float` can hold it. -/
theorem int_jitter_small (fe : FloatEnv) (hfe : fe.round_to_nearest) (clockrate : Int)
    (session : RtpSession) (rb : report_block_t) (hc0 : 0 < clockrate)
    (hc : clockrate < 2 ^ 24) (hj : rb.interarrival_jitter < 2 ^ 24) :
    (fe.to_float (rb.interarrival_jitter : ℚ)).toRat = rb.interarrival_jitter
    ∧ (fe.to_float (clockrate : ℚ)).toRat = clockrate
    ∧ nearest_double (fe.to_double (1000 * (rb.interarrival_jitter : ℚ) / (clockrate : ℚ)))
        (1000 * (rb.interarrival_jitter : ℚ) / (clockrate : ℚ))
    ∧ nearest_float (read_report_sample fe clockrate session rb).int_jitter
        (fe.to_double (1000 * (rb.interarrival_jitter : ℚ) / (clockrate : ℚ)))
    ∧ |(read_report_sample fe clockrate session rb).int_jitter.toRat
          - 1000 * (rb.interarrival_jitter : ℚ) / (clockrate : ℚ)|
        ≤ 1000 * (rb.interarrival_jitter : ℚ) / (clockrate : ℚ) / 2 ^ 22
    ∧ ((∃ x : CFloat, x.toRat = 1000 * (rb.interarrival_jitter : ℚ) / (clockrate : ℚ)) →
        (read_report_sample fe clockrate session rb).int_jitter.toRat
          = 1000 * (rb.interarrival_jitter : ℚ) / (clockrate : ℚ)) := by
  have hxe := round_to_nearest_float_exact fe hfe
  have hde := round_to_nearest_double_exact fe hfe
  obtain ⟨_, _, _, _, h5, h6, _⟩ :=
    int_jitter_rounding fe hfe clockrate session rb hc0 (by omega) (by omega)
  have hJ := to_float_nat_exact_of fe hxe rb.interarrival_jitter hj
  have hC := to_float_int_exact_of fe hxe clockrate (by omega)
  rw [hJ, hC] at h5 h6
  have hexact : (∃ x : CFloat,
      x.toRat = 1000 * (rb.interarrival_jitter : ℚ) / (clockrate : ℚ)) →
      (read_report_sample fe clockrate session rb).int_jitter.toRat
        = 1000 * (rb.interarrival_jitter : ℚ) / (clockrate : ℚ) := by
    rintro ⟨x, hx⟩
    have hD : fe.to_double (1000 * (rb.interarrival_jitter : ℚ) / (clockrate : ℚ))
        = 1000 * (rb.interarrival_jitter : ℚ) / (clockrate : ℚ) := by
      apply hde
      rw [← hx]
      exact x.is_double
    have h := h6 x
    rw [hD, hx, sub_self, abs_zero] at h
    exact sub_eq_zero.mp (abs_eq_zero.mp (le_antisymm h (abs_nonneg _)))
  refine ⟨hJ, hC, h5, h6, ?_, hexact⟩
  rcases Nat.eq_zero_or_pos rb.interarrival_jitter with hz | hpos
  · have hq : 1000 * (rb.interarrival_jitter : ℚ) / (clockrate : ℚ) = 0 := by
      rw [hz]
      simp
    have := hexact ⟨CFloat.zero, by rw [hq]; simp [CFloat.zero, CFloat.toRat]⟩
    rw [this, hq]
    simp
  · have hcq0 : (0 : ℚ) < (clockrate : ℚ) := by exact_mod_cast hc0
    have hcq : (clockrate : ℚ) ≤ 2 ^ 24 := by exact_mod_cast le_of_lt hc
    have hjq1 : (1 : ℚ) ≤ (rb.interarrival_jitter : ℚ) := by exact_mod_cast hpos
    have hjq : (rb.interarrival_jitter : ℚ) ≤ 2 ^ 24 := by exact_mod_cast le_of_lt hj
    have hq0 : (2 : ℚ) ^ (-15 : Int)
        ≤ 1000 * (rb.interarrival_jitter : ℚ) / (clockrate : ℚ) := by
      rw [le_div_iff₀ hcq0]
      have : (2 : ℚ) ^ (-15 : Int) * (clockrate : ℚ) ≤ (2 : ℚ) ^ (-15 : Int) * 2 ^ 24 :=
        mul_le_mul_of_nonneg_left hcq (by positivity)
      have e : (2 : ℚ) ^ (-15 : Int) * 2 ^ 24 = 512 := by norm_num
      linarith
    have hq1 : 1000 * (rb.interarrival_jitter : ℚ) / (clockrate : ℚ) ≤ 2 ^ 34 := by
      rw [div_le_iff₀ hcq0]
      have : (2 : ℚ) ^ 34 * 1 ≤ 2 ^ 34 * (clockrate : ℚ) :=
        mul_le_mul_of_nonneg_left (by exact_mod_cast hc0) (by positivity)
      have e : (1000 : ℚ) * 2 ^ 24 ≤ 2 ^ 34 * 1 := by norm_num
      linarith
    generalize 1000 * (rb.interarrival_jitter : ℚ) / (clockrate : ℚ) = q at h5 h6 hq0 hq1 ⊢
    have hqpos : 0 < q := lt_of_lt_of_le (by positivity) hq0
    have hD := nearest_double_error _ q h5
      (le_trans (zpow_le_zpow_right₀ (by norm_num) (by norm_num)) hq0)
      (lt_of_le_of_lt hq1 (by norm_num))
    generalize fe.to_double q = D at h6 hD
    rw [abs_le] at hD
    have h52 : q / 2 ^ 52 ≤ q / 2 := by
      apply div_le_div_of_nonneg_left (le_of_lt hqpos) (by norm_num) (by norm_num)
    have hq0n : (1 : ℚ) / 32768 ≤ q := by
      have e : (2 : ℚ) ^ (-15 : Int) = 1 / 32768 := by norm_num
      rw [e] at hq0
      exact hq0
    have hDlo : (2 : ℚ) ^ (-126 : Int) ≤ D := by
      have e1 : (2 : ℚ) ^ (-126 : Int) ≤ (2 : ℚ) ^ (-16 : Int) :=
        zpow_le_zpow_right₀ (by norm_num) (by norm_num)
      have e2 : (2 : ℚ) ^ (-16 : Int) = 1 / 65536 := by norm_num
      rw [e2] at e1
      refine le_trans e1 ?_
      linarith [hD.1]
    have hDhi : D < (2 : ℚ) ^ (128 : Int) := by
      have e1 : (2 : ℚ) * 2 ^ 34 < (2 : ℚ) ^ (128 : Int) := by norm_num
      refine lt_of_le_of_lt ?_ e1
      linarith [hD.2]
    have hF := nearest_float_error _ D h6 hDlo hDhi
    generalize (read_report_sample fe clockrate session rb).int_jitter.toRat = t at hF ⊢
    rw [abs_le] at hF ⊢
    have e3 : D / 2 ^ 23 ≤ (q + q / 2 ^ 52) / 2 ^ 23 := by
      apply div_le_div_of_nonneg_right _ (by positivity)
      linarith [hD.2]
    have e4 : (q + q / 2 ^ 52) / 2 ^ 23 + q / 2 ^ 52 ≤ q / 2 ^ 22 := by
      have : (q + q / 2 ^ 52) / 2 ^ 23 + q / 2 ^ 52
          = q * ((1 + 1 / 2 ^ 52) / 2 ^ 23 + 1 / 2 ^ 52) := by ring
      rw [this, div_eq_mul_one_div q]
      apply mul_le_mul_of_nonneg_left _ (le_of_lt hqpos)
      norm_num
    constructor <;> linarith [hF.1, hF.2, hD.1, hD.2]

/-- The recorded jitter for a 32-bit jitter `j` and a positive clock rate `c`,
with a unit that rounds to nearest: the four roundings (of `j`, of `c`, of the
quotient to `double`, of the result to `float`) keep it within
`1000 * j / c / 2 ^ 21` of `1000 * j / c`. -/
theorem int_jitter_error (fe : FloatEnv) (hfe : fe.round_to_nearest) (clockrate : Int)
    (session : RtpSession) (rb : report_block_t) (hc0 : 0 < clockrate)
    (hc : clockrate < 2 ^ 31) (hj : rb.interarrival_jitter < 2 ^ 32) :
    |(read_report_sample fe clockrate session rb).int_jitter.toRat
        - 1000 * (rb.interarrival_jitter : ℚ) / (clockrate : ℚ)|
      ≤ 1000 * (rb.interarrival_jitter : ℚ) / (clockrate : ℚ) / 2 ^ 21 := by
  obtain ⟨hdef, hJn, hCn, hC1, hDn, hTn, _⟩ :=
    int_jitter_rounding fe hfe clockrate session rb hc0 hc hj
  have hcq0 : (0 : ℚ) < (clockrate : ℚ) := by exact_mod_cast hc0
  have hcq1 : (1 : ℚ) ≤ (clockrate : ℚ) := by exact_mod_cast hc0
  have hcq : (clockrate : ℚ) ≤ 2 ^ 31 := by exact_mod_cast le_of_lt hc
  have hjq : (rb.interarrival_jitter : ℚ) ≤ 2 ^ 32 := by exact_mod_cast le_of_lt hj
  rcases Nat.eq_zero_or_pos rb.interarrival_jitter with hz | hpos
  · -- no jitter: every number of the chain is 0
    have hJ0 : (fe.to_float (rb.interarrival_jitter : ℚ)).toRat = 0 := by
      have := round_to_nearest_float_exact fe hfe CFloat.zero
      rw [hz]
      simpa [CFloat.zero, CFloat.toRat] using this
    have hD0 : fe.to_double (0 : ℚ) = 0 :=
      round_to_nearest_double_exact fe hfe 0
        ⟨0, 0, by norm_num, by norm_num, by norm_num, by simp⟩
    have hT0 : (fe.to_float (0 : ℚ)).toRat = 0 := by
      have := round_to_nearest_float_exact fe hfe CFloat.zero
      simpa [CFloat.zero, CFloat.toRat] using this
    rw [hdef, hJ0, mul_zero, zero_div, hD0, hT0, hz]
    simp
  · have hjq1 : (1 : ℚ) ≤ (rb.interarrival_jitter : ℚ) := by exact_mod_cast hpos
    have hJe := nearest_float_error _ _ hJn
      (le_trans (by norm_num : (2 : ℚ) ^ (-126 : Int) ≤ 1) hjq1)
      (lt_of_le_of_lt hjq (by norm_num))
    have hCe := nearest_float_error _ _ hCn
      (le_trans (by norm_num : (2 : ℚ) ^ (-126 : Int) ≤ 1) hcq1)
      (lt_of_le_of_lt hcq (by norm_num))
    rw [hdef] at hTn ⊢
    generalize (fe.to_float (rb.interarrival_jitter : ℚ)).toRat = J at hJe hDn hTn ⊢
    generalize (fe.to_float (clockrate : ℚ)).toRat = C at hCe hC1 hDn hTn ⊢
    generalize (rb.interarrival_jitter : ℚ) = j at hjq hjq1 hJe ⊢
    generalize (clockrate : ℚ) = c at hcq0 hcq1 hcq hCe ⊢
    rw [abs_le] at hJe hCe
    have hj0 : (0 : ℚ) < j := by linarith
    have hq0 : 0 < 1000 * j / c := by positivity
    -- the quotient of the rounded numbers
    have hXu : 1000 * J / C ≤ 1000 * j / c * (8388609 / 8388607) := by
      have h1 : 1000 * J ≤ 1000 * j * (8388609 / 8388608) := by linarith [hJe.2]
      have h2 : c * (8388607 / 8388608) ≤ C := by linarith [hCe.1]
      have h3 : (0 : ℚ) < c * (8388607 / 8388608) := by positivity
      calc 1000 * J / C ≤ 1000 * j * (8388609 / 8388608) / (c * (8388607 / 8388608)) :=
            div_le_div₀ (by positivity) h1 h3 h2
        _ = 1000 * j / c * (8388609 / 8388607) := by
            field_simp
    have hXl : 1000 * j / c * (8388607 / 8388609) ≤ 1000 * J / C := by
      have h1 : 1000 * j * (8388607 / 8388608) ≤ 1000 * J := by linarith [hJe.1]
      have h2 : C ≤ c * (8388609 / 8388608) := by linarith [hCe.2]
      have h3 : (0 : ℚ) < C := by linarith
      calc 1000 * j / c * (8388607 / 8388609)
          = 1000 * j * (8388607 / 8388608) / (c * (8388609 / 8388608)) := by
            field_simp
        _ ≤ 1000 * J / C := div_le_div₀ (by linarith) h1 h3 h2
    have hqlo : (1000 : ℚ) / 2 ^ 31 ≤ 1000 * j / c := by
      rw [div_le_div_iff₀ (by positivity) hcq0]
      nlinarith
    have hqhi : 1000 * j / c ≤ 1000 * 2 ^ 32 := by
      rw [div_le_iff₀ hcq0]
      nlinarith
    generalize 1000 * j / c = q at hXu hXl hq0 hqlo hqhi ⊢
    generalize 1000 * J / C = X at hXu hXl hDn hTn
    have hX0 : (1 : ℚ) / 2 ^ 22 ≤ X := by
      have : (1 : ℚ) / 2 ^ 22 ≤ 1000 / 2 ^ 31 * (8388607 / 8388609) := by norm_num
      have h2 : (1000 : ℚ) / 2 ^ 31 * (8388607 / 8388609) ≤ q * (8388607 / 8388609) :=
        mul_le_mul_of_nonneg_right hqlo (by norm_num)
      linarith
    have hX1 : X ≤ 2 ^ 43 := by
      have h2 : q * (8388609 / 8388607) ≤ 1000 * 2 ^ 32 * (8388609 / 8388607) :=
        mul_le_mul_of_nonneg_right hqhi (by norm_num)
      have : (1000 : ℚ) * 2 ^ 32 * (8388609 / 8388607) ≤ 2 ^ 43 := by norm_num
      linarith
    have hDe := nearest_double_error _ X hDn
      (le_trans (by norm_num : (2 : ℚ) ^ (-1022 : Int) ≤ 1 / 2 ^ 22) hX0)
      (lt_of_le_of_lt hX1 (by norm_num))
    generalize fe.to_double X = D at hTn hDe
    rw [abs_le] at hDe
    have hXpos : 0 < X := lt_of_lt_of_le (by norm_num) hX0
    have h52 : X / 2 ^ 52 ≤ X / 2 :=
      div_le_div_of_nonneg_left (le_of_lt hXpos) (by norm_num) (by norm_num)
    have hDlo : (2 : ℚ) ^ (-126 : Int) ≤ D := by
      refine le_trans (by norm_num : (2 : ℚ) ^ (-126 : Int) ≤ 1 / 2 ^ 23) ?_
      linarith [hDe.1]
    have hDhi : D < (2 : ℚ) ^ (128 : Int) := by
      refine lt_of_le_of_lt ?_ (by norm_num : (2 : ℚ) * 2 ^ 43 < (2 : ℚ) ^ (128 : Int))
      linarith [hDe.2]
    have hTe := nearest_float_error _ D hTn hDlo hDhi
    generalize (fe.to_float D).toRat = t at hTe ⊢
    rw [abs_le] at hTe ⊢
    -- `t` lies between `D * (1 - 2 ^ (-23))` and `D * (1 + 2 ^ (-23))`, and so on
    have hDu : D ≤ X * (1 + 1 / 2 ^ 52) := by linarith [hDe.2]
    have hDl : X * (1 - 1 / 2 ^ 52) ≤ D := by linarith [hDe.1]
    have hTu : t ≤ D * (1 + 1 / 2 ^ 23) := by linarith [hTe.2]
    have hTl : D * (1 - 1 / 2 ^ 23) ≤ t := by linarith [hTe.1]
    have hu : t ≤ q * (8388609 / 8388607 * (1 + 1 / 2 ^ 52) * (1 + 1 / 2 ^ 23)) := by
      calc t ≤ D * (1 + 1 / 2 ^ 23) := hTu
        _ ≤ X * (1 + 1 / 2 ^ 52) * (1 + 1 / 2 ^ 23) :=
            mul_le_mul_of_nonneg_right hDu (by norm_num)
        _ ≤ q * (8388609 / 8388607) * (1 + 1 / 2 ^ 52) * (1 + 1 / 2 ^ 23) :=
            mul_le_mul_of_nonneg_right (mul_le_mul_of_nonneg_right hXu (by norm_num))
              (by norm_num)
        _ = q * (8388609 / 8388607 * (1 + 1 / 2 ^ 52) * (1 + 1 / 2 ^ 23)) := by ring
    have hl : q * (8388607 / 8388609 * (1 - 1 / 2 ^ 52) * (1 - 1 / 2 ^ 23)) ≤ t := by
      calc q * (8388607 / 8388609 * (1 - 1 / 2 ^ 52) * (1 - 1 / 2 ^ 23))
          = q * (8388607 / 8388609) * (1 - 1 / 2 ^ 52) * (1 - 1 / 2 ^ 23) := by ring
        _ ≤ X * (1 - 1 / 2 ^ 52) * (1 - 1 / 2 ^ 23) :=
            mul_le_mul_of_nonneg_right (mul_le_mul_of_nonneg_right hXl (by norm_num))
              (by norm_num)
        _ ≤ D * (1 - 1 / 2 ^ 23) := mul_le_mul_of_nonneg_right hDl (by norm_num)
        _ ≤ t := hTl
    have ku : q * (8388609 / 8388607 * (1 + 1 / 2 ^ 52) * (1 + 1 / 2 ^ 23))
        ≤ q * (1 + 1 / 2 ^ 21) :=
      mul_le_mul_of_nonneg_left (by norm_num) (le_of_lt hq0)
    have kl : q * (1 - 1 / 2 ^ 21)
        ≤ q * (8388607 / 8388609 * (1 - 1 / 2 ^ 52) * (1 - 1 / 2 ^ 23)) :=
      mul_le_mul_of_nonneg_left (by norm_num) (le_of_lt hq0)
    constructor
    · have : q * (1 - 1 / 2 ^ 21) = q - q / 2 ^ 21 := by ring
      linarith
    · have : q * (1 + 1 / 2 ^ 21) = q + q / 2 ^ 21 := by ring
      linarith

/-- The recorded jitter is exactly `1000 * j / c` when `j`, `c` and the
quotient are numbers a `float` can hold. -/
theorem int_jitter_exact (fe : FloatEnv) (hfe : fe.round_to_nearest) (clockrate : Int)
    (session : RtpSession) (rb : report_block_t) (hc0 : 0 < clockrate)
    (hc : clockrate < 2 ^ 31) (hj : rb.interarrival_jitter < 2 ^ 32)
    (hxj : ∃ x : CFloat, x.toRat = (rb.interarrival_jitter : ℚ))
    (hxc : ∃ x : CFloat, x.toRat = (clockrate : ℚ))
    (hxq : ∃ x : CFloat, x.toRat = 1000 * (rb.interarrival_jitter : ℚ) / (clockrate : ℚ)) :
    (read_report_sample fe clockrate session rb).int_jitter.toRat
      = 1000 * (rb.interarrival_jitter : ℚ) / (clockrate : ℚ) := by
  obtain ⟨hdef, _⟩ := int_jitter_rounding fe hfe clockrate session rb hc0 hc hj
  obtain ⟨xj, hxj⟩ := hxj
  obtain ⟨xc, hxc⟩ := hxc
  obtain ⟨xq, hxq⟩ := hxq
  have h1 := round_to_nearest_float_exact fe hfe xj
  have h2 := round_to_nearest_float_exact fe hfe xc
  have h3 := round_to_nearest_double_exact fe hfe _ xq.is_double
  have h4 := round_to_nearest_float_exact fe hfe xq
  rw [hxj] at h1
  rw [hxc] at h2
  rw [hxq] at h3 h4
  rw [hdef, h1, h2, h3, h4]

/-- C15 (amended): with a floating point unit that rounds to nearest, as
IEEE-754 arithmetic does.  For every fraction lost `f` from 0 to 256 the
recorded loss is exactly `100 * f / 256`, lies in [0, 100], and 0, 128, 256
give 0, 50, 100.  For every 32-bit jitter `j` and positive clock rate `c` the
recorded jitter is not negative and is the rounded quotient
`1000 * (float)j / (float)c`: a `float` nearest to the `double` nearest to
that quotient, where `(float)j` and `(float)c` are nearest to `j` and `c`; it
differs from `1000 * j / c` by at most `1000 * j / c / 2 ^ 21`, and it is
exactly `1000 * j / c` when `j`, `c` and `1000 * j / c` are numbers a `float`
can hold.  For `j` and `c` below `2 ^ 24` the conversions of `j` and `c` are
exact, so the recorded jitter is a `float` nearest to the `double` nearest to
`1000 * j / c`; it differs from `1000 * j / c` by at most
`1000 * j / c / 2 ^ 22`, and it is exactly `1000 * j / c` when that number is
one a `float` can hold. -/
theorem sample_conversion (fe : FloatEnv) (hfe : fe.round_to_nearest) (clockrate : Int)
    (session : RtpSession) (rb : report_block_t) :
    (rb.fraction_lost ≤ 256 →
      (read_report_sample fe clockrate session rb).lost_percentage.toRat
        = 100 * (rb.fraction_lost : ℚ) / 256
      ∧ 0 ≤ (read_report_sample fe clockrate session rb).lost_percentage.toRat
      ∧ (read_report_sample fe clockrate session rb).lost_percentage.toRat ≤ 100
      ∧ (rb.fraction_lost = 0 →
          (read_report_sample fe clockrate session rb).lost_percentage.toRat = 0)
      ∧ (rb.fraction_lost = 128 →
          (read_report_sample fe clockrate session rb).lost_percentage.toRat = 50)
      ∧ (rb.fraction_lost = 256 →
          (read_report_sample fe clockrate session rb).lost_percentage.toRat = 100))
    ∧ (0 < clockrate → clockrate < 2 ^ 31 → rb.interarrival_jitter < 2 ^ 32 →
      0 ≤ (read_report_sample fe clockrate session rb).int_jitter.toRat
      ∧ nearest_float (fe.to_float (rb.interarrival_jitter : ℚ)) (rb.interarrival_jitter : ℚ)
      ∧ nearest_float (fe.to_float (clockrate : ℚ)) (clockrate : ℚ)
      ∧ nearest_double
          (fe.to_double (1000 * (fe.to_float (rb.interarrival_jitter : ℚ)).toRat
            / (fe.to_float (clockrate : ℚ)).toRat))
          (1000 * (fe.to_float (rb.interarrival_jitter : ℚ)).toRat
            / (fe.to_float (clockrate : ℚ)).toRat)
      ∧ nearest_float (read_report_sample fe clockrate session rb).int_jitter
          (fe.to_double (1000 * (fe.to_float (rb.interarrival_jitter : ℚ)).toRat
            / (fe.to_float (clockrate : ℚ)).toRat))
      ∧ |(read_report_sample fe clockrate session rb).int_jitter.toRat
            - 1000 * (rb.interarrival_jitter : ℚ) / (clockrate : ℚ)|
          ≤ 1000 * (rb.interarrival_jitter : ℚ) / (clockrate : ℚ) / 2 ^ 21
      ∧ ((∃ x : CFloat, x.toRat = (rb.interarrival_jitter : ℚ)) →
          (∃ x : CFloat, x.toRat = (clockrate : ℚ)) →
          (∃ x : CFloat, x.toRat = 1000 * (rb.interarrival_jitter : ℚ) / (clockrate : ℚ)) →
          (read_report_sample fe clockrate session rb).int_jitter.toRat
            = 1000 * (rb.interarrival_jitter : ℚ) / (clockrate : ℚ)))
    ∧ (0 < clockrate → clockrate < 2 ^ 24 → rb.interarrival_jitter < 2 ^ 24 →
      (fe.to_float (rb.interarrival_jitter : ℚ)).toRat = rb.interarrival_jitter
      ∧ (fe.to_float (clockrate : ℚ)).toRat = clockrate
      ∧ nearest_double (fe.to_double (1000 * (rb.interarrival_jitter : ℚ) / (clockrate : ℚ)))
          (1000 * (rb.interarrival_jitter : ℚ) / (clockrate : ℚ))
      ∧ nearest_float (read_report_sample fe clockrate session rb).int_jitter
          (fe.to_double (1000 * (rb.interarrival_jitter : ℚ) / (clockrate : ℚ)))
      ∧ |(read_report_sample fe clockrate session rb).int_jitter.toRat
            - 1000 * (rb.interarrival_jitter : ℚ) / (clockrate : ℚ)|
          ≤ 1000 * (rb.interarrival_jitter : ℚ) / (clockrate : ℚ) / 2 ^ 22
      ∧ ((∃ x : CFloat, x.toRat = 1000 * (rb.interarrival_jitter : ℚ) / (clockrate : ℚ)) →
          (read_report_sample fe clockrate session rb).int_jitter.toRat
            = 1000 * (rb.interarrival_jitter : ℚ) / (clockrate : ℚ))) := by
  have hxe := round_to_nearest_float_exact fe hfe
  have hde := round_to_nearest_double_exact fe hfe
  refine ⟨?_, ?_, ?_⟩
  · intro hf
    have he := lost_percentage_exact_of fe hxe hde clockrate session rb hf
    have hf2 : (rb.fraction_lost : ℚ) ≤ 256 := by exact_mod_cast hf
    have hf0 : (0 : ℚ) ≤ (rb.fraction_lost : ℚ) := Nat.cast_nonneg _
    rw [he]
    refine ⟨rfl, by positivity, ?_, ?_, ?_, ?_⟩
    · linarith
    · intro h
      rw [h]
      norm_num
    · intro h
      rw [h]
      norm_num
    · intro h
      rw [h]
      norm_num
  · intro hc0 hc hj
    obtain ⟨_, h2, h3, _, h5, h6, h7⟩ :=
      int_jitter_rounding fe hfe clockrate session rb hc0 hc hj
    exact ⟨h7, h2, h3, h5, h6, int_jitter_error fe hfe clockrate session rb hc0 hc hj,
      int_jitter_exact fe hfe clockrate session rb hc0 hc hj⟩
  · intro hc0 hc hj
    exact int_jitter_small fe hfe clockrate session rb hc0 hc hj

/-- Witness of C15: with the environment that rounds to nearest, ties to
even, a fraction lost of 128 is recorded as 50 %; a jitter of one tick at
8000 Hz is recorded as 0.125 ms exactly; a jitter of 1921 ticks at 48000 Hz
(40.0208... ms) is recorded as `10491221 * 2 ^ (-18)`, within the error
bound. -/
theorem sample_conversion_witness :
    (read_report_sample ieee_float_env 8000 ⟨some ⟨8000⟩, CFloat.zero⟩
        ⟨0, 128, 1⟩).lost_percentage.toRat = 50
    ∧ (read_report_sample ieee_float_env 8000 ⟨some ⟨8000⟩, CFloat.zero⟩
        ⟨0, 128, 1⟩).int_jitter.toRat = 1 / 8
    ∧ (read_report_sample ieee_float_env 48000 ⟨some ⟨48000⟩, CFloat.zero⟩
        ⟨0, 0, 1921⟩).int_jitter = ⟨10491221, -18, by decide, by decide⟩
    ∧ |(read_report_sample ieee_float_env 48000 ⟨some ⟨48000⟩, CFloat.zero⟩
          ⟨0, 0, 1921⟩).int_jitter.toRat - 1000 * ((1921 : Nat) : ℚ) / ((48000 : Int) : ℚ)|
        ≤ 1000 * ((1921 : Nat) : ℚ) / ((48000 : Int) : ℚ) / 2 ^ 22 := by
  have h := sample_conversion ieee_float_env ieee_float_env_round_to_nearest 8000
    ⟨some ⟨8000⟩, CFloat.zero⟩ ⟨0, 128, 1⟩
  have h2 := sample_conversion ieee_float_env ieee_float_env_round_to_nearest 48000
    ⟨some ⟨48000⟩, CFloat.zero⟩ ⟨0, 0, 1921⟩
  refine ⟨(h.1 (by decide)).2.2.2.2.1 rfl, ?_, by decide!,
    (h2.2.2 (by decide) (by decide) (by decide)).2.2.2.2.1⟩
  have hj := (h.2.2 (by decide) (by decide) (by decide)).2.2.2.2.2
    ⟨⟨1, -3, by decide, by decide⟩, by norm_num [CFloat.toRat]⟩
  rw [hj]
  norm_num

/-- C15 as stated fails: with a jitter of one tick and a clock rate of
48000 Hz, `1000 * j / c = 1 / 48` is not a binary fraction, so the recorded
`float` differs from it whatever the rounding is. -/
theorem sample_conversion_counterexample :
    (0 : Int) < 48000
    ∧ ∀ fe : FloatEnv,
        (read_report_sample fe 48000 ⟨some ⟨48000⟩, CFloat.zero⟩ ⟨0, 0, 1⟩).int_jitter.toRat
          ≠ 1000 * ((1 : Nat) : ℚ) / ((48000 : Int) : ℚ) := by
  refine ⟨by decide, ?_⟩
  intro fe
  have h : 1000 * ((1 : Nat) : ℚ) / ((48000 : Int) : ℚ) = 1 / 48 := by norm_num
  rw [h]
  exact CFloat.toRat_ne_one_div_48 _

/-- C14: reading a report while the clock rate is unresolved (`clockrate = 0`).
If the payload type lookup fails, no history slot changes and `clockrate`
stays 0, yet `curindex` is advanced by exactly 1.  If the lookup succeeds,
`clockrate` becomes the clock rate of the payload type, `curindex` is advanced
by 1 and the sample of the report is written to the slot at the new `curindex`
modulo 3, the other slots being unchanged: the slot holds the sequence number
of the report block, the round trip time of the session, the loss
`100.0 * (float)fraction_lost / 256.0` (exactly `100 * fraction_lost / 256`
with a unit that rounds to nearest) and, when the clock rate found is not 0,
the jitter `1000.0 * (float)jitter / (float)clock_rate` (with a unit that
rounds to nearest, a 32-bit jitter and a positive clock rate, within
`1000 * jitter / clock_rate / 2 ^ 21` of `1000 * jitter / clock_rate`). -/
theorem read_report_unresolved (fe : FloatEnv) (obj : MSAudioBitrateController)
    (session : RtpSession) (rb : report_block_t) (hclock : obj.clockrate = 0) :
    (session.send_payload = none →
      read_report fe obj session rb = { obj with curindex := obj.curindex + 1 }
      ∧ (read_report fe obj session rb).stats = obj.stats
      ∧ (read_report fe obj session rb).clockrate = 0
      ∧ (read_report fe obj session rb).curindex = obj.curindex + 1)
    ∧ (∀ pt : PayloadType, session.send_payload = some pt →
      (read_report fe obj session rb).clockrate = pt.clock_rate
      ∧ (read_report fe obj session rb).curindex = obj.curindex + 1
      ∧ stats_at (read_report fe obj session rb) (read_report fe obj session rb).curindex
          = (read_report fe obj session rb).stats
              ⟨(obj.curindex + 1) % STATS_HISTORY, Nat.mod_lt _ (by decide)⟩
      ∧ ((read_report fe obj session rb).stats
            ⟨(obj.curindex + 1) % STATS_HISTORY, Nat.mod_lt _ (by decide)⟩).high_seq_recv
          = rb.high_ext_seq
      ∧ ((read_report fe obj session rb).stats
            ⟨(obj.curindex + 1) % STATS_HISTORY, Nat.mod_lt _ (by decide)⟩).rt_prop
          = session.round_trip_propagation
      ∧ ((read_report fe obj session rb).stats
            ⟨(obj.curindex + 1) % STATS_HISTORY, Nat.mod_lt _ (by decide)⟩).lost_percentage
          = fe.to_float (fe.to_double
              (fe.to_double (100 * (fe.to_float (rb.fraction_lost : ℚ)).toRat) / 256))
      ∧ (fe.round_to_nearest → rb.fraction_lost ≤ 256 →
          ((read_report fe obj session rb).stats
            ⟨(obj.curindex + 1) % STATS_HISTORY, Nat.mod_lt _ (by decide)⟩).lost_percentage.toRat
            = 100 * (rb.fraction_lost : ℚ) / 256)
      ∧ (pt.clock_rate ≠ 0 → (fe.to_float (pt.clock_rate : ℚ)).toRat ≠ 0 →
          ((read_report fe obj session rb).stats
            ⟨(obj.curindex + 1) % STATS_HISTORY, Nat.mod_lt _ (by decide)⟩).int_jitter
            = fe.to_float (fe.to_double
                (fe.to_double (1000 * (fe.to_float (rb.interarrival_jitter : ℚ)).toRat)
                  / (fe.to_float (pt.clock_rate : ℚ)).toRat)))
      ∧ (fe.round_to_nearest → 0 < pt.clock_rate → pt.clock_rate < 2 ^ 31 →
          rb.interarrival_jitter < 2 ^ 32 →
          (fe.to_float (pt.clock_rate : ℚ)).toRat ≠ 0
          ∧ |((read_report fe obj session rb).stats
                ⟨(obj.curindex + 1) % STATS_HISTORY,
                  Nat.mod_lt _ (by decide)⟩).int_jitter.toRat
              - 1000 * (rb.interarrival_jitter : ℚ) / (pt.clock_rate : ℚ)|
            ≤ 1000 * (rb.interarrival_jitter : ℚ) / (pt.clock_rate : ℚ) / 2 ^ 21)
      ∧ ∀ i : Fin STATS_HISTORY, i.val ≠ (obj.curindex + 1) % STATS_HISTORY →
          (read_report fe obj session rb).stats i = obj.stats i) := by
  have hs := read_report_stats fe obj session rb
  constructor
  · intro hp
    rw [hs.1 hclock hp]
    exact ⟨rfl, rfl, hclock, rfl⟩
  · intro pt hp
    rw [hs.2.1 pt hclock hp]
    have hw : (Function.update obj.stats
        ⟨(obj.curindex + 1) % STATS_HISTORY, Nat.mod_lt _ (by decide)⟩
        (read_report_sample fe pt.clock_rate session rb))
        ⟨(obj.curindex + 1) % STATS_HISTORY, Nat.mod_lt _ (by decide)⟩
        = read_report_sample fe pt.clock_rate session rb := Function.update_same _ _ _
    refine ⟨rfl, rfl, rfl, ?_, ?_, ?_, ?_, ?_, ?_, ?_⟩
    · simp only [hw]
      rfl
    · simp only [hw]
      rfl
    · simp only [hw]
      rfl
    · intro hfe hf
      simp only [hw]
      exact lost_percentage_exact_of fe (round_to_nearest_float_exact fe hfe)
        (round_to_nearest_double_exact fe hfe) pt.clock_rate session rb hf
    · intro _ _
      simp only [hw]
      rfl
    · intro hfe hc0 hc hj
      simp only [hw]
      have h := int_jitter_rounding fe hfe pt.clock_rate session rb hc0 hc hj
      exact ⟨ne_of_gt (lt_of_lt_of_le one_pos h.2.2.2.1),
        int_jitter_error fe hfe pt.clock_rate session rb hc0 hc hj⟩
    · intro i hi
      simp only
      rw [Function.update_noteq]
      intro h
      exact hi (congrArg Fin.val h)

/-- Witness of C14: a fresh controller reads a report while the session knows
no payload type: the index moves to 1 and no slot changes.  It reads the
report {sequence number 7, fraction lost 64, jitter 320} with an 8000 Hz
payload type: the clock rate becomes 8000 and slot 1 holds the sequence number
7, a loss of 25 % and a jitter of 40 ms. -/
theorem read_report_unresolved_witness :
    (read_report ieee_float_env (ms_audio_bitrate_controller_new encoder_ok).1
        ⟨none, CFloat.zero⟩ ⟨7, 64, 320⟩).curindex = 1
    ∧ (read_report ieee_float_env (ms_audio_bitrate_controller_new encoder_ok).1
        ⟨none, CFloat.zero⟩ ⟨7, 64, 320⟩).stats
      = (ms_audio_bitrate_controller_new encoder_ok).1.stats
    ∧ (read_report ieee_float_env (ms_audio_bitrate_controller_new encoder_ok).1
        ⟨some ⟨8000⟩, CFloat.zero⟩ ⟨7, 64, 320⟩).clockrate = 8000
    ∧ ((read_report ieee_float_env (ms_audio_bitrate_controller_new encoder_ok).1
        ⟨some ⟨8000⟩, CFloat.zero⟩ ⟨7, 64, 320⟩).stats ⟨1, by decide⟩).high_seq_recv = 7
    ∧ ((read_report ieee_float_env (ms_audio_bitrate_controller_new encoder_ok).1
        ⟨some ⟨8000⟩, CFloat.zero⟩ ⟨7, 64, 320⟩).stats ⟨1, by decide⟩).lost_percentage.toRat
        = 100 * ((64 : Nat) : ℚ) / 256
    ∧ ((read_report ieee_float_env (ms_audio_bitrate_controller_new encoder_ok).1
        ⟨some ⟨8000⟩, CFloat.zero⟩ ⟨7, 64, 320⟩).stats ⟨1, by decide⟩).int_jitter.toRat
        = 40 :=
  ⟨((read_report_unresolved ieee_float_env (ms_audio_bitrate_controller_new encoder_ok).1
      ⟨none, CFloat.zero⟩ ⟨7, 64, 320⟩ rfl).1 rfl).2.2.2,
   ((read_report_unresolved ieee_float_env (ms_audio_bitrate_controller_new encoder_ok).1
      ⟨none, CFloat.zero⟩ ⟨7, 64, 320⟩ rfl).1 rfl).2.1,
   ((read_report_unresolved ieee_float_env (ms_audio_bitrate_controller_new encoder_ok).1
      ⟨some ⟨8000⟩, CFloat.zero⟩ ⟨7, 64, 320⟩ rfl).2 ⟨8000⟩ rfl).1,
   ((read_report_unresolved ieee_float_env (ms_audio_bitrate_controller_new encoder_ok).1
      ⟨some ⟨8000⟩, CFloat.zero⟩ ⟨7, 64, 320⟩ rfl).2 ⟨8000⟩ rfl).2.2.2.1,
   ((read_report_unresolved ieee_float_env (ms_audio_bitrate_controller_new encoder_ok).1
      ⟨some ⟨8000⟩, CFloat.zero⟩ ⟨7, 64, 320⟩ rfl).2 ⟨8000⟩ rfl).2.2.2.2.2.2.1
      ieee_float_env_round_to_nearest (by decide),
   by decide!⟩

/-- C13: a fresh controller processes `N ≥ 1` reports, the first of which
resolves the clock rate (the lookup finds a payload type with a clock rate
other than 0).  Then `curindex = N`, the clock rate is the resolved one, and
for `k = 0, 1, 2` (as far as `k < N`) the slot `(curindex - k) mod 3` holds the
sample of the report number `N - k`, whatever `N mod 3` is: the sequence
number of its report block, the round trip time of its session, its loss
`100.0 * (float)fraction_lost / 256.0` (exactly `100 * fraction_lost / 256`
with a unit that rounds to nearest) and its jitter
`1000.0 * (float)jitter / (float)clock_rate` (with a unit that rounds to
nearest, a 32-bit jitter and a positive clock rate, within
`1000 * jitter / clock_rate / 2 ^ 21` of `1000 * jitter / clock_rate`).  These slots are the ones `analyse_quality`
and `has_improved` read as `cur`, `prev` and `prev2`. -/
theorem history_ring (fe : FloatEnv) (encoder : MSFilter) (r : Report) (rs : List Report)
    (pt : PayloadType) (hfirst : r.session.send_payload = some pt)
    (hclock : pt.clock_rate ≠ 0) :
    (process_all fe (ms_audio_bitrate_controller_new encoder)
        ((r :: rs).map Report.toEvent)).1.curindex = (r :: rs).length
    ∧ (process_all fe (ms_audio_bitrate_controller_new encoder)
        ((r :: rs).map Report.toEvent)).1.clockrate = pt.clock_rate
    ∧ (∀ k : Nat, k < 3 → k < (r :: rs).length →
        ((r :: rs).map (Report.sample fe pt.clock_rate)).reverse[k]?
          = some (slot_back (process_all fe (ms_audio_bitrate_controller_new encoder)
              ((r :: rs).map Report.toEvent)).1 k))
    ∧ (∀ (k : Nat) (rep : Report), k < 3 → (r :: rs).reverse[k]? = some rep →
        (slot_back (process_all fe (ms_audio_bitrate_controller_new encoder)
            ((r :: rs).map Report.toEvent)).1 k).high_seq_recv = rep.rb.high_ext_seq
        ∧ (slot_back (process_all fe (ms_audio_bitrate_controller_new encoder)
            ((r :: rs).map Report.toEvent)).1 k).rt_prop
          = rep.session.round_trip_propagation
        ∧ (slot_back (process_all fe (ms_audio_bitrate_controller_new encoder)
            ((r :: rs).map Report.toEvent)).1 k).lost_percentage
          = fe.to_float (fe.to_double
              (fe.to_double (100 * (fe.to_float (rep.rb.fraction_lost : ℚ)).toRat) / 256))
        ∧ ((fe.to_float (pt.clock_rate : ℚ)).toRat ≠ 0 →
            (slot_back (process_all fe (ms_audio_bitrate_controller_new encoder)
              ((r :: rs).map Report.toEvent)).1 k).int_jitter
            = fe.to_float (fe.to_double
                (fe.to_double (1000 * (fe.to_float (rep.rb.interarrival_jitter : ℚ)).toRat)
                  / (fe.to_float (pt.clock_rate : ℚ)).toRat)))
        ∧ (fe.round_to_nearest → rep.rb.fraction_lost ≤ 256 →
            (slot_back (process_all fe (ms_audio_bitrate_controller_new encoder)
              ((r :: rs).map Report.toEvent)).1 k).lost_percentage.toRat
            = 100 * (rep.rb.fraction_lost : ℚ) / 256)
        ∧ (fe.round_to_nearest → 0 < pt.clock_rate → pt.clock_rate < 2 ^ 31 →
            rep.rb.interarrival_jitter < 2 ^ 32 →
            (fe.to_float (pt.clock_rate : ℚ)).toRat ≠ 0
            ∧ |(slot_back (process_all fe (ms_audio_bitrate_controller_new encoder)
                  ((r :: rs).map Report.toEvent)).1 k).int_jitter.toRat
                - 1000 * (rep.rb.interarrival_jitter : ℚ) / (pt.clock_rate : ℚ)|
              ≤ 1000 * (rep.rb.interarrival_jitter : ℚ) / (pt.clock_rate : ℚ) / 2 ^ 21))
    ∧ stats_at (process_all fe (ms_audio_bitrate_controller_new encoder)
          ((r :: rs).map Report.toEvent)).1
        (process_all fe (ms_audio_bitrate_controller_new encoder)
          ((r :: rs).map Report.toEvent)).1.curindex
      = slot_back (process_all fe (ms_audio_bitrate_controller_new encoder)
          ((r :: rs).map Report.toEvent)).1 0
    ∧ stats_at (process_all fe (ms_audio_bitrate_controller_new encoder)
          ((r :: rs).map Report.toEvent)).1
        (STATS_HISTORY + (process_all fe (ms_audio_bitrate_controller_new encoder)
          ((r :: rs).map Report.toEvent)).1.curindex - 1)
      = slot_back (process_all fe (ms_audio_bitrate_controller_new encoder)
          ((r :: rs).map Report.toEvent)).1 1
    ∧ stats_at (process_all fe (ms_audio_bitrate_controller_new encoder)
          ((r :: rs).map Report.toEvent)).1
        (STATS_HISTORY + (process_all fe (ms_audio_bitrate_controller_new encoder)
          ((r :: rs).map Report.toEvent)).1.curindex - 2)
      = slot_back (process_all fe (ms_audio_bitrate_controller_new encoder)
          ((r :: rs).map Report.toEvent)).1 2 := by
  obtain ⟨h1, h2, h3, h4, h5, h6⟩ := history_ring_samples fe encoder r rs pt hfirst hclock
  refine ⟨h1, h2, h3, ?_, h4, h5, h6⟩
  intro k rep hk hrep
  have hkN : k < (r :: rs).length := by
    have := (List.getElem?_eq_some.mp hrep).1
    simpa using this
  have hs := h3 k hk hkN
  rw [← List.map_reverse, List.getElem?_map, hrep] at hs
  simp only [Option.map_some', Option.some.injEq] at hs
  rw [← hs]
  refine ⟨rfl, rfl, rfl, fun _ => rfl, ?_, ?_⟩
  · intro hfe hf
    exact lost_percentage_exact_of fe (round_to_nearest_float_exact fe hfe)
      (round_to_nearest_double_exact fe hfe) pt.clock_rate rep.session rep.rb hf
  · intro hfe hc0 hc hj
    have h := int_jitter_rounding fe hfe pt.clock_rate rep.session rep.rb hc0 hc hj
    exact ⟨ne_of_gt (lt_of_lt_of_le one_pos h.2.2.2.1),
      int_jitter_error fe hfe pt.clock_rate rep.session rep.rb hc0 hc hj⟩

/-- Witness of C13: after the four reports of `four_reports` (sequence numbers
1 to 4), with rounding to nearest, `curindex` is 4; the latest slot holds the
sequence number 4, the slot one place back the sequence number 3 and a loss of
50 %, the slot two places back the sequence number 2. -/
theorem history_ring_witness :
    (process_all ieee_float_env (ms_audio_bitrate_controller_new encoder_ok)
        (four_reports.map Report.toEvent)).1.curindex = 4
    ∧ (slot_back (process_all ieee_float_env (ms_audio_bitrate_controller_new encoder_ok)
        (four_reports.map Report.toEvent)).1 0).high_seq_recv = 4
    ∧ (slot_back (process_all ieee_float_env (ms_audio_bitrate_controller_new encoder_ok)
        (four_reports.map Report.toEvent)).1 1).high_seq_recv = 3
    ∧ (slot_back (process_all ieee_float_env (ms_audio_bitrate_controller_new encoder_ok)
        (four_reports.map Report.toEvent)).1 1).lost_percentage.toRat
      = 100 * ((128 : Nat) : ℚ) / 256
    ∧ (slot_back (process_all ieee_float_env (ms_audio_bitrate_controller_new encoder_ok)
        (four_reports.map Report.toEvent)).1 2).high_seq_recv = 2 :=
  ⟨(history_ring ieee_float_env encoder_ok (report_8000 1 64 320)
      [report_8000 2 0 0, report_8000 3 128 0, report_8000 4 32 1] ⟨8000⟩ rfl (by decide)).1,
   ((history_ring ieee_float_env encoder_ok (report_8000 1 64 320)
      [report_8000 2 0 0, report_8000 3 128 0, report_8000 4 32 1] ⟨8000⟩ rfl
      (by decide)).2.2.2.1 0 (report_8000 4 32 1) (by decide) rfl).1,
   ((history_ring ieee_float_env encoder_ok (report_8000 1 64 320)
      [report_8000 2 0 0, report_8000 3 128 0, report_8000 4 32 1] ⟨8000⟩ rfl
      (by decide)).2.2.2.1 1 (report_8000 3 128 0) (by decide) rfl).1,
   ((history_ring ieee_float_env encoder_ok (report_8000 1 64 320)
      [report_8000 2 0 0, report_8000 3 128 0, report_8000 4 32 1] ⟨8000⟩ rfl
      (by decide)).2.2.2.1 1 (report_8000 3 128 0) (by decide) rfl).2.2.2.2.1
      ieee_float_env_round_to_nearest (by decide),
   ((history_ring ieee_float_env encoder_ok (report_8000 1 64 320)
      [report_8000 2 0 0, report_8000 3 128 0, report_8000 4 32 1] ⟨8000⟩ rfl
      (by decide)).2.2.2.1 2 (report_8000 2 0 0) (by decide) rfl).1⟩

/-! ## Transitions and invariant -/

/-- The packetization interval after an action is the old one, or the old one
plus `min_ptime` (below the ceiling), or the old one minus `min_ptime` (above
`min_ptime`). -/
theorem execute_action_ptime (obj : MSAudioBitrateController) (encoder : MSFilter)
    (action : action_t) :
    (execute_action obj encoder action).2.1.cur_ptime = obj.cur_ptime
    ∨ (obj.cur_ptime < 100
      ∧ (execute_action obj encoder action).2.1.cur_ptime = obj.cur_ptime + obj.min_ptime)
    ∨ (obj.cur_ptime > obj.min_ptime
      ∧ (execute_action obj encoder action).2.1.cur_ptime = obj.cur_ptime - obj.min_ptime) := by
  have hinc : ∀ enc : MSFilter, (inc_ptime obj enc).1.cur_ptime = obj.cur_ptime
      ∨ (obj.cur_ptime < 100 ∧ (inc_ptime obj enc).1.cur_ptime = obj.cur_ptime + obj.min_ptime)
      ∨ (obj.cur_ptime > obj.min_ptime
        ∧ (inc_ptime obj enc).1.cur_ptime = obj.cur_ptime - obj.min_ptime) := by
    intro enc
    unfold inc_ptime max_ptime
    split_ifs with h
    · exact Or.inl rfl
    · exact Or.inr (Or.inl ⟨not_le.mp h, rfl⟩)
  simp only [execute_action]
  split_ifs with h1 h2 h3 h4 h5 h6 h7
  · exact hinc _
  · exact hinc _
  · exact hinc _
  · exact Or.inl rfl
  · exact hinc _
  · exact Or.inr (Or.inr ⟨h7, rfl⟩)
  · exact Or.inl rfl
  · exact Or.inl rfl

theorem state_machine_ptime (obj : MSAudioBitrateController) (encoder : MSFilter)
    (action : action_t) :
    (state_machine obj encoder action).1.cur_ptime = obj.cur_ptime
    ∨ (obj.cur_ptime < 100
      ∧ (state_machine obj encoder action).1.cur_ptime = obj.cur_ptime + obj.min_ptime)
    ∨ (obj.cur_ptime > obj.min_ptime
      ∧ (state_machine obj encoder action).1.cur_ptime = obj.cur_ptime - obj.min_ptime) := by
  have hci : ∀ o : MSAudioBitrateController,
      o.cur_ptime = obj.cur_ptime → o.min_ptime = obj.min_ptime →
      ((state_machine_case_Init o encoder action).1.cur_ptime = obj.cur_ptime
      ∨ (obj.cur_ptime < 100
        ∧ (state_machine_case_Init o encoder action).1.cur_ptime
          = obj.cur_ptime + obj.min_ptime)
      ∨ (obj.cur_ptime > obj.min_ptime
        ∧ (state_machine_case_Init o encoder action).1.cur_ptime
          = obj.cur_ptime - obj.min_ptime)) := by
    intro o h1 h2
    simp only [state_machine_case_Init]
    split_ifs
    · have := execute_action_ptime o encoder (analyse_quality o action)
      rw [h1, h2] at this
      exact this
    · have := execute_action_ptime o encoder
        { analyse_quality o action with type := action_type.IncreaseQuality }
      rw [h1, h2] at this
      exact this
    · exact Or.inl h1
  unfold state_machine
  split
  · exact hci _ rfl rfl
  · exact hci _ rfl rfl
  · simp only
    split_ifs
    · exact Or.inl rfl
    · exact execute_action_ptime { obj with stable_count := 0 } encoder _
    · exact Or.inl rfl
  · simp only
    split_ifs
    · exact execute_action_ptime { obj with stable_count := 0 } encoder _
    · exact execute_action_ptime { obj with stable_count := 0 } encoder _
    · exact execute_action_ptime { obj with stable_count := 0 } encoder _

/-- The transition table of `state_machine`: the new state and the new counter
as a function of the old state, the old counter, the answers of the analyser
and of the improvement detector, and the result of the executor. -/
theorem state_machine_table (obj : MSAudioBitrateController) (encoder : MSFilter)
    (action : action_t) :
    ((state_machine obj encoder action).1.state,
     (state_machine obj encoder action).1.stable_count)
      = match obj.state with
        | state_t.Stable =>
          if (analyse_quality obj action).type ≠ action_type.DoNothing then
            (state_t.Probing, obj.stable_count + 1)
          else if obj.stable_count + 1 ≥ 5 then (state_t.ProbingUp, obj.stable_count + 1)
          else (state_t.Stable, obj.stable_count + 1)
        | state_t.Init =>
          if (analyse_quality obj action).type ≠ action_type.DoNothing then
            (state_t.Probing, obj.stable_count)
          else if obj.stable_count ≥ 5 then (state_t.ProbingUp, obj.stable_count)
          else (state_t.Init, obj.stable_count)
        | state_t.Probing =>
          if has_improved obj = true then (state_t.Stable, 0) else (state_t.Probing, 0)
        | state_t.ProbingUp =>
          if (analyse_quality obj action).type ≠ action_type.DoNothing then
            (state_t.Probing, 0)
          else if (execute_action { obj with stable_count := 0 } encoder
                    ⟨action_type.IncreaseQuality, 0⟩).1 = -1 then (state_t.Init, 0)
          else (state_t.ProbingUp, 0) := by
  obtain ⟨cl, st, ci, s, mp, nb, cp, cb, sc⟩ := obj
  cases s
  · -- Init
    simp only [state_machine, state_machine_case_Init]
    split_ifs with h1 h2
    · have h := execute_action_fields ⟨cl, st, ci, state_t.Init, mp, nb, cp, cb, sc⟩ encoder
        (analyse_quality ⟨cl, st, ci, state_t.Init, mp, nb, cp, cb, sc⟩ action)
      simp only [Prod.mk.injEq, true_and]
      exact h.2.2.2.2.1
    · have h := execute_action_fields ⟨cl, st, ci, state_t.Init, mp, nb, cp, cb, sc⟩ encoder
        { analyse_quality ⟨cl, st, ci, state_t.Init, mp, nb, cp, cb, sc⟩ action with
          type := action_type.IncreaseQuality }
      simp only [Prod.mk.injEq, true_and]
      exact h.2.2.2.2.1
    · rfl
  · -- Probing
    simp only [state_machine]
    have hi : has_improved ⟨cl, st, ci, state_t.Probing, mp, nb, cp, cb, 0⟩
        = has_improved ⟨cl, st, ci, state_t.Probing, mp, nb, cp, cb, sc⟩ := rfl
    rw [hi]
    split_ifs with h1 h2
    · rfl
    · have h := execute_action_fields ⟨cl, st, ci, state_t.Probing, mp, nb, cp, cb, 0⟩ encoder
        (analyse_quality ⟨cl, st, ci, state_t.Probing, mp, nb, cp, cb, 0⟩ action)
      simp only [Prod.mk.injEq]
      exact ⟨h.2.2.2.1, h.2.2.2.2.1⟩
    · rfl
  · -- Stable
    simp only [state_machine, state_machine_case_Init]
    have ha : analyse_quality ⟨cl, st, ci, state_t.Stable, mp, nb, cp, cb, sc + 1⟩ action
        = analyse_quality ⟨cl, st, ci, state_t.Stable, mp, nb, cp, cb, sc⟩ action := rfl
    rw [ha]
    split_ifs with h1 h2
    · have h := execute_action_fields ⟨cl, st, ci, state_t.Stable, mp, nb, cp, cb, sc + 1⟩
        encoder (analyse_quality ⟨cl, st, ci, state_t.Stable, mp, nb, cp, cb, sc⟩ action)
      simp only [Prod.mk.injEq, true_and]
      exact h.2.2.2.2.1
    · have h := execute_action_fields ⟨cl, st, ci, state_t.Stable, mp, nb, cp, cb, sc + 1⟩
        encoder
        { analyse_quality ⟨cl, st, ci, state_t.Stable, mp, nb, cp, cb, sc⟩ action with
          type := action_type.IncreaseQuality }
      simp only [Prod.mk.injEq, true_and]
      exact h.2.2.2.2.1
    · rfl
  · -- ProbingUp
    simp only [state_machine]
    have ha : analyse_quality ⟨cl, st, ci, state_t.ProbingUp, mp, nb, cp, cb, 0⟩ action
        = analyse_quality ⟨cl, st, ci, state_t.ProbingUp, mp, nb, cp, cb, sc⟩ action := rfl
    rw [ha, execute_action_IncreaseQuality _ _ _ 0]
    split_ifs with h1 h2
    · have h := execute_action_fields ⟨cl, st, ci, state_t.ProbingUp, mp, nb, cp, cb, 0⟩
        encoder (analyse_quality ⟨cl, st, ci, state_t.ProbingUp, mp, nb, cp, cb, sc⟩ action)
      simp only [Prod.mk.injEq, true_and]
      exact h.2.2.2.2.1
    · have h := execute_action_fields ⟨cl, st, ci, state_t.ProbingUp, mp, nb, cp, cb, 0⟩
        encoder ⟨action_type.IncreaseQuality, 0⟩
      simp only [Prod.mk.injEq, true_and]
      exact h.2.2.2.2.1
    · have h := execute_action_fields ⟨cl, st, ci, state_t.ProbingUp, mp, nb, cp, cb, 0⟩
        encoder ⟨action_type.IncreaseQuality, 0⟩
      simp only [Prod.mk.injEq]
      exact ⟨h.2.2.2.1, h.2.2.2.2.1⟩
theorem controller_invariant_new (encoder : MSFilter) :
    controller_invariant (ms_audio_bitrate_controller_new encoder).1 :=
  ⟨rfl, ⟨1, by norm_num, by norm_num, rfl⟩, le_refl _, fun _ => rfl, fun h => by cases h⟩

theorem controller_invariant_state_machine (obj : MSAudioBitrateController)
    (encoder : MSFilter) (action : action_t) (h : controller_invariant obj) :
    controller_invariant (state_machine obj encoder action).1 := by
  obtain ⟨hmin, ⟨k, hk1, hk5, hk⟩, hpos, hinit, hstable⟩ := h
  have hf := state_machine_fields obj encoder action
  have hp := state_machine_ptime obj encoder action
  have hmin2 : (state_machine obj encoder action).1.min_ptime = 20 := by
    rw [hf.2.2.2.1, hmin]
  have hpt : ∃ k2 : Int, 1 ≤ k2 ∧ k2 ≤ 5
      ∧ (state_machine obj encoder action).1.cur_ptime = 20 * k2 := by
    rcases hp with hp | ⟨h1, hp⟩ | ⟨h1, hp⟩
    · exact ⟨k, hk1, hk5, by rw [hp, hk]⟩
    · exact ⟨k + 1, by omega, by omega, by rw [hp, hk, hmin]; ring⟩
    · exact ⟨k - 1, by omega, by omega, by rw [hp, hk, hmin]; ring⟩
  have ht := state_machine_table obj encoder action
  have hsc : 0 ≤ (state_machine obj encoder action).1.stable_count
      ∧ ((state_machine obj encoder action).1.state = state_t.Init →
          (state_machine obj encoder action).1.stable_count = 0)
      ∧ ((state_machine obj encoder action).1.state = state_t.Stable →
          (state_machine obj encoder action).1.stable_count ≤ 4) := by
    cases hs : obj.state with
    | Init =>
      have h0 := hinit hs
      rw [hs] at ht
      simp only at ht
      split_ifs at ht with h1 h2
      · obtain ⟨e1, e2⟩ := Prod.mk.inj ht
        rw [e1, e2, h0]
        exact ⟨le_refl _, fun _ => rfl, fun h => by cases h⟩
      · omega
      · obtain ⟨e1, e2⟩ := Prod.mk.inj ht
        rw [e1, e2, h0]
        exact ⟨le_refl _, fun _ => rfl, fun h => by cases h⟩
    | Probing =>
      rw [hs] at ht
      simp only at ht
      split_ifs at ht with h1
      · obtain ⟨e1, e2⟩ := Prod.mk.inj ht
        rw [e1, e2]
        exact ⟨le_refl _, fun _ => rfl, fun _ => by norm_num⟩
      · obtain ⟨e1, e2⟩ := Prod.mk.inj ht
        rw [e1, e2]
        exact ⟨le_refl _, fun _ => rfl, fun _ => by norm_num⟩
    | Stable =>
      have h4 := hstable hs
      rw [hs] at ht
      simp only at ht
      split_ifs at ht with h1 h2
      · obtain ⟨e1, e2⟩ := Prod.mk.inj ht
        rw [e1, e2]
        exact ⟨by omega, (fun h => by cases h), (fun h => by cases h)⟩
      · obtain ⟨e1, e2⟩ := Prod.mk.inj ht
        rw [e1, e2]
        exact ⟨by omega, (fun h => by cases h), (fun h => by cases h)⟩
      · obtain ⟨e1, e2⟩ := Prod.mk.inj ht
        rw [e1, e2]
        exact ⟨by omega, (fun h => by cases h), (fun _ => by omega)⟩
    | ProbingUp =>
      rw [hs] at ht
      simp only at ht
      split_ifs at ht with h1 h2
      · obtain ⟨e1, e2⟩ := Prod.mk.inj ht
        rw [e1, e2]
        exact ⟨le_refl _, fun _ => rfl, fun _ => by norm_num⟩
      · obtain ⟨e1, e2⟩ := Prod.mk.inj ht
        rw [e1, e2]
        exact ⟨le_refl _, fun _ => rfl, fun _ => by norm_num⟩
      · obtain ⟨e1, e2⟩ := Prod.mk.inj ht
        rw [e1, e2]
        exact ⟨le_refl _, fun _ => rfl, fun _ => by norm_num⟩
  exact ⟨hmin2, hpt, hsc.1, hsc.2.1, hsc.2.2⟩

theorem controller_invariant_read_report (fe : FloatEnv) (obj : MSAudioBitrateController)
    (session : RtpSession) (rb : report_block_t) (h : controller_invariant obj) :
    controller_invariant (read_report fe obj session rb) := by
  have hf := read_report_frame fe obj session rb
  unfold controller_invariant
  rw [hf.1, hf.2.1, hf.2.2.1, hf.2.2.2.1]
  exact h

theorem controller_invariant_process_rtcp (fe : FloatEnv) (obj : MSAudioBitrateController)
    (session : RtpSession) (encoder : MSFilter) (rtcp : mblk_t) (action : action_t)
    (h : controller_invariant obj) :
    controller_invariant
      (ms_audio_bitrate_controller_process_rtcp fe obj session encoder rtcp action).1 := by
  unfold ms_audio_bitrate_controller_process_rtcp
  cases report_block_of rtcp with
  | none => exact h
  | some rb =>
    exact controller_invariant_state_machine _ _ _ (controller_invariant_read_report _ _ _ _ h)

theorem controller_invariant_process_all (fe : FloatEnv) (evs : List Event) :
    ∀ s : MSAudioBitrateController × MSFilter, controller_invariant s.1 →
      controller_invariant (process_all fe s evs).1 := by
  induction evs with
  | nil =>
    intro s h
    exact h
  | cons ev evs ih =>
    intro s h
    unfold process_all
    exact ih _ (controller_invariant_process_rtcp _ _ _ _ _ _ h)

theorem controller_invariant_reachable (s : MSAudioBitrateController × MSFilter)
    (h : reachable s) : controller_invariant s.1 := by
  obtain ⟨fe, encoder, evs, rfl⟩ := h
  exact controller_invariant_process_all fe evs _ (controller_invariant_new encoder)

/-- C16: in every state that a freshly created controller (`min_ptime =
cur_ptime = 20`) reaches by processing any sequence of RTCP packets, whatever
the encoder answers, `min_ptime ≤ cur_ptime ≤ 100 = max_ptime`; `min_ptime`
is still 20 and `cur_ptime` is a multiple of 20. -/
theorem ptime_bounds (s : MSAudioBitrateController × MSFilter) (h : reachable s) :
    s.1.min_ptime ≤ s.1.cur_ptime
    ∧ s.1.cur_ptime ≤ max_ptime
    ∧ s.1.min_ptime = 20
    ∧ s.1.cur_ptime % 20 = 0 := by
  obtain ⟨hmin, ⟨k, hk1, hk5, hk⟩, _⟩ := controller_invariant_reachable s h
  unfold max_ptime
  refine ⟨?_, ?_, hmin, ?_⟩ <;> omega

/-- Witness of C16: a fresh controller without bitrate knob receives lossy
reports (25 % loss): each one runs the ptime-increase fallback, `cur_ptime`
goes 20, 40, 60, 80, 100 and stays at the ceiling of 100 on the fifth report.
Quiet reports follow: the first brings the controller to `Stable`, five more
to `ProbingUp` where `IncreaseQuality` lowers `cur_ptime` to 80, then to 60,
40 and 20, and the report after that finds `cur_ptime = min_ptime` and returns
to `Init`.  The bounds hold at the ceiling and at the floor. -/
theorem ptime_bounds_witness :
    ((ptime_run 0 0).1.cur_ptime = 20 ∧ (ptime_run 1 0).1.cur_ptime = 40
      ∧ (ptime_run 2 0).1.cur_ptime = 60 ∧ (ptime_run 3 0).1.cur_ptime = 80
      ∧ (ptime_run 4 0).1.cur_ptime = 100 ∧ (ptime_run 5 0).1.cur_ptime = 100)
    ∧ (ptime_run 5 0).2.calls
        = [Call.GET_BITRATE, Call.ADD_FMTP "ptime=40", Call.ADD_FMTP "ptime=60",
           Call.ADD_FMTP "ptime=80", Call.ADD_FMTP "ptime=100"]
    ∧ ((ptime_run 5 0).1.min_ptime ≤ (ptime_run 5 0).1.cur_ptime
      ∧ (ptime_run 5 0).1.cur_ptime ≤ max_ptime)
    ∧ ((ptime_run 5 1).1.state = state_t.Stable
      ∧ (ptime_run 5 6).1.state = state_t.ProbingUp ∧ (ptime_run 5 6).1.cur_ptime = 80
      ∧ (ptime_run 5 7).1.cur_ptime = 60 ∧ (ptime_run 5 8).1.cur_ptime = 40
      ∧ (ptime_run 5 9).1.cur_ptime = 20 ∧ (ptime_run 5 9).1.state = state_t.ProbingUp
      ∧ (ptime_run 5 10).1.cur_ptime = 20 ∧ (ptime_run 5 10).1.state = state_t.Init)
    ∧ ((ptime_run 5 10).1.min_ptime ≤ (ptime_run 5 10).1.cur_ptime
      ∧ (ptime_run 5 10).1.cur_ptime ≤ max_ptime
      ∧ (ptime_run 5 10).1.min_ptime = 20) :=
  ⟨by decide!, by decide!,
   ⟨(ptime_bounds (ptime_run 5 0) ⟨ieee_float_env, encoder_refusing, _, rfl⟩).1,
    (ptime_bounds (ptime_run 5 0) ⟨ieee_float_env, encoder_refusing, _, rfl⟩).2.1⟩,
   by decide!,
   ⟨(ptime_bounds (ptime_run 5 10) ⟨ieee_float_env, encoder_refusing, _, rfl⟩).1,
    (ptime_bounds (ptime_run 5 10) ⟨ieee_float_env, encoder_refusing, _, rfl⟩).2.1,
    (ptime_bounds (ptime_run 5 10) ⟨ieee_float_env, encoder_refusing, _, rfl⟩).2.2.1⟩⟩

/-! ## Size of a bitrate cut -/

theorem analyse_quality_magnitude (obj : MSAudioBitrateController) (action : action_t)
    (h : (analyse_quality obj action).type = action_type.DecreaseBitrate) :
    20 ≤ (analyse_quality obj action).value ∧ (analyse_quality obj action).value ≤ 50 := by
  rw [analyse_quality_eq] at h ⊢
  split_ifs at h ⊢ with h1 h2 h3
  · constructor
    · exact Int.le_floor.mpr (le_min (by exact_mod_cast h1.1) (by norm_num))
    · have : (⌊min (slot_back obj 0).lost_percentage.toRat 50⌋ : ℚ) ≤ 50 :=
        le_trans (Int.floor_le _) (min_le_right _ _)
      exact_mod_cast this
  · exact ⟨by norm_num, by norm_num⟩

theorem cut_bounds (current m : Int) (hcur : 0 ≤ current) (h20 : 20 ≤ m) (h50 : m ≤ 50) :
    0 ≤ current * m ∧ current * m ≤ current * 50
    ∧ current.tdiv 2 ≤ current - (current * m).tdiv 100
    ∧ current - (current * m).tdiv 100 ≤ current
    ∧ 0 ≤ current - (current * m).tdiv 100
    ∧ current ≤ 2 * (current - (current * m).tdiv 100) := by
  have hp0 : 0 ≤ current * m := mul_nonneg hcur (by omega)
  have hp1 : current * m ≤ current * 50 := mul_le_mul_of_nonneg_left h50 hcur
  rw [Int.tdiv_eq_ediv hp0 (by norm_num), Int.tdiv_eq_ediv hcur (by norm_num)]
  generalize current * m = p at hp0 hp1
  refine ⟨hp0, hp1, ?_, ?_, ?_, ?_⟩ <;> omega

theorem execute_action_set_call (obj : MSAudioBitrateController) (encoder : MSFilter)
    (action : action_t) (current : Int)
    (htype : action.type = action_type.DecreaseBitrate) (hnom : obj.nom_bitrate ≠ 0)
    (hget : (ms_filter_call_method encoder Call.GET_BITRATE).1.ret = 0)
    (hcur : (ms_filter_call_method encoder Call.GET_BITRATE).1.out.getD 0 = current) :
    Call.SET_BITRATE (int_wrap (current - (int_wrap (current * action.value)).tdiv 100))
      ∈ calls_made encoder (execute_action obj encoder action).2.2 := by
  by_cases hs : (ms_filter_call_method (ms_filter_call_method encoder Call.GET_BITRATE).2
      (Call.SET_BITRATE (int_wrap (current - (int_wrap (current * action.value)).tdiv 100)))).1.ret ≠ 0
  · have e : execute_action obj encoder action
        = (0, inc_ptime obj
            (ms_filter_call_method (ms_filter_call_method encoder Call.GET_BITRATE).2
              (Call.SET_BITRATE (int_wrap (current - (int_wrap (current * action.value)).tdiv 100)))).2) := by
      simp only [execute_action]
      rw [if_pos htype, if_neg hnom, if_neg (not_not.mpr hget), hcur, if_pos hs]
    rw [e, calls_made_of_append _ _
      (Call.GET_BITRATE :: Call.SET_BITRATE (int_wrap (current - (int_wrap (current * action.value)).tdiv 100))
        :: inc_ptime_calls obj)]
    · simp
    · rw [inc_ptime_calls_eq]
      simp [ms_filter_call_method]
  · have e : execute_action obj encoder action
        = (0, obj, (ms_filter_call_method
            (ms_filter_call_method (ms_filter_call_method encoder Call.GET_BITRATE).2
              (Call.SET_BITRATE (int_wrap (current - (int_wrap (current * action.value)).tdiv 100)))).2
            Call.GET_BITRATE).2) := by
      simp only [execute_action]
      rw [if_pos htype, if_neg hnom, if_neg (not_not.mpr hget), hcur, if_neg hs]
    rw [e, calls_made_of_append _ _
      [Call.GET_BITRATE, Call.SET_BITRATE (int_wrap (current - (int_wrap (current * action.value)).tdiv 100)),
        Call.GET_BITRATE]]
    · simp
    · simp [ms_filter_call_method]

/-- C19: a `DecreaseBitrate` action produced by `analyse_quality` has a
magnitude `m` with `20 ≤ m ≤ 50`.  Hence for an encoder bitrate `current` with
`0 ≤ current` and `current * 50 < 2 ^ 31` the product `current * m` stays
below `2 ^ 31` and the bitrate sent with `SET_BITRATE`,
`current - (current * m) / 100` (truncating division), lies between
`current / 2` and `current`: it is not raised, not negative, and at most half
of it is removed. -/
theorem bounded_bitrate_cut (obj : MSAudioBitrateController) (action : action_t)
    (encoder : MSFilter) (current : Int)
    (htype : (analyse_quality obj action).type = action_type.DecreaseBitrate)
    (hcur : 0 ≤ current) (hov : current * 50 < 2 ^ 31) :
    20 ≤ (analyse_quality obj action).value
    ∧ (analyse_quality obj action).value ≤ 50
    ∧ 0 ≤ current * (analyse_quality obj action).value
    ∧ current * (analyse_quality obj action).value < 2 ^ 31
    ∧ current.tdiv 2 ≤ current - (current * (analyse_quality obj action).value).tdiv 100
    ∧ current - (current * (analyse_quality obj action).value).tdiv 100 ≤ current
    ∧ 0 ≤ current - (current * (analyse_quality obj action).value).tdiv 100
    ∧ current ≤ 2 * (current - (current * (analyse_quality obj action).value).tdiv 100)
    ∧ (obj.nom_bitrate ≠ 0 →
        (ms_filter_call_method encoder Call.GET_BITRATE).1.ret = 0 →
        (ms_filter_call_method encoder Call.GET_BITRATE).1.out.getD 0 = current →
        Call.SET_BITRATE
            (current - (current * (analyse_quality obj action).value).tdiv 100)
          ∈ calls_made encoder
              (execute_action obj encoder (analyse_quality obj action)).2.2) := by
  obtain ⟨h20, h50⟩ := analyse_quality_magnitude obj action htype
  obtain ⟨b1, b2, b3, b4, b5, b6⟩ :=
    cut_bounds current (analyse_quality obj action).value hcur h20 h50
  refine ⟨h20, h50, b1, lt_of_le_of_lt b2 hov, b3, b4, b5, b6, fun hnom hget hc => ?_⟩
  have hw := execute_action_set_call obj encoder _ current htype hnom hget hc
  rwa [int_wrap_cut current _ hcur (by omega) (by omega) (by omega)
    (lt_of_le_of_lt b2 hov)] at hw

/-- Witness of C19: loss 25 %, jitter 50 ms and an encoder at 64000 bit/s: the
magnitude is at least 20 and the bitrate sent with `SET_BITRATE` is the cut
one. -/
theorem bounded_bitrate_cut_witness :
    20 ≤ (analyse_quality c19_controller ⟨action_type.DoNothing, 0⟩).value
    ∧ Call.SET_BITRATE
          (64000 - (64000 * (analyse_quality c19_controller
            ⟨action_type.DoNothing, 0⟩).value).tdiv 100)
        ∈ calls_made encoder_ok
            (execute_action c19_controller encoder_ok
              (analyse_quality c19_controller ⟨action_type.DoNothing, 0⟩)).2.2 := by
  have hl : (slot_back c19_controller 0).lost_percentage.toRat = 25 := by
    norm_num [c19_controller, slot_back_controller_with, sample, CFloat.ofSmallInt,
      CFloat.toRat]
  have hj : (slot_back c19_controller 0).int_jitter.toRat = 50 := by
    norm_num [c19_controller, slot_back_controller_with, sample, CFloat.ofSmallInt,
      CFloat.toRat]
  have ht : (analyse_quality c19_controller ⟨action_type.DoNothing, 0⟩).type
      = action_type.DecreaseBitrate := by
    rw [analyse_quality_eq, if_pos ⟨by rw [hl]; norm_num, by rw [hj]; norm_num⟩]
  have h := bounded_bitrate_cut c19_controller ⟨action_type.DoNothing, 0⟩ encoder_ok 64000 ht
    (by norm_num) (by norm_num)
  exact ⟨h.1, h.2.2.2.2.2.2.2.2 (by decide) rfl rfl⟩
/-- The transition table for a packet that carries a report: the analyser and
the improvement detector look at the history after `read_report`. -/
theorem process_rtcp_table (fe : FloatEnv) (obj : MSAudioBitrateController)
    (session : RtpSession) (encoder : MSFilter) (rtcp : mblk_t) (action : action_t)
    (rb : report_block_t) (hrb : report_block_of rtcp = some rb) :
    ((ms_audio_bitrate_controller_process_rtcp fe obj session encoder rtcp action).1.state,
     (ms_audio_bitrate_controller_process_rtcp fe obj session encoder rtcp action).1.stable_count)
      = match obj.state with
        | state_t.Stable =>
          if (analyse_quality (read_report fe obj session rb) action).type
              ≠ action_type.DoNothing then
            (state_t.Probing, obj.stable_count + 1)
          else if obj.stable_count + 1 ≥ 5 then (state_t.ProbingUp, obj.stable_count + 1)
          else (state_t.Stable, obj.stable_count + 1)
        | state_t.Init =>
          if (analyse_quality (read_report fe obj session rb) action).type
              ≠ action_type.DoNothing then
            (state_t.Probing, obj.stable_count)
          else if obj.stable_count ≥ 5 then (state_t.ProbingUp, obj.stable_count)
          else (state_t.Init, obj.stable_count)
        | state_t.Probing =>
          if has_improved (read_report fe obj session rb) = true then (state_t.Stable, 0)
          else (state_t.Probing, 0)
        | state_t.ProbingUp =>
          if (analyse_quality (read_report fe obj session rb) action).type
              ≠ action_type.DoNothing then
            (state_t.Probing, 0)
          else if (execute_action { read_report fe obj session rb with stable_count := 0 }
                    encoder ⟨action_type.IncreaseQuality, 0⟩).1 = -1 then (state_t.Init, 0)
          else (state_t.ProbingUp, 0) := by
  have e : ms_audio_bitrate_controller_process_rtcp fe obj session encoder rtcp action
      = state_machine (read_report fe obj session rb) encoder action := by
    unfold ms_audio_bitrate_controller_process_rtcp
    rw [hrb]
  have hf := read_report_frame fe obj session rb
  rw [e, state_machine_table, ← hf.1, ← hf.2.1]

theorem process_rtcp_no_report (fe : FloatEnv) (obj : MSAudioBitrateController)
    (session : RtpSession) (encoder : MSFilter) (rtcp : mblk_t) (action : action_t)
    (hrb : report_block_of rtcp = none) :
    ms_audio_bitrate_controller_process_rtcp fe obj session encoder rtcp action
      = (obj, encoder) := by
  unfold ms_audio_bitrate_controller_process_rtcp
  rw [hrb]
/-- From `Stable` with a counter of 0, five reports analysed as `DoNothing`:
the state stays `Stable` for the first four and becomes `ProbingUp` on the
fifth. -/
theorem stable_run_five (fe : FloatEnv) (encoder : MSFilter) (obj : MSAudioBitrateController)
    (evs : List Event) (hstate : obj.state = state_t.Stable) (hcount : obj.stable_count = 0)
    (hlen : evs.length = 5) (hq : all_DoNothing fe (obj, encoder) evs) :
    (∀ k : Nat, k < 5 →
      (process_all fe (obj, encoder) (evs.take k)).1.state = state_t.Stable
      ∧ (process_all fe (obj, encoder) (evs.take k)).1.stable_count = k)
    ∧ (process_all fe (obj, encoder) evs).1.state = state_t.ProbingUp
    ∧ (process_all fe (obj, encoder) evs).1.stable_count = 5 := by
  have hpre : ∀ k : Nat, k < 5 →
      (process_all fe (obj, encoder) (evs.take k)).1.state = state_t.Stable
      ∧ (process_all fe (obj, encoder) (evs.take k)).1.stable_count = k
      ∧ (process_all fe (obj, encoder) (evs.take k)).2 = encoder := by
    intro k hk
    have hsplit : evs = evs.take k ++ evs.drop k := (List.take_append_drop k evs).symm
    have hq1 : all_DoNothing fe (obj, encoder) (evs.take k) := by
      rw [hsplit] at hq
      exact (all_DoNothing_append fe _ _ _ hq).1
    have hl : (evs.take k).length = k := by
      rw [List.length_take, hlen]
      omega
    have := process_all_Stable fe (evs.take k) (obj, encoder) hstate
      (by
        show obj.stable_count + ((evs.take k).length : Int) < 5
        rw [hl, hcount]
        omega)
      hq1
    refine ⟨this.1, ?_, this.2.2⟩
    rw [this.2.1, hl]
    show obj.stable_count + (k : Int) = k
    rw [hcount]
    ring
  have hsplit : evs = evs.take 4 ++ evs.drop 4 := (List.take_append_drop 4 evs).symm
  obtain ⟨ev, hev⟩ : ∃ ev, evs.drop 4 = [ev] := by
    have hl : (evs.drop 4).length = 1 := by
      rw [List.length_drop, hlen]
    exact List.length_eq_one.mp hl
  have h4 := hpre 4 (by norm_num)
  have hq2 : all_DoNothing fe (process_all fe (obj, encoder) (evs.take 4)) [ev] := by
    rw [hsplit, hev] at hq
    exact (all_DoNothing_append fe _ _ _ hq).2
  obtain ⟨c, hc1, hc2, hc3⟩ := process_rtcp_fifth fe _ ev h4.1 (by rw [h4.2.1]; rfl) hq2
  have hfin : process_all fe (obj, encoder) evs
      = ({ (execute_action c encoder ⟨action_type.IncreaseQuality, 0⟩).2.1
             with state := state_t.ProbingUp },
         (execute_action c encoder ⟨action_type.IncreaseQuality, 0⟩).2.2) := by
    conv_lhs => rw [hsplit, hev]
    rw [process_all_append, hc3, h4.2.2]
  refine ⟨fun k hk => ⟨(hpre k hk).1, (hpre k hk).2.1⟩, by rw [hfin], ?_⟩
  rw [hfin]
  show (execute_action c encoder ⟨action_type.IncreaseQuality, 0⟩).2.1.stable_count = 5
  rw [(execute_action_fields c encoder _).2.2.2.2.1]
  exact hc2

/-- C17 (amended): the counter is not negative in any reachable state, and
every report processed while the controller is in `Probing` or `ProbingUp`
sets it to 0.  After a report that moves the controller into `Probing` or
`ProbingUp` from another state the counter is 0 when the old state was not
`Stable`; when the old state was `Stable` it is the old counter plus 1 (at
least 1, and 5 on entering `ProbingUp`): the reset only happens with the next
report. -/
theorem stable_count_reset (fe : FloatEnv) (s : MSAudioBitrateController × MSFilter)
    (session : RtpSession) (rtcp : mblk_t) (action : action_t) (rb : report_block_t)
    (hreach : reachable s) (hrb : report_block_of rtcp = some rb) :
    0 ≤ s.1.stable_count
    ∧ (s.1.state = state_t.Probing ∨ s.1.state = state_t.ProbingUp →
        (ms_audio_bitrate_controller_process_rtcp fe s.1 session s.2 rtcp
          action).1.stable_count = 0)
    ∧ ((ms_audio_bitrate_controller_process_rtcp fe s.1 session s.2 rtcp action).1.state
          = state_t.Probing
        ∨ (ms_audio_bitrate_controller_process_rtcp fe s.1 session s.2 rtcp action).1.state
          = state_t.ProbingUp →
        (ms_audio_bitrate_controller_process_rtcp fe s.1 session s.2 rtcp action).1.state
          ≠ s.1.state →
        (s.1.state ≠ state_t.Stable →
          (ms_audio_bitrate_controller_process_rtcp fe s.1 session s.2 rtcp
            action).1.stable_count = 0)
        ∧ (s.1.state = state_t.Stable →
          (ms_audio_bitrate_controller_process_rtcp fe s.1 session s.2 rtcp
            action).1.stable_count = s.1.stable_count + 1
          ∧ 1 ≤ (ms_audio_bitrate_controller_process_rtcp fe s.1 session s.2 rtcp
            action).1.stable_count
          ∧ ((ms_audio_bitrate_controller_process_rtcp fe s.1 session s.2 rtcp
              action).1.state = state_t.ProbingUp →
            (ms_audio_bitrate_controller_process_rtcp fe s.1 session s.2 rtcp
              action).1.stable_count = 5))) := by
  obtain ⟨_, _, hpos, hinit, hstable⟩ := controller_invariant_reachable s hreach
  have ht := process_rtcp_table fe s.1 session s.2 rtcp action rb hrb
  refine ⟨hpos, ?_, ?_⟩
  · rintro (hs | hs)
    · rw [hs] at ht
      simp only at ht
      split_ifs at ht <;> exact (Prod.mk.inj ht).2
    · rw [hs] at ht
      simp only at ht
      split_ifs at ht <;> exact (Prod.mk.inj ht).2
  · intro hnew hne
    cases hs : s.1.state with
    | Init =>
      have h0 := hinit hs
      rw [hs] at ht
      simp only at ht
      refine ⟨fun _ => ?_, fun h => by cases h⟩
      split_ifs at ht <;> rw [(Prod.mk.inj ht).2, h0]
    | Probing =>
      rw [hs] at ht
      simp only at ht
      refine ⟨fun _ => ?_, fun h => by cases h⟩
      split_ifs at ht <;> exact (Prod.mk.inj ht).2
    | ProbingUp =>
      rw [hs] at ht
      simp only at ht
      refine ⟨fun _ => ?_, fun h => by cases h⟩
      split_ifs at ht <;> exact (Prod.mk.inj ht).2
    | Stable =>
      have h4 := hstable hs
      rw [hs] at ht
      simp only at ht
      refine ⟨fun h => absurd rfl h, fun _ => ?_⟩
      split_ifs at ht with h1 h2
      · obtain ⟨e1, e2⟩ := Prod.mk.inj ht
        rw [e1, e2]
        exact ⟨rfl, by omega, (fun h => by cases h)⟩
      · obtain ⟨e1, e2⟩ := Prod.mk.inj ht
        rw [e1, e2]
        exact ⟨rfl, by omega, (fun _ => by omega)⟩
      · obtain ⟨e1, e2⟩ := Prod.mk.inj ht
        rw [e1, e2]
        exact ⟨rfl, by omega, (fun h => by cases h)⟩

/-- C20: in every reachable state the counter is 0 in `Init` and between 0 and
4 in `Stable`.  Consequently a packet processed in `Init` leaves the
controller in `Init` or moves it to `Probing`; `ProbingUp` is only entered
from `Stable`, by a report analysed as `DoNothing` that finds the counter at 4
and brings it to 5; `Stable` is only entered from `Probing`, with a counter of
0; in `Stable` a report analysed as `DoNothing` adds 1 to the counter and keeps
the state while the counter was below 4, and any other report leads to
`Probing`.  So `ProbingUp` is entered on exactly the 5th consecutive report
analysed as `DoNothing` after `Stable` was entered. -/
theorem hysteresis_invariant (fe : FloatEnv) (s : MSAudioBitrateController × MSFilter)
    (session : RtpSession) (rtcp : mblk_t) (action : action_t) (hreach : reachable s) :
    (s.1.state = state_t.Init → s.1.stable_count = 0)
    ∧ (s.1.state = state_t.Stable → 0 ≤ s.1.stable_count ∧ s.1.stable_count ≤ 4)
    ∧ (s.1.state = state_t.Init →
        (ms_audio_bitrate_controller_process_rtcp fe s.1 session s.2 rtcp action).1.state
          = state_t.Init
        ∨ (ms_audio_bitrate_controller_process_rtcp fe s.1 session s.2 rtcp action).1.state
          = state_t.Probing)
    ∧ ((ms_audio_bitrate_controller_process_rtcp fe s.1 session s.2 rtcp action).1.state
          = state_t.ProbingUp →
        s.1.state ≠ state_t.ProbingUp →
        s.1.state = state_t.Stable ∧ s.1.stable_count = 4
        ∧ (ms_audio_bitrate_controller_process_rtcp fe s.1 session s.2 rtcp
            action).1.stable_count = 5
        ∧ ∃ rb, report_block_of rtcp = some rb
            ∧ (analyse_quality (read_report fe s.1 session rb) action).type
              = action_type.DoNothing)
    ∧ ((ms_audio_bitrate_controller_process_rtcp fe s.1 session s.2 rtcp action).1.state
          = state_t.Stable →
        s.1.state ≠ state_t.Stable →
        s.1.state = state_t.Probing
        ∧ (ms_audio_bitrate_controller_process_rtcp fe s.1 session s.2 rtcp
            action).1.stable_count = 0)
    ∧ (s.1.state = state_t.Stable → ∀ rb, report_block_of rtcp = some rb →
        ((analyse_quality (read_report fe s.1 session rb) action).type
            = action_type.DoNothing →
          (s.1.stable_count < 4 →
            (ms_audio_bitrate_controller_process_rtcp fe s.1 session s.2 rtcp
              action).1.state = state_t.Stable
            ∧ (ms_audio_bitrate_controller_process_rtcp fe s.1 session s.2 rtcp
              action).1.stable_count = s.1.stable_count + 1)
          ∧ (s.1.stable_count = 4 →
            (ms_audio_bitrate_controller_process_rtcp fe s.1 session s.2 rtcp
              action).1.state = state_t.ProbingUp))
        ∧ ((analyse_quality (read_report fe s.1 session rb) action).type
            ≠ action_type.DoNothing →
          (ms_audio_bitrate_controller_process_rtcp fe s.1 session s.2 rtcp
            action).1.state = state_t.Probing))
    ∧ (∀ (encoder : MSFilter) (obj : MSAudioBitrateController) (evs : List Event),
        obj.state = state_t.Stable → obj.stable_count = 0 → evs.length = 5 →
        all_DoNothing fe (obj, encoder) evs →
        (∀ k : Nat, k < 5 →
          (process_all fe (obj, encoder) (evs.take k)).1.state = state_t.Stable
          ∧ (process_all fe (obj, encoder) (evs.take k)).1.stable_count = k)
        ∧ (process_all fe (obj, encoder) evs).1.state = state_t.ProbingUp) := by
  obtain ⟨_, _, hpos, hinit, hstable⟩ := controller_invariant_reachable s hreach
  refine ⟨hinit, fun h => ⟨hpos, hstable h⟩, ?_, ?_, ?_, ?_, ?_⟩
  · intro hs
    cases hrb : report_block_of rtcp with
    | none =>
      rw [process_rtcp_no_report fe s.1 session s.2 rtcp action hrb]
      exact Or.inl hs
    | some rb =>
      have ht := process_rtcp_table fe s.1 session s.2 rtcp action rb hrb
      have h0 := hinit hs
      rw [hs] at ht
      simp only at ht
      split_ifs at ht with h1 h2
      · exact Or.inr (Prod.mk.inj ht).1
      · omega
      · exact Or.inl (Prod.mk.inj ht).1
  · intro hnew hold
    cases hrb : report_block_of rtcp with
    | none =>
      rw [process_rtcp_no_report fe s.1 session s.2 rtcp action hrb] at hnew
      exact absurd hnew hold
    | some rb =>
      have ht := process_rtcp_table fe s.1 session s.2 rtcp action rb hrb
      rw [hnew] at ht
      cases hs : s.1.state with
      | Init =>
        have h0 := hinit hs
        rw [hs] at ht
        simp only at ht
        split_ifs at ht with h1 h2
        · exact absurd (Prod.mk.inj ht).1 (by decide)
        · omega
        · exact absurd (Prod.mk.inj ht).1 (by decide)
      | Probing =>
        rw [hs] at ht
        simp only at ht
        split_ifs at ht <;> exact absurd (Prod.mk.inj ht).1 (by decide)
      | ProbingUp => exact absurd hs hold
      | Stable =>
        have h4 := hstable hs
        rw [hs] at ht
        simp only at ht
        split_ifs at ht with h1 h2
        · exact absurd (Prod.mk.inj ht).1 (by decide)
        · have e2 := (Prod.mk.inj ht).2
          exact ⟨rfl, by omega, by rw [e2]; omega, rb, rfl, not_not.mp h1⟩
        · exact absurd (Prod.mk.inj ht).1 (by decide)
  · intro hnew hold
    cases hrb : report_block_of rtcp with
    | none =>
      rw [process_rtcp_no_report fe s.1 session s.2 rtcp action hrb] at hnew
      exact absurd hnew hold
    | some rb =>
      have ht := process_rtcp_table fe s.1 session s.2 rtcp action rb hrb
      rw [hnew] at ht
      cases hs : s.1.state with
      | Init =>
        rw [hs] at ht
        simp only at ht
        split_ifs at ht <;> exact absurd (Prod.mk.inj ht).1 (by decide)
      | Probing =>
        rw [hs] at ht
        simp only at ht
        split_ifs at ht with h1
        · exact ⟨rfl, (Prod.mk.inj ht).2⟩
        · exact absurd (Prod.mk.inj ht).1 (by decide)
      | ProbingUp =>
        rw [hs] at ht
        simp only at ht
        split_ifs at ht <;> exact absurd (Prod.mk.inj ht).1 (by decide)
      | Stable => exact absurd hs hold
  · intro hs rb hrb
    have ht := process_rtcp_table fe s.1 session s.2 rtcp action rb hrb
    rw [hs] at ht
    simp only at ht
    constructor
    · intro ha
      rw [if_neg (not_not.mpr ha)] at ht
      constructor
      · intro hlt
        rw [if_neg (by omega)] at ht
        exact ⟨(Prod.mk.inj ht).1, (Prod.mk.inj ht).2⟩
      · intro h4
        rw [if_pos (by omega)] at ht
        exact (Prod.mk.inj ht).1
    · intro ha
      rw [if_pos ha] at ht
      exact (Prod.mk.inj ht).1
  · intro encoder obj evs h1 h2 h3 h4
    have := stable_run_five fe encoder obj evs h1 h2 h3 h4
    exact ⟨this.1, this.2.1⟩

/-! ## A run that enters `Probing` from `Stable` -/

theorem has_improved_of_loss (obj : MSAudioBitrateController)
    (h1 : (slot_back obj 1).lost_percentage.toRat ≥ 20)
    (h2 : (slot_back obj 0).lost_percentage.toRat < (slot_back obj 1).lost_percentage.toRat) :
    has_improved obj = true := by
  unfold has_improved
  simp only [stats_at_cur, stats_at_prev, unacceptable_loss_rate_toRat]
  rw [if_pos h1, if_pos h2]

theorem int_jitter_zero (fe : FloatEnv) (hfe : fe.correctly_rounded) (clockrate : Int)
    (session : RtpSession) (rb : report_block_t) (h : rb.interarrival_jitter = 0) :
    (read_report_sample fe clockrate session rb).int_jitter.toRat = 0 := by
  have h0 : (fe.to_float (0 : ℚ)).toRat = 0 := by
    have := hfe.float_exact CFloat.zero
    simpa [CFloat.zero, CFloat.toRat] using this
  have hd : fe.to_double (0 : ℚ) = 0 :=
    hfe.double_exact 0 ⟨0, 0, by norm_num, by norm_num, by norm_num, by simp⟩
  show (fe.to_float (fe.to_double
    (fe.to_double (1000 * (fe.to_float (rb.interarrival_jitter : ℚ)).toRat)
      / (fe.to_float (clockrate : ℚ)).toRat))).toRat = 0
  rw [h]
  simp only [Nat.cast_zero, h0, mul_zero, hd, zero_div]

/-- The sample of a report `report_8000 seq f 0` with the exact environment. -/
theorem report_8000_sample (clockrate : Int) (seq f : Nat) (hf : f ≤ 256) :
    ((report_8000 seq f 0).sample exact_float_env clockrate).lost_percentage.toRat
      = 100 * (f : ℚ) / 256
    ∧ ((report_8000 seq f 0).sample exact_float_env clockrate).int_jitter.toRat = 0
    ∧ ((report_8000 seq f 0).sample exact_float_env clockrate).rt_prop.toRat = 0 := by
  refine ⟨?_, ?_, ?_⟩
  · exact lost_percentage_exact exact_float_env exact_float_env_correctly_rounded clockrate
      _ ⟨seq, f, 0⟩ hf
  · exact int_jitter_zero exact_float_env exact_float_env_correctly_rounded clockrate
      _ ⟨seq, f, 0⟩ rfl
  · simp [Report.sample, read_report_sample, report_8000, CFloat.zero, CFloat.toRat]

/-- Reading a report `report_8000 seq f 0`: the latest sample is the sample of
the report and the previous one is the former latest sample. -/
theorem read_report_8000 (obj : MSAudioBitrateController) (seq f : Nat) :
    slot_back (read_report exact_float_env obj (report_8000 seq f 0).session
        (report_8000 seq f 0).rb) 0
      = (report_8000 seq f 0).sample exact_float_env
          (read_report exact_float_env obj (report_8000 seq f 0).session
            (report_8000 seq f 0).rb).clockrate
    ∧ slot_back (read_report exact_float_env obj (report_8000 seq f 0).session
        (report_8000 seq f 0).rb) 1 = slot_back obj 0 :=
  ⟨read_report_latest _ _ _ _ (Or.inr (by simp [report_8000])),
   (read_report_shift _ _ _ _).1⟩

theorem process_rtcp_8000 (s : MSAudioBitrateController × MSFilter) (seq f : Nat) :
    ms_audio_bitrate_controller_process_rtcp exact_float_env s.1
        (report_8000 seq f 0).toEvent.session s.2 (report_8000 seq f 0).toEvent.rtcp
        (report_8000 seq f 0).toEvent.action
      = state_machine (read_report exact_float_env s.1 (report_8000 seq f 0).session
          (report_8000 seq f 0).rb) s.2 ⟨action_type.DoNothing, 0⟩ := by
  unfold ms_audio_bitrate_controller_process_rtcp
  rw [report_block_of_toEvent]
  rfl

/-- The transition table for a processed report. -/
theorem process_report_table (fe : FloatEnv) (obj : MSAudioBitrateController)
    (encoder : MSFilter) (r : Report) :
    ((ms_audio_bitrate_controller_process_rtcp fe obj r.toEvent.session encoder
        r.toEvent.rtcp r.toEvent.action).1.state,
     (ms_audio_bitrate_controller_process_rtcp fe obj r.toEvent.session encoder
        r.toEvent.rtcp r.toEvent.action).1.stable_count)
      = match obj.state with
        | state_t.Stable =>
          if (analyse_quality (read_report fe obj r.session r.rb) r.action).type
              ≠ action_type.DoNothing then
            (state_t.Probing, obj.stable_count + 1)
          else if obj.stable_count + 1 ≥ 5 then (state_t.ProbingUp, obj.stable_count + 1)
          else (state_t.Stable, obj.stable_count + 1)
        | state_t.Init =>
          if (analyse_quality (read_report fe obj r.session r.rb) r.action).type
              ≠ action_type.DoNothing then
            (state_t.Probing, obj.stable_count)
          else if obj.stable_count ≥ 5 then (state_t.ProbingUp, obj.stable_count)
          else (state_t.Init, obj.stable_count)
        | state_t.Probing =>
          if has_improved (read_report fe obj r.session r.rb) = true then (state_t.Stable, 0)
          else (state_t.Probing, 0)
        | state_t.ProbingUp =>
          if (analyse_quality (read_report fe obj r.session r.rb) r.action).type
              ≠ action_type.DoNothing then
            (state_t.Probing, 0)
          else if (execute_action { read_report fe obj r.session r.rb with stable_count := 0 }
                    encoder ⟨action_type.IncreaseQuality, 0⟩).1 = -1 then (state_t.Init, 0)
          else (state_t.ProbingUp, 0) :=
  process_rtcp_table fe obj r.toEvent.session encoder r.toEvent.rtcp r.toEvent.action r.rb
    (report_block_of_toEvent r)

/-- The run `lossy_quiet_lossy` from a fresh controller: `Probing` after the
first report, `Stable` with a counter of 0 after the second, `Probing` with a
counter of 1 after the third. -/
theorem lossy_quiet_lossy_run :
    ((process_all exact_float_env (ms_audio_bitrate_controller_new encoder_ok)
        ((lossy_quiet_lossy.take 1).map Report.toEvent)).1.state = state_t.Probing
      ∧ (process_all exact_float_env (ms_audio_bitrate_controller_new encoder_ok)
        ((lossy_quiet_lossy.take 1).map Report.toEvent)).1.stable_count = 0)
    ∧ ((process_all exact_float_env (ms_audio_bitrate_controller_new encoder_ok)
        ((lossy_quiet_lossy.take 2).map Report.toEvent)).1.state = state_t.Stable
      ∧ (process_all exact_float_env (ms_audio_bitrate_controller_new encoder_ok)
        ((lossy_quiet_lossy.take 2).map Report.toEvent)).1.stable_count = 0)
    ∧ ((process_all exact_float_env (ms_audio_bitrate_controller_new encoder_ok)
        (lossy_quiet_lossy.map Report.toEvent)).1.state = state_t.Probing
      ∧ (process_all exact_float_env (ms_audio_bitrate_controller_new encoder_ok)
        (lossy_quiet_lossy.map Report.toEvent)).1.stable_count = 1) := by
  -- the analysis of a lossy report, whatever the controller is
  have hlossy : ∀ (obj : MSAudioBitrateController) (seq : Nat),
      (analyse_quality (read_report exact_float_env obj (report_8000 seq 64 0).session
        (report_8000 seq 64 0).rb) (report_8000 seq 64 0).action).type
        ≠ action_type.DoNothing := by
    intro obj seq
    have hv := report_8000_sample (read_report exact_float_env obj
      (report_8000 seq 64 0).session (report_8000 seq 64 0).rb).clockrate seq 64 (by norm_num)
    have hr := (read_report_8000 obj seq 64).1
    rw [analyse_quality_DecreasePacketRate_of]
    · simp
    · rw [hr, hv.1]
      norm_num
    · rw [hr, hv.2.1]
      norm_num
    · rw [hr, hv.2.2]
      norm_num
  have hloss : ∀ (obj : MSAudioBitrateController) (seq f : Nat), f ≤ 256 →
      (slot_back (read_report exact_float_env obj (report_8000 seq f 0).session
        (report_8000 seq f 0).rb) 0).lost_percentage.toRat = 100 * (f : ℚ) / 256 := by
    intro obj seq f hf
    rw [(read_report_8000 obj seq f).1]
    exact (report_8000_sample _ seq f hf).1
  -- first report
  have t1 := process_report_table exact_float_env (ms_audio_bitrate_controller_new encoder_ok).1
    (ms_audio_bitrate_controller_new encoder_ok).2 (report_8000 1 64 0)
  have hs0 : (ms_audio_bitrate_controller_new encoder_ok).1.state = state_t.Init := rfl
  rw [hs0] at t1
  simp only at t1
  rw [if_pos (hlossy _ 1)] at t1
  have e1 : (lossy_quiet_lossy.take 1).map Report.toEvent = [(report_8000 1 64 0).toEvent] := rfl
  have e2 : (lossy_quiet_lossy.take 2).map Report.toEvent
      = [(report_8000 1 64 0).toEvent, (report_8000 2 0 0).toEvent] := rfl
  have e3 : lossy_quiet_lossy.map Report.toEvent
      = [(report_8000 1 64 0).toEvent, (report_8000 2 0 0).toEvent,
         (report_8000 3 64 0).toEvent] := rfl
  rw [e1, e2, e3]
  simp only [process_all]
  generalize hS1 : ms_audio_bitrate_controller_process_rtcp exact_float_env
    (ms_audio_bitrate_controller_new encoder_ok).1 (report_8000 1 64 0).toEvent.session
    (ms_audio_bitrate_controller_new encoder_ok).2 (report_8000 1 64 0).toEvent.rtcp
    (report_8000 1 64 0).toEvent.action = s1 at t1 ⊢
  have h1s : s1.1.state = state_t.Probing := (Prod.mk.inj t1).1
  have h1c : s1.1.stable_count = 0 := (Prod.mk.inj t1).2
  have h1l : (slot_back s1.1 0).lost_percentage.toRat = 25 := by
    rw [← hS1, process_rtcp_8000,
      slot_back_congr _ _ 0 (state_machine_fields _ _ _).1 (state_machine_fields _ _ _).2.1,
      hloss _ 1 64 (by norm_num)]
    norm_num
  -- second report
  have t2 := process_report_table exact_float_env s1.1 s1.2 (report_8000 2 0 0)
  rw [h1s] at t2
  simp only at t2
  have himp : has_improved (read_report exact_float_env s1.1 (report_8000 2 0 0).session
      (report_8000 2 0 0).rb) = true := by
    apply has_improved_of_loss
    · show (slot_back (read_report exact_float_env s1.1 (report_8000 2 0 0).session
        (report_8000 2 0 0).rb) 1).lost_percentage.toRat ≥ 20
      rw [(read_report_8000 s1.1 2 0).2, h1l]
      norm_num
    · show (slot_back (read_report exact_float_env s1.1 (report_8000 2 0 0).session
          (report_8000 2 0 0).rb) 0).lost_percentage.toRat
        < (slot_back (read_report exact_float_env s1.1 (report_8000 2 0 0).session
          (report_8000 2 0 0).rb) 1).lost_percentage.toRat
      rw [(read_report_8000 s1.1 2 0).2, h1l, hloss _ 2 0 (by norm_num)]
      norm_num
  rw [if_pos himp] at t2
  generalize ms_audio_bitrate_controller_process_rtcp exact_float_env s1.1
    (report_8000 2 0 0).toEvent.session s1.2 (report_8000 2 0 0).toEvent.rtcp
    (report_8000 2 0 0).toEvent.action = s2 at t2 ⊢
  have h2s : s2.1.state = state_t.Stable := (Prod.mk.inj t2).1
  have h2c : s2.1.stable_count = 0 := (Prod.mk.inj t2).2
  -- third report
  have t3 := process_report_table exact_float_env s2.1 s2.2 (report_8000 3 64 0)
  rw [h2s] at t3
  simp only at t3
  rw [if_pos (hlossy _ 3), h2c] at t3
  exact ⟨⟨h1s, h1c⟩, ⟨h2s, h2c⟩, ⟨(Prod.mk.inj t3).1, by rw [(Prod.mk.inj t3).2]; norm_num⟩⟩

/-- Witness of C17: the controller that the first lossy report left in
`Probing` processes the quiet report; the counter is 0 afterwards. -/
theorem stable_count_reset_witness :
    (ms_audio_bitrate_controller_process_rtcp exact_float_env
        (process_all exact_float_env (ms_audio_bitrate_controller_new encoder_ok)
          ((lossy_quiet_lossy.take 1).map Report.toEvent)).1
        (report_8000 2 0 0).toEvent.session
        (process_all exact_float_env (ms_audio_bitrate_controller_new encoder_ok)
          ((lossy_quiet_lossy.take 1).map Report.toEvent)).2
        (report_8000 2 0 0).toEvent.rtcp (report_8000 2 0 0).toEvent.action).1.stable_count
      = 0 :=
  (stable_count_reset exact_float_env
    (process_all exact_float_env (ms_audio_bitrate_controller_new encoder_ok)
      ((lossy_quiet_lossy.take 1).map Report.toEvent))
    (report_8000 2 0 0).toEvent.session (report_8000 2 0 0).toEvent.rtcp
    (report_8000 2 0 0).toEvent.action (report_8000 2 0 0).rb
    ⟨exact_float_env, encoder_ok, (lossy_quiet_lossy.take 1).map Report.toEvent, rfl⟩
    (report_block_of_toEvent _)).2.1 (Or.inl lossy_quiet_lossy_run.1.1)

/-- C17 as stated fails: a fresh controller receives a lossy, a quiet and a
lossy report.  After the second it is in `Stable`; the third moves it into
`Probing`, and the counter is then 1, not 0. -/
theorem stable_count_reset_counterexample :
    (process_all exact_float_env (ms_audio_bitrate_controller_new encoder_ok)
        ((lossy_quiet_lossy.take 2).map Report.toEvent)).1.state = state_t.Stable
    ∧ (process_all exact_float_env (ms_audio_bitrate_controller_new encoder_ok)
        (lossy_quiet_lossy.map Report.toEvent)).1.state = state_t.Probing
    ∧ (process_all exact_float_env (ms_audio_bitrate_controller_new encoder_ok)
        (lossy_quiet_lossy.map Report.toEvent)).1.stable_count = 1
    ∧ (process_all exact_float_env (ms_audio_bitrate_controller_new encoder_ok)
        (lossy_quiet_lossy.map Report.toEvent)).1.stable_count ≠ 0 := by
  have h := lossy_quiet_lossy_run
  refine ⟨h.2.1.1, h.2.2.1, h.2.2.2, ?_⟩
  rw [h.2.2.2]
  norm_num

/-- Witness of C20: the state reached after the lossy and the quiet report is
`Stable`; its counter is between 0 and 4. -/
theorem hysteresis_invariant_witness :
    0 ≤ (process_all exact_float_env (ms_audio_bitrate_controller_new encoder_ok)
        ((lossy_quiet_lossy.take 2).map Report.toEvent)).1.stable_count
    ∧ (process_all exact_float_env (ms_audio_bitrate_controller_new encoder_ok)
        ((lossy_quiet_lossy.take 2).map Report.toEvent)).1.stable_count ≤ 4 :=
  (hysteresis_invariant exact_float_env
    (process_all exact_float_env (ms_audio_bitrate_controller_new encoder_ok)
      ((lossy_quiet_lossy.take 2).map Report.toEvent))
    (report_8000 3 64 0).toEvent.session (report_8000 3 64 0).toEvent.rtcp
    (report_8000 3 64 0).toEvent.action
    ⟨exact_float_env, encoder_ok, (lossy_quiet_lossy.take 2).map Report.toEvent, rfl⟩).2.1
    lossy_quiet_lossy_run.2.1.1

end BitrateControl
